import Mathlib

/-!
# laitos: headless-browser remote control (`browser/phantomjs/renderer.go`)

A shallow embedding of the host-side `Instance` methods (Go) and of the
line-oriented DOM walker that runs inside the engine (the JavaScript of
`JSCodeTemplate`), together with `RunPreMaintenanceScript` of
`daemon/maintenance/sys.go`, followed by theorems about them.

Conventions of the embedding:

* Go `error` results are `Option Error` (`none` is `nil`).
* What the Go code obtains from outside the process (the HTTP exchange, the
  file system, the process-kill primitive) is passed in as a parameter and every
  effect the code performs is recorded in an explicit trace.
* A JavaScript value that may be `undefined` is an `Option`; `none` is
  `undefined`.  The `length` of a JavaScript string counts UTF-16 code units
  (`jsLength`): a character above U+FFFF counts twice.
-/

namespace Laitos

/-! ## Host side: the command channel -/

/-- Error values returned by the `Instance` methods. -/
inductive Error where
  /-- Text "Instance.GoTo: input URL must begin with http or https scheme". -/
  | invalidURL
  /-- Text "Instance.GoTo: result is false". -/
  | resultFalse
  /-- Text "slimerjs.Instance.RenderPage: render is not completed". -/
  | renderNotCompleted
  /-- Failure reported by `inet.DoHTTP` itself. -/
  | transport (msg : String)
  /-- Failure reported by `resp.Non2xxToError`, carrying the raw body. -/
  | non2xx (body : String)
  /-- Text "slimerjs.Instance.SendRequest: - ..." wrapping a JSON error. -/
  | decode (msg : String)
  /-- Failure of an `os` call other than "does not exist". -/
  | os (msg : String)
deriving DecidableEq, Repr

/-- One control request: the action name that ends the URL and the parameter
map, each value already rendered by `fmt.Sprint`. -/
structure Request where
  actionName : String
  params : List (String × String)
deriving DecidableEq, Repr

/-- The part of `inet.HTTPResponse` that `SendRequest` reads. -/
structure HTTPResponse where
  StatusCode : Int
  Body : String
deriving DecidableEq, Repr

/-- Modelled from the spec: `inet.HTTPResponse.Non2xxToError` is not among the
sources; "a non-2xx response yields ActionError carrying the raw body". -/
def Non2xxToError (resp : HTTPResponse) : Option Error :=
  if resp.StatusCode / 100 = 2 then none else some (Error.non2xx resp.Body)

/-- The engine as seen from the host: given the requests already issued and the
new one, the outcome of `inet.DoHTTP`. -/
abbrev Engine := List Request → Request → Except String HTTPResponse

/-- `Instance.SendRequest`.  `jsonReceiver = none` is a nil receiver, otherwise
it is `json.Unmarshal` into the receiver's type.  The second component is the
trace of requests issued, oldest first. -/
def SendRequest {α : Type} (doHTTP : Engine) (actionName : String)
    (params : List (String × String))
    (jsonReceiver : Option (String → Except String α))
    (sent : List Request) : Except Error (Option α) × List Request :=
  let req : Request := { actionName := actionName, params := params }
  let sent1 := sent ++ [req]
  match doHTTP sent req with
  | .error e => (.error (Error.transport e), sent1)
  | .ok resp =>
    match Non2xxToError resp with
    | some e => (.error e, sent1)
    | none =>
      match jsonReceiver with
      | none => (.ok none, sent1)
      | some unmarshal =>
        match unmarshal resp.Body with
        | .error m => (.error (Error.decode m), sent1)
        | .ok v => (.ok (some v), sent1)

/-- Go `strings.HasPrefix`. -/
def HasPrefix (s pre : String) : Bool :=
  pre.toList.isPrefixOf s.toList

/-- `Instance.GoTo`.  `result` starts as `false` and is overwritten by the
decoded response. -/
def GoTo (doHTTP : Engine) (unmarshalBool : String → Except String Bool)
    (userAgent pageURL : String) (width height : Int)
    (sent : List Request) : Option Error × List Request :=
  if !HasPrefix pageURL "http://" && !HasPrefix pageURL "https://" then
    (some Error.invalidURL, sent)
  else
    match SendRequest doHTTP "goto"
        [("user_agent", userAgent), ("page_url", pageURL),
         ("view_width", toString width), ("view_height", toString height)]
        (some unmarshalBool) sent with
    | (.error e, sent1) => (some e, sent1)
    | (.ok result, sent1) =>
      if !(result.getD false) then (some Error.resultFalse, sent1) else (none, sent1)


/-- The result of a method that is `return instance.SendRequest(..., nil)`:
the error of the request, and the trace. -/
def forward (r : Except Error (Option Unit) × List Request) : Option Error × List Request :=
  match r with
  | (.error e, sent1) => (some e, sent1)
  | (.ok _, sent1) => (none, sent1)

/-- The range check at the head of `SetRenderArea`: the values of `top`,
`left`, `width`, `height` after the four `if` statements. -/
def clampRenderArea (top left width height : Int) : Int × Int × Int × Int :=
  let top := if top < 0 then 0 else top
  let left := if left < 0 then 0 else left
  let width := if width < 0 then 10 else width
  let height := if height < 0 then 10 else height
  (top, left, width, height)

/-- `Instance.SetRenderArea`. -/
def SetRenderArea (doHTTP : Engine) (top left width height : Int) (sent : List Request) :
    Option Error × List Request :=
  match clampRenderArea top left width height with
  | (top, left, width, height) =>
    forward (@SendRequest Unit doHTTP "redraw_area"
      [("top", toString top), ("left", toString left), ("width", toString width),
       ("height", toString height)] none sent)

/-- `Instance.SendKey`; `strconv.FormatInt(aCode, 10)` is the decimal
rendering. -/
def SendKey (doHTTP : Engine) (aString : String) (aCode : Int) (sent : List Request) :
    Option Error × List Request :=
  if aString ≠ "" then
    forward (@SendRequest Unit doHTTP "type" [("key_string", aString)] none sent)
  else if aCode ≠ 0 then
    forward (@SendRequest Unit doHTTP "type" [("key_code", toString aCode)] none sent)
  else (none, sent)

/-- `Instance.LOPointer`. -/
def LOPointer (doHTTP : Engine) (actionType button : String) (sent : List Request) :
    Option Error × List Request :=
  forward (@SendRequest Unit doHTTP "lo_pointer" [("type", actionType), ("button", button)]
    none sent)

/-- `Instance.LOSetValue`. -/
def LOSetValue (doHTTP : Engine) (value : String) (sent : List Request) :
    Option Error × List Request :=
  forward (@SendRequest Unit doHTTP "lo_set_val" [("value", value)] none sent)

/-! ## Host side: the request body -/

/-- A Go string: its bytes. -/
abbrev GoString := List Nat

/-- The byte `"0123456789ABCDEF"[n]` that `url.QueryEscape` writes for the
half-byte `n`. -/
def upperhex (n : Nat) : Nat :=
  if n < 10 then 48 + n else 55 + n

/-- Go `shouldEscape(c, encodeQueryComponent)`: only letters, digits and
`-`, `_`, `.`, `~` are left as they are. -/
def shouldEscape (c : Nat) : Bool :=
  if (97 ≤ c ∧ c ≤ 122) ∨ (65 ≤ c ∧ c ≤ 90) ∨ (48 ≤ c ∧ c ≤ 57) then false
  else if c = 45 ∨ c = 95 ∨ c = 46 ∨ c = 126 then false
  else true

/-- Go `url.QueryEscape`: a space becomes `+`, any other byte that must be
escaped becomes `%` and two hexadecimal digits. -/
def QueryEscape (s : GoString) : GoString :=
  s.flatMap (fun c =>
    if shouldEscape c then
      if c = 32 then [43] else [37, upperhex (c / 16), upperhex (c % 16)]
    else [c])

/-- The order `sort.Strings` puts the keys in. -/
def sortKeys (v : List (GoString × GoString)) : List (GoString × GoString) :=
  v.insertionSort (fun a b => a.1 ≤ b.1)

/-- Go `url.Values.Encode` for a map with one value per key: the pairs in key
order, `&` written before every pair but the first. -/
def Encode (v : List (GoString × GoString)) : GoString :=
  (sortKeys v).foldl (fun buf kv =>
    (if buf.length > 0 then buf ++ [38] else buf)
      ++ QueryEscape kv.1 ++ [61] ++ QueryEscape kv.2) []

/-- Go `strings.Replace(s, "+", "%20", -1)`. -/
def replacePlus (s : GoString) : GoString :=
  s.flatMap (fun c => if c = 43 then [37, 50, 48] else [c])

/-- The body `SendRequest` transmits:
`strings.Replace(body.Encode(), "+", "%20", -1)`. -/
def fixSpaceForBody (params : List (GoString × GoString)) : GoString :=
  replacePlus (Encode params)

/-- Value of a hexadecimal digit. -/
def unhex (c : Nat) : Option Nat :=
  if 48 ≤ c ∧ c ≤ 57 then some (c - 48)
  else if 65 ≤ c ∧ c ≤ 70 then some (c - 55)
  else if 97 ≤ c ∧ c ≤ 102 then some (c - 87)
  else none

/-- Percent-decoding alone: `%XY` is the byte with hexadecimal digits `XY`,
every other byte, `+` included, stands for itself. -/
def percentDecode : GoString → Option GoString
  | [] => some []
  | c :: rest =>
    if c = 37 then
      match rest with
      | h :: l :: rest2 =>
        match unhex h, unhex l, percentDecode rest2 with
        | some a, some b, some r => some ((a * 16 + b) :: r)
        | _, _, _ => none
      | _ => none
    else (percentDecode rest).map (fun r => c :: r)

/-- The pieces of `s` between occurrences of `sep`. -/
def splitOn (sep : Nat) : GoString → List GoString
  | [] => [[]]
  | c :: rest =>
    if c = sep then [] :: splitOn sep rest
    else
      match splitOn sep rest with
      | [] => [[c]]
      | seg :: segs => (c :: seg) :: segs

/-- A form-body piece `key=value` read back with percent-decoding alone. -/
def parsePair (seg : GoString) : Option (GoString × GoString) :=
  match percentDecode (seg.takeWhile (fun c => c ≠ 61)),
        percentDecode ((seg.dropWhile (fun c => c ≠ 61)).drop 1) with
  | some k, some v => some (k, v)
  | _, _ => none

/-- The pieces of a form body read back one after the other. -/
def parsePairs : List GoString → Option (List (GoString × GoString))
  | [] => some []
  | seg :: segs =>
    match parsePair seg, parsePairs segs with
    | some kv, some kvs => some (kv :: kvs)
    | _, _ => none

/-- A form body read back with percent-decoding alone: pieces between `&`,
each split at its first `=`. -/
def parseBody (body : GoString) : Option (List (GoString × GoString)) :=
  if body = [] then some [] else parsePairs (splitOn 38 body)

/-- Percent-encoding in which a space is written `%20` like any other escaped
byte. -/
def percentEncode (s : GoString) : GoString :=
  s.flatMap (fun c =>
    if shouldEscape c then [37, upperhex (c / 16), upperhex (c % 16)] else [c])

/-- The piece `key=value` of a form body, both sides percent-encoded. -/
def encodedPair (kv : GoString × GoString) : GoString :=
  percentEncode kv.1 ++ 61 :: percentEncode kv.2

/-- A form body: the pieces joined by `&`. -/
def joinPairs : List GoString → GoString
  | [] => []
  | seg :: segs => seg ++ segs.flatMap (fun x => 38 :: x)

/-- The bytes of a text of ASCII characters. -/
def asciiBytes (s : String) : GoString :=
  s.toList.map Char.toNat


/-! ## Host side: the supervised process and its files -/

/-- The part of `os.Process` that `Kill` reads. -/
structure Process where
  Pid : Int
deriving DecidableEq, Repr

/-- The part of `exec.Cmd` that `Kill` reads; `Process` is nil until the
process has been started. -/
structure Cmd where
  Process : Option Process
deriving DecidableEq, Repr

/-- An `os.File`, of which only `Name()` is used. -/
structure File where
  Name : String
deriving DecidableEq, Repr

/-- The `Instance` struct, without the mutex, the logger and the debug buffer. -/
structure Instance where
  PhantomJSExecPath : String
  RenderImagePath : String
  Port : Int
  AutoKillTimeoutSec : Int
  Tag : String := ""
  Index : Int := 0
  serverJSFile : Option File := none
  jsProcCmd : Option Cmd := none
deriving DecidableEq, Repr

/-- The file system as far as deletion goes: the paths that exist, and the
paths whose deletion the system refuses. -/
structure FS where
  files : List String
  locked : List String := []
deriving DecidableEq, Repr

/-- The two kinds of error `os.Remove` returns, told apart by `os.IsNotExist`. -/
inductive PathError where
  | notExist
  | denied
deriving DecidableEq, Repr

/-- Go `os.Remove`: a missing path is the "does not exist" error, a refused
deletion leaves the file in place, otherwise the path is gone afterwards. -/
def os_Remove (fs : FS) (path : String) : Option PathError × FS :=
  if path ∈ fs.files then
    if path ∈ fs.locked then (some PathError.denied, fs)
    else (none, { fs with files := fs.files.filter (fun f => f ≠ path) })
  else (some PathError.notExist, fs)

/-- What `Kill` does to the outside world, in order. -/
inductive Effect where
  /-- A call of `platform.KillProcess`. -/
  | KillProcess (proc : Process)
  /-- A call of `os.Remove`. -/
  | Remove (path : String)
  /-- Warning "failed to kill process". -/
  | WarnKill
  /-- Warning "failed to delete ..." for the given path. -/
  | WarnRemove (path : String)
deriving DecidableEq, Repr

/-- The warning, if any, that follows an `os.Remove` in `Kill`:
`err != nil && !os.IsNotExist(err)`. -/
def removeWarning (err : Option PathError) (path : String) : List Effect :=
  match err with
  | some PathError.denied => [Effect.WarnRemove path]
  | _ => []

/-- `Instance.Kill`.  `KillProcess` is `platform.KillProcess`, whose result
tells whether the process was terminated.  The function has no result in Go;
here it yields the instance and file system afterwards and the effects
performed. -/
def Kill (KillProcess : Process → Bool) (inst : Instance) (fs : FS) :
    Instance × FS × List Effect :=
  let (fs2, effects) : FS × List Effect :=
    match inst.jsProcCmd with
    | none => (fs, [])
    | some jsProcCmd =>
      let eff0 : List Effect :=
        match jsProcCmd.Process with
        | none => []
        | some proc =>
          Effect.KillProcess proc :: (if !KillProcess proc then [Effect.WarnKill] else [])
      let (err1, fs1) := os_Remove fs inst.RenderImagePath
      let eff1 := eff0 ++ Effect.Remove inst.RenderImagePath
                    :: removeWarning err1 inst.RenderImagePath
      match inst.serverJSFile with
      | none => (fs1, eff1)
      | some serverJSFile =>
        let (err2, fs2) := os_Remove fs1 serverJSFile.Name
        (fs2, eff1 ++ Effect.Remove serverJSFile.Name
                  :: removeWarning err2 serverJSFile.Name)
  ({ inst with serverJSFile := none, jsProcCmd := none }, fs2, effects)

/-! ## Host side: starting the process -/

/-- The errors `Start` returns, by the step that failed. -/
inductive StartError where
  /-- Text "failed to create temporary file for PhantomJS code". -/
  | createFile
  /-- Text "failed to write PhantomJS server code". -/
  | writeCode
  /-- Text "PhantomJS process failed". -/
  | processFailed
  /-- Text "javascript server is not ready". -/
  | serverNotReady
deriving DecidableEq, Repr

/-- What `Start` meets outside the program: the tag drawn from `TagCounter`,
the name of the temporary script file, whether `os.OpenFile` fails, whether
writing, syncing or closing the script fails, whether the launch of the process
reports an error within the first second, the process id otherwise, and for
each of the connection attempts whether the port answers. -/
structure StartEnv where
  Tag : String
  scriptPath : String
  openFails : Bool
  writeFails : Bool
  launchFails : Bool
  Pid : Int
  portAnswers : Nat → Bool

/-- The loop `for i := 0; i < 20; i++` of `Start`: whether one of the 20
connection attempts succeeds. -/
def portIsOpen (env : StartEnv) : Bool :=
  (List.range 20).any env.portAnswers

/-- `Instance.Start`, without the watchdog that kills the process later. -/
def Start (KillProcess : Process → Bool) (env : StartEnv) (inst : Instance) (fs : FS) :
    Option StartError × Instance × FS × List Effect :=
  let inst0 := { inst with Tag := env.Tag }
  if env.openFails then
    (some StartError.createFile, { inst0 with serverJSFile := none }, fs, [])
  else
    let fs1 : FS :=
      { fs with files := if env.scriptPath ∈ fs.files then fs.files
                         else env.scriptPath :: fs.files }
    let inst1 := { inst0 with serverJSFile := some { Name := env.scriptPath } }
    if env.writeFails then (some StartError.writeCode, inst1, fs1, [])
    else if env.launchFails then
      (some StartError.processFailed,
        { inst1 with jsProcCmd := some { Process := none } }, fs1, [])
    else
      let inst2 := { inst1 with jsProcCmd := some { Process := some { Pid := env.Pid } } }
      if portIsOpen env then (none, inst2, fs1, [])
      else
        match Kill KillProcess inst2 fs1 with
        | (inst3, fs3, effects) => (some StartError.serverNotReady, inst3, fs3, effects)

/-! ## Host side: page information -/

/-- The Go struct `RemotePageInfo`. -/
structure RemotePageInfo where
  Title : String
  URL : String
deriving DecidableEq, Repr

/-- `Instance.GetPageInfo`; `unmarshal` is `json.Unmarshal` into a
`RemotePageInfo`, and `info` is the zero value unless it succeeds. -/
def GetPageInfo (doHTTP : Engine) (unmarshal : String → Except String RemotePageInfo)
    (sent : List Request) : (RemotePageInfo × Option Error) × List Request :=
  match SendRequest doHTTP "info" [] (some unmarshal) sent with
  | (.error e, sent1) => (({ Title := "", URL := "" }, some e), sent1)
  | (.ok info, sent1) => ((info.getD { Title := "", URL := "" }, none), sent1)

/-! ## Host side: render completion -/

/-- The loop variables of `RenderPage`. -/
structure PollState where
  fileSize : Int
  unchanging : Nat
deriving DecidableEq, Repr

/-- One iteration of the polling loop of `RenderPage`, before the sleep.
`stat` is the outcome of `os.Stat`: `none` when it fails, otherwise
`info.Size()`.  The result is `none` when the iteration returns nil from
`RenderPage`, otherwise the loop variables for the next iteration. -/
def pollStep (st : PollState) (stat : Option Int) : Option PollState :=
  match stat with
  | some size =>
    if size > 0 then
      if st.fileSize = size then
        if st.unchanging + 1 ≥ 4 then none
        else some { st with unchanging := st.unchanging + 1 }
      else some { fileSize := size, unchanging := 0 }
    else some st
  | none => some st

/-- What a call of `RenderPage` amounts to: its error result and the number of
polls of the screenshot file it made. -/
structure RenderResult where
  err : Option Error
  polls : Nat
deriving DecidableEq, Repr

/-- The loop `for i := 0; i < 60; i++` of `RenderPage`, `budget` iterations
being left before `i` reaches the bound; `stat i` is what poll `i` observes. -/
def renderLoop (stat : Nat → Option Int) : (budget : Nat) → (i : Nat) → PollState → RenderResult
  | 0, i, _ => { err := some Error.renderNotCompleted, polls := i }
  | budget + 1, i, st =>
    match pollStep st (stat i) with
    | none => { err := none, polls := i + 1 }
    | some st1 => renderLoop stat budget (i + 1) st1

/-- `Instance.RenderPage`: remove the stale screenshot, ask for a redraw, then
poll the file at most 60 times. -/
def RenderPage (doHTTP : Engine) (inst : Instance) (fs : FS) (stat : Nat → Option Int)
    (sent : List Request) : RenderResult × FS × List Request :=
  match os_Remove fs inst.RenderImagePath with
  | (some PathError.denied, fs1) => ({ err := some (Error.os "remove"), polls := 0 }, fs1, sent)
  | (_, fs1) =>
    match @SendRequest Unit doHTTP "redraw" [] none sent with
    | (.error e, sent1) => ({ err := some e, polls := 0 }, fs1, sent1)
    | (.ok _, sent1) => (renderLoop stat 60 0 { fileSize := 0, unchanging := 0 }, fs1, sent1)


/-- Render stabilization, in the words of the spec and of the comment in the
loop: at poll `k` the size is identical to that of the last four checks. -/
def stableAt (s : Nat → Int) (k : Nat) : Prop :=
  4 ≤ k ∧ s k = s (k - 1) ∧ s k = s (k - 2) ∧ s k = s (k - 3) ∧ s k = s (k - 4)

instance (s : Nat → Int) (k : Nat) : Decidable (stableAt s k) := by
  unfold stableAt
  infer_instance

/-- Number of consecutive polls, ending with poll `k`, each of which observed
the size its predecessor observed. -/
def runLen (s : Nat → Int) : Nat → Nat
  | 0 => 0
  | k + 1 => if s (k + 1) = s k then runLen s k + 1 else 0

/-! ## Engine side: the line-oriented walker of `JSCodeTemplate` -/

/-- What the walker reads of a DOM node.  A property the node does not have
(a text node has no dimensions, a `div` has no `name`) is `none`. -/
structure Elem where
  tagName : Option String
  id : Option String
  name : Option String := none
  value : Option String := none
  innerHTML : Option String
  offsetHeight : Option Int
  offsetWidth : Option Int
  /-- `getBoundingClientRect().left`, in whole pixels. -/
  rectLeft : Int := 0
  /-- `getBoundingClientRect().top`, in whole pixels. -/
  rectTop : Int := 0
deriving DecidableEq, Repr

/-- A DOM node with its `childNodes`. -/
inductive Node where
  | mk (props : Elem) (childNodes : List Node)

/-- The properties of a node. -/
def Node.props : Node → Elem
  | .mk p _ => p

/-- The object built by `laitos_pjs_elem_to_obj`, the Go `ElementInfo`. -/
structure ElementInfo where
  tag : Option String
  id : Option String
  name : Option String
  value : Option String
  inner : Option String
deriving DecidableEq, Repr

/-- `laitos_pjs_elem_to_obj`. -/
def laitos_pjs_elem_to_obj (elem : Node) : ElementInfo :=
  { tag := elem.props.tagName, id := elem.props.id, name := elem.props.name,
    value := elem.props.value, inner := elem.props.innerHTML }

/-- A value held by a cursor slot or by an entry of a returned array. -/
inductive Slot where
  | null
  | str (s : String)
  | info (e : ElementInfo)
deriving DecidableEq, Repr

/-- The `window.laitos_pjs_*` variables that `elem_info_to_stmt` assigns. -/
structure Locator where
  tag : Option String
  id : Option String
  name : Option String
  inner : Option String
  stop_at_first : Bool
deriving DecidableEq, Repr

/-- `elem_info_to_stmt`: the assignment it encodes.  For `null` the four fields
are the empty string and `stop_at_first` is on; a property read from a string
is `undefined`. -/
def elem_info_to_stmt (elem_info : Slot) : Locator :=
  match elem_info with
  | Slot.null => { tag := some "", id := some "", name := some "", inner := some "",
                   stop_at_first := true }
  | Slot.info e => { tag := e.tag, id := e.id, name := e.name, inner := e.inner,
                     stop_at_first := false }
  | Slot.str _ => { tag := none, id := none, name := none, inner := none,
                    stop_at_first := false }

/-- JavaScript truthiness of a string that may be `undefined`. -/
def truthy (s : Option String) : Bool :=
  match s with
  | none => false
  | some str => str != ""

/-- JavaScript `x > 3` for a number that may be `undefined`. -/
def gt3 (x : Option Int) : Bool :=
  match x with
  | none => false
  | some v => decide (v > 3)

/-- The `length` property of a JavaScript string: the number of UTF-16 code
units, one for a character up to U+FFFF and two (a surrogate pair) for a
character above it.  Texts with an unpaired surrogate are not strings here. -/
def jsLength (s : String) : Nat :=
  (s.toList.map (fun c => if c.toNat < 65536 then 1 else 2)).sum

/-- The test `height > 3 && width > 3 && (!elem_inner || elem_inner &&
elem_inner.length < cap)` of both search functions; `cap` is 1000 in
`laitos_pjs_find_before_after` and 8192 in `laitos_pjs_find_after`. -/
def eligible (cap : Nat) (elem : Node) : Bool :=
  gt3 elem.props.offsetHeight && gt3 elem.props.offsetWidth &&
    (!truthy elem.props.innerHTML ||
      (truthy elem.props.innerHTML &&
        decide (jsLength (elem.props.innerHTML.getD "") < cap)))

/-- The test `elem.tagName === tag && elem.id === id && elem.name === name &&
elem_inner === inner`. -/
def sameFields (loc : Locator) (elem : Node) : Bool :=
  decide (elem.props.tagName = loc.tag) && decide (elem.props.id = loc.id) &&
    decide (elem.props.name = loc.name) && decide (elem.props.innerHTML = loc.inner)

mutual
/-- `laitos_pjs_walk`: children first, then the node itself; a `false` from
`walk_fun` ends the whole walk.  `walk_fun` is a closure, its captured
variables are the state `σ`. -/
def laitos_pjs_walk {σ : Type} (walk_fun : Node → σ → σ × Bool) : Node → σ → σ × Bool
  | .mk props childNodes, s =>
    match walkChildNodes walk_fun childNodes s with
    | (s1, false) => (s1, false)
    | (s1, true) => walk_fun (.mk props childNodes) s1
/-- The `for` loop of `laitos_pjs_walk` over `elem.childNodes`. -/
def walkChildNodes {σ : Type} (walk_fun : Node → σ → σ × Bool) : List Node → σ → σ × Bool
  | [], s => (s, true)
  | child :: rest, s =>
    match laitos_pjs_walk walk_fun child s with
    | (s1, false) => (s1, false)
    | (s1, true) => walkChildNodes walk_fun rest s1
end

/-- The variables of `laitos_pjs_find_before_after`, with
`window.laitos_pjs_current_elem`. -/
structure FindState where
  before : Option Node
  exact : Option Node
  after : Option Node
  stop_next : Bool
  laitos_pjs_current_elem : Option Node

/-- The function `laitos_pjs_find_before_after` hands to `laitos_pjs_walk`.
The element that becomes `exact` is also given the focus. -/
def find_before_after_fun (loc : Locator) (elem : Node) (st : FindState) : FindState × Bool :=
  if eligible 1000 elem then
    if st.stop_next then
      ({ st with after := some elem }, false)
    else if sameFields loc elem || loc.stop_at_first then
      ({ st with exact := some elem, laitos_pjs_current_elem := some elem, stop_next := true },
        true)
    else
      ({ st with before := some elem }, true)
  else (st, true)

/-- `laitos_pjs_find_before_after` on the document whose root is `document`:
the array it returns, and `window.laitos_pjs_current_elem` afterwards. -/
def laitos_pjs_find_before_after (document : Node) (loc : Locator)
    (current_elem : Option Node) : List (Option ElementInfo) × Option Node :=
  let st := (laitos_pjs_walk (find_before_after_fun loc) document
    { before := none, exact := none, after := none, stop_next := false,
      laitos_pjs_current_elem := current_elem }).1
  ([st.before.map laitos_pjs_elem_to_obj, st.exact.map laitos_pjs_elem_to_obj,
    st.after.map laitos_pjs_elem_to_obj], st.laitos_pjs_current_elem)

/-- The variables of `laitos_pjs_find_after`, with
`window.laitos_pjs_current_elem`. -/
structure AfterState where
  ret : List ElementInfo
  matched : Bool
  laitos_pjs_current_elem : Option Node

/-- The function `laitos_pjs_find_after` hands to `laitos_pjs_walk`. -/
def find_after_fun (loc : Locator) (num : Int) (elem : Node) (st : AfterState) :
    AfterState × Bool :=
  if eligible 8192 elem then
    if sameFields loc elem then
      ({ st with matched := true }, true)
    else if st.matched then
      if (st.ret.length : Int) < num then
        ({ st with ret := st.ret ++ [laitos_pjs_elem_to_obj elem],
                   laitos_pjs_current_elem := some elem }, true)
      else (st, false)
    else (st, true)
  else (st, true)

/-- `laitos_pjs_find_after`: the array it returns, and
`window.laitos_pjs_current_elem` afterwards. -/
def laitos_pjs_find_after (document : Node) (loc : Locator) (num : Int)
    (current_elem : Option Node) : List ElementInfo × Option Node :=
  let st := (laitos_pjs_walk (find_after_fun loc num) document
    { ret := [], matched := false, laitos_pjs_current_elem := current_elem }).1
  (st.ret, st.laitos_pjs_current_elem)

/-- The page held in `browser`: the document it shows and the window property
that survives from one request to the next. -/
structure Page where
  document : Node
  /-- `window.laitos_pjs_current_elem`.  The script never declares it: it
  exists only once a search function has assigned the element it focused, so
  `none` is "not a property of this window", and there is no other falsy
  state. -/
  laitos_pjs_current_elem : Option Node := none
  /-- `window.scrollX`, in whole pixels. -/
  scrollX : Int := 0
  /-- `window.scrollY`, in whole pixels. -/
  scrollY : Int := 0
  /-- `window.laitos_pjs_set_value_to`, assigned by `b_lo_set_val`. -/
  laitos_pjs_set_value_to : Option String := none
  /-- `document.title`. -/
  title : String := ""
  /-- `browser.url`. -/
  url : String := ""

/-- The variables of the control script that the walker uses. -/
structure EngineState where
  browser : Option Page
  exact_info : Slot := Slot.null
  before_info : Slot := Slot.null
  after_info : Slot := Slot.null

/-- How an array entry computed in the page arrives in the control script: by
the comment above `empty_str_to_null`, a null arrives as the empty string. -/
def evaluateEntry (v : Option ElementInfo) : Slot :=
  match v with
  | none => Slot.str ""
  | some e => Slot.info e

/-- `empty_str_to_null`. -/
def empty_str_to_null (array : List Slot) : List Slot :=
  array.map (fun v => if v = Slot.str "" then Slot.null else v)

/-- `b_lo_reset`. -/
def b_lo_reset (st : EngineState) : EngineState :=
  { st with before_info := Slot.null, exact_info := Slot.null, after_info := Slot.null }

/-- The common end of `b_lo_next` and `b_lo_prev`: run
`laitos_pjs_find_before_after` with the variables `stmt` assigned, normalise
the array and store its three entries (the array always has three). -/
def locateAndStore (st : EngineState) (page : Page) (stmt : Locator) :
    EngineState × Option (List Slot) :=
  let found := laitos_pjs_find_before_after page.document stmt page.laitos_pjs_current_elem
  let ret := empty_str_to_null (found.1.map evaluateEntry)
  ({ st with browser := some { page with laitos_pjs_current_elem := found.2 },
             before_info := ret.getD 0 Slot.null,
             exact_info := ret.getD 1 Slot.null,
             after_info := ret.getD 2 Slot.null }, some ret)

/-- `b_lo_next`.  The result `none` is the `false` returned when no page
exists. -/
def b_lo_next (st : EngineState) : EngineState × Option (List Slot) :=
  match st.browser with
  | none => (st, none)
  | some page =>
    if st.exact_info = Slot.null then
      locateAndStore st page (elem_info_to_stmt st.exact_info)
    else if st.after_info = Slot.null then
      locateAndStore st page (elem_info_to_stmt st.exact_info)
    else
      locateAndStore st page (elem_info_to_stmt st.after_info)

/-- `b_lo_prev`. -/
def b_lo_prev (st : EngineState) : EngineState × Option (List Slot) :=
  match st.browser with
  | none => (st, none)
  | some page => locateAndStore st page (elem_info_to_stmt st.before_info)

/-- `b_lo_next_n` with `param.n = n`. -/
def b_lo_next_n (st : EngineState) (n : Int) : EngineState × Option (List Slot) :=
  match st.browser with
  | none => (st, none)
  | some _ =>
    let st1 := if st.exact_info = Slot.null then (b_lo_next st).1 else st
    match st1.browser with
    | none => (st1, none)
    | some page =>
      let found := laitos_pjs_find_after page.document (elem_info_to_stmt st1.exact_info) n
        page.laitos_pjs_current_elem
      let ret := empty_str_to_null (found.1.map Slot.info)
      let st2 := { st1 with browser := some { page with laitos_pjs_current_elem := found.2 } }
      if ret.length > 0 then
        ({ st2 with before_info := st1.exact_info,
                    exact_info := ret.getLastD Slot.null,
                    after_info := ret.getLastD Slot.null }, some ret)
      else (st2, some ret)

/-- A request to one of the three walking actions. -/
inductive WalkerCall where
  | LONext
  | LOPrev
  | LONextN (n : Int)
deriving DecidableEq, Repr

/-- The engine state after the engine has handled a walking request. -/
def handleWalkerCall (st : EngineState) : WalkerCall → EngineState
  | WalkerCall.LONext => (b_lo_next st).1
  | WalkerCall.LOPrev => (b_lo_prev st).1
  | WalkerCall.LONextN n => (b_lo_next_n st n).1

/-! ## Engine side: the other actions -/

/-- One call of `browser.sendEvent(type, x, y, button)`. -/
structure PointerEvent where
  type : String
  x : Int
  y : Int
  button : String
deriving DecidableEq, Repr

/-- What an action returns when it is not an array: a boolean, a number, or
`null`. -/
inductive JSResult where
  | bool (b : Bool)
  | number (x : Int)
  | null
deriving DecidableEq, Repr

/-- `b_pointer`: the result and the events sent to the page. -/
def b_pointer (st : EngineState) (type : String) (x y : Int) (button : String) :
    JSResult × List PointerEvent :=
  match st.browser with
  | none => (JSResult.bool false, [])
  | some _ => (JSResult.bool true, [{ type := type, x := x, y := y, button := button }])

/-- What `browser.evaluate` yields for the page function
`function () { if (!laitos_pjs_current_elem) { return false; } return
laitos_pjs_current_elem.getBoundingClientRect().<side> + window.<scroll>; }`,
where `coordinate` computes the sum returned for an element.  While no search
function has assigned `window.laitos_pjs_current_elem` in this window, reading
the undeclared name throws a ReferenceError in the page, the function returns
nothing and `evaluate` yields `null`; once assigned, the property holds an
element, which is truthy.  The guard returns `false` in neither case. -/
def evaluateAtCurrentElem (page : Page) (coordinate : Node → Int) : JSResult :=
  match page.laitos_pjs_current_elem with
  | none => JSResult.null
  | some elem => JSResult.number (coordinate elem)

/-- The JavaScript sum `x + 1`: `null` and `false` convert to 0, `true` to 1. -/
def plusOne (x : JSResult) : Int :=
  match x with
  | JSResult.number v => v + 1
  | JSResult.null => 1
  | JSResult.bool false => 1
  | JSResult.bool true => 2

/-- `b_lo_pointer` with `param.type = type` and `param.button = button`. -/
def b_lo_pointer (st : EngineState) (type button : String) : JSResult × List PointerEvent :=
  match st.browser with
  | none => (JSResult.bool false, [])
  | some page =>
    let x := evaluateAtCurrentElem page (fun elem => elem.props.rectLeft + page.scrollX)
    let y := evaluateAtCurrentElem page (fun elem => elem.props.rectTop + page.scrollY)
    if x = JSResult.bool false ∨ y = JSResult.bool false then (JSResult.bool false, [])
    else b_pointer st type (plusOne x) (plusOne y) button

/-- `b_lo_set_val` with `param.value = value`: it stores the value in
`window.laitos_pjs_set_value_to` and returns what the last `evaluate`
returns. -/
def b_lo_set_val (st : EngineState) (value : String) : EngineState × JSResult :=
  match st.browser with
  | none => (st, JSResult.bool false)
  | some page =>
    ({ st with browser := some { page with laitos_pjs_set_value_to := some value } },
      evaluateAtCurrentElem page (fun elem => elem.props.rectLeft + page.scrollX))

/-- `b_goto`.  The page handle is created when there is none, the cursor is
reset, and the page is opened; `loaded` is the document the navigation ends
in, which belongs to a new window. -/
def b_goto (st : EngineState) (loaded : Node) : EngineState × JSResult :=
  ({ b_lo_reset st with browser := some { document := loaded } }, JSResult.bool true)

/-- The common shape of `b_back`, `b_forward` and `b_reload`: refused when no
page exists, otherwise the cursor is reset and the page navigates; `loaded` is
the document the navigation ends in. -/
def navigate (st : EngineState) (loaded : Node) : EngineState × JSResult :=
  match st.browser with
  | none => (st, JSResult.bool false)
  | some _ => ({ b_lo_reset st with browser := some { document := loaded } }, JSResult.bool true)

/-- `b_back`. -/
def b_back (st : EngineState) (loaded : Node) : EngineState × JSResult :=
  navigate st loaded

/-- `b_forward`. -/
def b_forward (st : EngineState) (loaded : Node) : EngineState × JSResult :=
  navigate st loaded

/-- `b_reload`. -/
def b_reload (st : EngineState) (loaded : Node) : EngineState × JSResult :=
  navigate st loaded

/-- A request to the embedded server, by its path; the navigating ones carry
the document that the navigation ends in. -/
inductive Action where
  | redraw
  | redraw_area (top left width height : Int)
  | back (loaded : Node)
  | forward (loaded : Node)
  | reload (loaded : Node)
  | goto (user_agent page_url : String) (view_width view_height : Int) (loaded : Node)
  | info
  | pointer (type : String) (x y : Int) (button : String)
  | key (key_string : String) (key_code : Int)
  | lo_reset
  | lo_next
  | lo_prev
  | lo_next_n (n : Int)
  | lo_pointer (type button : String)
  | lo_set_val (value : String)

/-- The variables of the control script after the server has handled a
request.  Rendering, page information and events sent to the page do not
touch them; what the page itself does with an event is not followed here. -/
def handle (st : EngineState) : Action → EngineState
  | Action.redraw => st
  | Action.redraw_area _ _ _ _ => st
  | Action.back loaded => (b_back st loaded).1
  | Action.forward loaded => (b_forward st loaded).1
  | Action.reload loaded => (b_reload st loaded).1
  | Action.goto _ _ _ _ loaded => (b_goto st loaded).1
  | Action.info => st
  | Action.pointer _ _ _ _ => st
  | Action.key _ _ => st
  | Action.lo_reset => b_lo_reset st
  | Action.lo_next => (b_lo_next st).1
  | Action.lo_prev => (b_lo_prev st).1
  | Action.lo_next_n n => (b_lo_next_n st n).1
  | Action.lo_pointer _ _ => st
  | Action.lo_set_val value => (b_lo_set_val st value).1

/-- The control script at start-up: no page, `exact_info = before_info =
after_info = null`. -/
def startUp : EngineState := { browser := none }

/-- The cursor triple is (empty, empty, empty). -/
def cursorEmpty (st : EngineState) : Prop :=
  st.before_info = Slot.null ∧ st.exact_info = Slot.null ∧ st.after_info = Slot.null

/-- `JSON.stringify` of a boolean, a whole number or `null`. -/
def JSON_stringify (r : JSResult) : String :=
  match r with
  | JSResult.bool true => "true"
  | JSResult.bool false => "false"
  | JSResult.number x => toString x
  | JSResult.null => "null"

/-- The response the embedded server writes for the result `ret`:
`resp.statusCode = 200` and `resp.write(JSON.stringify(ret))`. -/
def serverResponse (ret : JSResult) : HTTPResponse :=
  { StatusCode := 200, Body := JSON_stringify ret }

/-- What `b_info` returns: the empty string, or the object with the title and
the URL of the page. -/
inductive InfoAnswer where
  | emptyString
  | object (title page_url : String)
deriving DecidableEq, Repr

/-- `b_info`. -/
def b_info (st : EngineState) : InfoAnswer :=
  match st.browser with
  | none => InfoAnswer.emptyString
  | some page => InfoAnswer.object page.title page.url

/-- The response the embedded server writes for the answer of `b_info`;
`stringify title page_url` is `JSON.stringify` of the object. -/
def infoResponse (stringify : String → String → String) (ret : InfoAnswer) : HTTPResponse :=
  match ret with
  | InfoAnswer.emptyString => { StatusCode := 200, Body := "\"\"" }
  | InfoAnswer.object title page_url => { StatusCode := 200, Body := stringify title page_url }

/-! ## Maintenance daemon: `daemon/maintenance/sys.go` -/

/-- The two fields of the maintenance `Daemon` that hold the pre-maintenance
scripts. -/
structure Daemon where
  PreScriptUnix : String
  PreScriptWindows : String
deriving DecidableEq, Repr

/-- One call of `misc.InvokeShell`: the timeout in seconds, the interpreter
and the script text. -/
structure ShellCall where
  timeoutSec : Int
  interpreter : String
  content : String
deriving DecidableEq, Repr

/-- `Daemon.RunPreMaintenanceScript`: the calls of `misc.InvokeShell` it makes,
given the results of `misc.HostIsWindows()` and
`misc.GetDefaultShellInterpreter()`. -/
def RunPreMaintenanceScript (HostIsWindows : Bool) (GetDefaultShellInterpreter : String)
    (daemon : Daemon) : List ShellCall :=
  (if daemon.PreScriptUnix ≠ "" ∧ !HostIsWindows then
    [{ timeoutSec := 10 * 600, interpreter := GetDefaultShellInterpreter,
       content := daemon.PreScriptUnix }]
   else []) ++
  (if daemon.PreScriptWindows ≠ "" ∧ HostIsWindows then
    [{ timeoutSec := 10 * 600, interpreter := GetDefaultShellInterpreter,
       content := daemon.PreScriptWindows }]
   else [])

/-- A request to one of the two actions bound to the focused element. -/
inductive FocusCall where
  | LOPointer (type button : String)
  | LOSetValue (value : String)
deriving DecidableEq, Repr

/-- The engine state after the engine has handled a pointer or value request
at the cursor.  `b_lo_pointer` assigns nothing itself, but every event it
passes to `browser.sendEvent` is handled by the page, whose handlers may
rewrite the document and whose links may open another one; that is not in the
script, so `react event page` is the page as it is once it has handled
`event`. -/
def handleFocusCall (react : PointerEvent → Page → Page) (st : EngineState) :
    FocusCall → EngineState
  | FocusCall.LOPointer type button =>
    match st.browser with
    | none => st
    | some page =>
      let events := (b_lo_pointer st type button).2
      { st with browser := some (events.foldl (fun p event => react event p) page) }
  | FocusCall.LOSetValue value => (b_lo_set_val st value).1

/-- The state in which `b_lo_next_n` runs its scan: after the `b_lo_next` it
makes first when the current slot is empty. -/
def beforeScan (st : EngineState) : EngineState :=
  if st.exact_info = Slot.null then (b_lo_next st).1 else st

/-! ## The walk as the spec words it -/

mutual
/-- Children-first traversal order: the nodes below `elem` in document order,
each one after its own descendants. -/
def postorder : Node → List Node
  | .mk props childNodes => postorderList childNodes ++ [.mk props childNodes]
/-- Children-first traversal of a list of siblings. -/
def postorderList : List Node → List Node
  | [] => []
  | child :: rest => postorder child ++ postorderList rest
end

/-- The eligible elements of a document, in traversal order. -/
def eligibleElems (cap : Nat) (document : Node) : List Node :=
  (postorder document).filter (eligible cap)

/-- An element of the walk as a slot value; no element is `null`. -/
def slotOf (elem : Option Node) : Slot :=
  match elem with
  | none => Slot.null
  | some e => Slot.info (laitos_pjs_elem_to_obj e)

/-- A walk over a list of nodes in order, ended by the first `false` of
`walk_fun`. -/
def walkList {σ : Type} (walk_fun : Node → σ → σ × Bool) : List Node → σ → σ × Bool
  | [], s => (s, true)
  | x :: xs, s =>
    match walk_fun x s with
    | (s1, false) => (s1, false)
    | (s1, true) => walkList walk_fun xs s1

/-- The element test of `laitos_pjs_find_before_after` once the element is
eligible: the four fields match, or `stop_at_first` is on. -/
def isTarget (loc : Locator) (elem : Node) : Bool :=
  sameFields loc elem || loc.stop_at_first

/-- Split of a list of elements around the first one that passes `m`:
the element before it, the element itself, the element after it.  When none
passes, the first component is the last element of the list. -/
def locateFrom (m : Node → Bool) (before : Option Node) :
    List Node → Option Node × Option Node × Option Node
  | [] => (before, none, none)
  | x :: xs => if m x then (before, some x, xs.head?) else locateFrom m (some x) xs

/-- The locator `b_lo_next` chooses. -/
def nextLocator (st : EngineState) : Locator :=
  if st.exact_info = Slot.null then elem_info_to_stmt st.exact_info
  else if st.after_info = Slot.null then elem_info_to_stmt st.exact_info
  else elem_info_to_stmt st.after_info

/-- The split of the eligible elements of `document` that a search with the
locator `loc` arrives at. -/
def located (loc : Locator) (document : Node) : Option Node × Option Node × Option Node :=
  locateFrom (isTarget loc) none (eligibleElems 1000 document)

/-- The elements `u` and `v` agree on the four fields a locator compares. -/
def sameLocatorFields (u v : Node) : Prop :=
  u.props.tagName = v.props.tagName ∧ u.props.id = v.props.id ∧
    u.props.name = v.props.name ∧ u.props.innerHTML = v.props.innerHTML

/-- The elements that `laitos_pjs_find_after` collects from the nodes `L` in
walk order: those eligible under the 8192 cap, from the first one that matches
the locator on, the matching ones left out, at most `num` of them. -/
def collectedAfter (loc : Locator) (num : Int) (L : List Node) : List Node :=
  ((((L.filter (eligible 8192)).dropWhile (fun e => !sameFields loc e)).filter
    (fun e => !sameFields loc e)).take num.toNat)

instance (u v : Node) : Decidable (sameLocatorFields u v) := by
  unfold sameLocatorFields
  infer_instance

/-- The elements of `L` are pairwise distinct in (tag, id, name, inner). -/
def distinctFields (L : List Node) : Prop :=
  L.Pairwise (fun u v => ¬ sameLocatorFields u v)

instance (L : List Node) : Decidable (distinctFields L) := by
  unfold distinctFields
  infer_instance

/-- The `index`-th element of `L` with its neighbours, as the three slots of
a returned triple; a neighbour that does not exist is empty. -/
def tripleAt (L : List Node) (index : Nat) : List Slot :=
  [slotOf (if index = 0 then none else L[index - 1]?), slotOf L[index]?,
    slotOf L[index + 1]?]

/-- The engine state after `k` consecutive `b_lo_next`. -/
def afterNexts (k : Nat) (st : EngineState) : EngineState :=
  (fun s => (b_lo_next s).1)^[k] st

/-- The document the engine shows, if a page exists. -/
def docOf (st : EngineState) : Option Node :=
  st.browser.map Page.document

/-! ## Example inputs -/

/-- The instance that `Start` leaves behind when writing the script fails
(lines 519-529): the script file handle is set, the process handle is not, and
the script is on disk next to a stale screenshot. -/
def startFailedInstance : Instance :=
  { PhantomJSExecPath := "/usr/bin/phantomjs", RenderImagePath := "/tmp/page.jpg",
    Port := 12345, AutoKillTimeoutSec := 60, Tag := "1",
    serverJSFile := some { Name := "/tmp/laitos-phantomjs-1.js" }, jsProcCmd := none }

/-- The file system that goes with `startFailedInstance`; nothing is locked. -/
def startFailedFS : FS :=
  { files := ["/tmp/page.jpg", "/tmp/laitos-phantomjs-1.js"], locked := [] }

/-- The instance of `startFailedInstance` once the process has been launched. -/
def runningInstance : Instance :=
  { startFailedInstance with jsProcCmd := some { Process := some { Pid := 4321 } } }

/-- An engine that answers every request with status 200 and body `true`. -/
def okEngine : Engine := fun _ _ => .ok { StatusCode := 200, Body := "true" }

/-- A screenshot that is 1024 bytes larger at every poll. -/
def growingSize (i : Nat) : Int := 1024 * (i + 1)

/-- A screenshot that grows for three polls and then stays at 4096 bytes. -/
def settlingSize (i : Nat) : Int := if i < 3 then 1024 * (i + 1) else 4096

/-- An element `<input value=...>` without id or name. -/
def inputElem (value : String) : Node :=
  .mk { tagName := some "INPUT", id := some "", name := some "", value := some value,
        innerHTML := some "", offsetHeight := some 20, offsetWidth := some 150,
        rectLeft := 8, rectTop := 30 } []

/-- Snapshot of `inputElem value`. -/
def inputInfo (value : String) : ElementInfo :=
  { tag := some "INPUT", id := some "", name := some "", value := some value,
    inner := some "" }

/-- The element `<head></head>`, which is not rendered. -/
def headElem : Node :=
  .mk { tagName := some "HEAD", id := some "", innerHTML := some "",
        offsetHeight := some 0, offsetWidth := some 0 } []

/-- The element `<a>hi</a>` with its text node. -/
def linkElem : Node :=
  .mk { tagName := some "A", id := some "", name := some "", innerHTML := some "hi",
        offsetHeight := some 18, offsetWidth := some 14 }
    [.mk { tagName := none, id := none, innerHTML := none, offsetHeight := none,
           offsetWidth := none } []]

/-- Snapshot of `linkElem`. -/
def linkInfo : ElementInfo :=
  { tag := some "A", id := some "", name := some "", value := none, inner := some "hi" }

/-- A `<body>` with the given markup and children. -/
def bodyElem (inner : String) (childNodes : List Node) : Node :=
  .mk { tagName := some "BODY", id := some "", innerHTML := some inner,
        offsetHeight := some 600, offsetWidth := some 800 } childNodes

/-- An `<html>` document with an empty head and the given body. -/
def htmlElem (bodyInner : String) (bodyChildNodes : List Node) : Node :=
  .mk { tagName := some "HTML", id := some "",
        innerHTML := some ("<head></head><body>" ++ bodyInner ++ "</body>"),
        offsetHeight := some 600, offsetWidth := some 800 }
    [headElem, bodyElem bodyInner bodyChildNodes]

/-- A page with a link followed by two inputs that differ in their value only. -/
def twinPage : Page :=
  { document := htmlElem "<a>hi</a><input value=\"A\"><input value=\"B\">"
      [linkElem, inputElem "A", inputElem "B"] }

/-- The engine right after navigation to `twinPage`: the cursor is empty. -/
def twinStart : EngineState := { browser := some twinPage }

/-- A text of 1000 characters. -/
def longText : String := String.mk (List.replicate 1000 'x')

/-- The element `<p>xx...x</p>` holding `longText`. -/
def longParagraph : Node :=
  .mk { tagName := some "P", id := some "", innerHTML := some longText,
        offsetHeight := some 400, offsetWidth := some 780 }
    [.mk { tagName := none, id := none, innerHTML := none, offsetHeight := none,
           offsetWidth := none } []]

/-- Snapshot of `longParagraph`. -/
def longParagraphInfo : ElementInfo :=
  { tag := some "P", id := some "", name := none, value := none, inner := some longText }

/-- A page with a link followed by a paragraph of 1000 characters. -/
def longPage : Page :=
  { document := htmlElem ("<a>hi</a><p>" ++ longText ++ "</p>") [linkElem, longParagraph] }

/-- The engine right after navigation to `longPage`. -/
def longStart : EngineState := { browser := some longPage }

/-- A page with a single link. -/
def linkPage : Page :=
  { document := htmlElem "<a>hi</a>" [linkElem] }

/-- The engine right after navigation to `linkPage`. -/
def linkStart : EngineState := { browser := some linkPage }

/-- Snapshot of the body of `linkPage`. -/
def linkBodyInfo : ElementInfo :=
  { tag := some "BODY", id := some "", name := none, value := none,
    inner := some "<a>hi</a>" }

/-- Snapshot of the root of `linkPage`. -/
def linkHtmlInfo : ElementInfo :=
  { tag := some "HTML", id := some "", name := none, value := none,
    inner := some "<head></head><body><a>hi</a></body>" }

/-- The engine on `twinPage` after two `b_lo_next`: the cursor is on the input
with value "A", which has the focus. -/
def twinOnFirstInput : EngineState := (b_lo_next (b_lo_next twinStart).1).1

/-- Snapshot of the body of `twinPage`. -/
def twinBodyInfo : ElementInfo :=
  { tag := some "BODY", id := some "", name := none, value := none,
    inner := some "<a>hi</a><input value=\"A\"><input value=\"B\">" }

/-- Snapshot of the root of `twinPage`. -/
def twinHtmlInfo : ElementInfo :=
  { tag := some "HTML", id := some "", name := none, value := none,
    inner := some "<head></head><body><a>hi</a><input value=\"A\"><input value=\"B\"></body>" }

/-- The page that a click on the link of `linkPage` opens: a single input. -/
def nextPage : Page :=
  { document := htmlElem "<input value=\"A\">" [inputElem "A"] }

/-- The reaction of a page on which a click opens `nextPage`, in a window of
its own; any other event changes nothing. -/
def clickOpensNextPage (event : PointerEvent) (page : Page) : Page :=
  if event.type = "click" then nextPage else page

/-- The engine on `linkPage` after one `b_lo_next`: the cursor is on the link,
which has the focus. -/
def linkOnLink : EngineState := (b_lo_next linkStart).1

/-- Snapshot of the root of `nextPage`. -/
def nextHtmlInfo : ElementInfo :=
  { tag := some "HTML", id := some "", name := none, value := none,
    inner := some "<head></head><body><input value=\"A\"></body>" }

/-- An engine, seen from the host, that answers every request with what the
embedded server writes for the result `ret`. -/
def answering (ret : JSResult) : Engine := fun _ _ => .ok (serverResponse ret)

/-- A parameter map with one entry, `value` = "a b+c". -/
def spacedParams : List (GoString × GoString) :=
  [(asciiBytes "value", asciiBytes "a b+c")]

/-- A daemon with a script for Unix-like hosts only. -/
def unixDaemon : Daemon := { PreScriptUnix := "apt-get update", PreScriptWindows := "" }

/-- A daemon with a script for Windows hosts only. -/
def windowsDaemon : Daemon := { PreScriptUnix := "", PreScriptWindows := "wuauclt /detectnow" }

/-- An instance on which `Start` has not been called. -/
def freshInstance : Instance :=
  { PhantomJSExecPath := "/usr/bin/phantomjs", RenderImagePath := "/tmp/page.jpg",
    Port := 12345, AutoKillTimeoutSec := 60 }

/-- A start in which the script is written and the process is launched, but
the port never answers. -/
def portClosedEnv : StartEnv :=
  { Tag := "1", scriptPath := "/tmp/laitos-phantomjs-1.js", openFails := false,
    writeFails := false, launchFails := false, Pid := 4321, portAnswers := fun _ => false }

/-- A start in which writing the script fails. -/
def writeFailsEnv : StartEnv := { portClosedEnv with writeFails := true }

/-- A start in which the process cannot be launched. -/
def launchFailsEnv : StartEnv := { portClosedEnv with launchFails := true }

/-- `JSON.stringify` of the object of `b_info`, for texts without characters
that need escaping. -/
def plainStringify (title page_url : String) : String :=
  "\x7b\"title\":\"" ++ title ++ "\",\"page_url\":\"" ++ page_url ++ "\"\x7d"

/-- The engine right after start-up and the engine showing the example page. -/
def examplePage : Page :=
  { document := htmlElem "<a>hi</a>" [linkElem], title := "Example Domain",
    url := "https://example.com/" }

/-- `json.Unmarshal` into a `RemotePageInfo` on the two bodies the engine can
answer with in the example: the JSON string is a type error, the object of
`examplePage` gives its two fields. -/
def exampleUnmarshal (body : String) : Except String RemotePageInfo :=
  if body = "\"\"" then
    .error "json: cannot unmarshal string into Go value of type phantomjs.RemotePageInfo"
  else if body = plainStringify "Example Domain" "https://example.com/" then
    .ok { Title := "Example Domain", URL := "https://example.com/" }
  else .error "json: unexpected input"

/-! ## Theorems -/

/-- C1: for every user agent, width, height and every URL that starts with
neither "http://" nor "https://", `GoTo` returns the invalid-URL error and the
trace of issued requests is unchanged: `SendRequest` is not called, whatever
the engine would have answered. -/
theorem GoTo_invalid_url (doHTTP : Engine) (unmarshalBool : String → Except String Bool)
    (userAgent pageURL : String) (width height : Int) (sent : List Request)
    (hhttp : ¬ ("http://".toList <+: pageURL.toList))
    (hhttps : ¬ ("https://".toList <+: pageURL.toList)) :
    GoTo doHTTP unmarshalBool userAgent pageURL width height sent
      = (some Error.invalidURL, sent) := by
  have h1 : HasPrefix pageURL "http://" = false := by
    rw [HasPrefix, Bool.eq_false_iff, Ne, List.isPrefixOf_iff_prefix]
    exact hhttp
  have h2 : HasPrefix pageURL "https://" = false := by
    rw [HasPrefix, Bool.eq_false_iff, Ne, List.isPrefixOf_iff_prefix]
    exact hhttps
  simp [GoTo, h1, h2]

/-- Witness of C1 at the URL "ftp://example.com/". -/
theorem GoTo_invalid_url_witness :
    GoTo (fun _ _ => .ok { StatusCode := 200, Body := "true" }) (fun _ => .ok true)
        "agent" "ftp://example.com/" 800 600 []
      = (some Error.invalidURL, []) :=
  GoTo_invalid_url _ _ "agent" "ftp://example.com/" 800 600 [] (by decide) (by decide)

/-! ### `Kill` -/

lemma os_Remove_locked (fs : FS) (path : String) :
    (os_Remove fs path).2.locked = fs.locked := by
  unfold os_Remove
  split_ifs <;> rfl

lemma os_Remove_not_mem (fs : FS) (path : String) (h : path ∉ fs.locked) :
    path ∉ (os_Remove fs path).2.files := by
  unfold os_Remove
  split_ifs with h1
  · simp
  · exact h1

lemma os_Remove_keeps_absent (fs : FS) (path x : String) (h : x ∉ fs.files) :
    x ∉ (os_Remove fs path).2.files := by
  unfold os_Remove
  split_ifs
  · exact h
  · simp only [List.mem_filter, not_and]
    intro hx
    exact absurd hx h
  · exact h

lemma os_Remove_no_warning (fs : FS) (path : String) (h : path ∉ fs.locked) :
    removeWarning (os_Remove fs path).1 path = [] := by
  unfold os_Remove
  split_ifs <;> rfl

/-- C7, counterexample: with the process handle nil and deletion permitted,
`Kill` leaves both the screenshot and the generated script on disk. -/
theorem Kill_leaves_files_when_no_process :
    startFailedFS.locked = [] ∧
    startFailedInstance.RenderImagePath ∈
      (Kill (fun _ => true) startFailedInstance startFailedFS).2.1.files ∧
    "/tmp/laitos-phantomjs-1.js" ∈
      (Kill (fun _ => true) startFailedInstance startFailedFS).2.1.files ∧
    startFailedInstance.serverJSFile = some { Name := "/tmp/laitos-phantomjs-1.js" } := by
  decide

/-- C7, amended: for every instance whose process handle is set and every file
system that permits deleting the screenshot and the script, after `Kill`
neither the screenshot at `RenderImagePath` nor the script file named by the
script handle exists, and no deletion failure is logged (the function itself
has no error result). -/
theorem Kill_removes_files (KillProcess : Process → Bool) (inst : Instance) (fs : FS)
    (cmd : Cmd) (hcmd : inst.jsProcCmd = some cmd)
    (himg : inst.RenderImagePath ∉ fs.locked)
    (hjs : ∀ f, inst.serverJSFile = some f → f.Name ∉ fs.locked) :
    inst.RenderImagePath ∉ (Kill KillProcess inst fs).2.1.files ∧
    (∀ f, inst.serverJSFile = some f → f.Name ∉ (Kill KillProcess inst fs).2.1.files) ∧
    (∀ path, Effect.WarnRemove path ∉ (Kill KillProcess inst fs).2.2) := by
  have hw1 := os_Remove_no_warning fs inst.RenderImagePath himg
  have hkill : ∀ path, Effect.WarnRemove path ∉
      (match cmd.Process with
        | none => ([] : List Effect)
        | some proc =>
          Effect.KillProcess proc :: (if !KillProcess proc then [Effect.WarnKill] else [])) := by
    intro path
    cases cmd.Process with
    | none => simp
    | some proc => by_cases hk : KillProcess proc <;> simp [hk]
  cases hf : inst.serverJSFile with
  | none =>
    refine ⟨?_, ?_, ?_⟩
    · simpa [Kill, hcmd, hf] using os_Remove_not_mem fs inst.RenderImagePath himg
    · intro f h
      cases h
    · intro path
      simp only [Kill, hcmd, hf, hw1]
      simpa using hkill path
  | some f =>
    have hlock : f.Name ∉ (os_Remove fs inst.RenderImagePath).2.locked := by
      rw [os_Remove_locked]
      exact hjs f hf
    have hw2 := os_Remove_no_warning (os_Remove fs inst.RenderImagePath).2 f.Name hlock
    refine ⟨?_, ?_, ?_⟩
    · simpa [Kill, hcmd, hf] using
        os_Remove_keeps_absent (os_Remove fs inst.RenderImagePath).2 f.Name
          inst.RenderImagePath (os_Remove_not_mem fs inst.RenderImagePath himg)
    · intro g hg
      cases hg
      simpa [Kill, hcmd, hf] using
        os_Remove_not_mem (os_Remove fs inst.RenderImagePath).2 f.Name hlock
    · intro path
      simp only [Kill, hcmd, hf, hw1, hw2]
      simpa using hkill path

/-- Witness of the amended C7 at a running instance with both files on disk. -/
theorem Kill_removes_files_witness :
    runningInstance.RenderImagePath ∉
      (Kill (fun _ => true) runningInstance startFailedFS).2.1.files ∧
    (∀ f, runningInstance.serverJSFile = some f →
      f.Name ∉ (Kill (fun _ => true) runningInstance startFailedFS).2.1.files) ∧
    (∀ path, Effect.WarnRemove path ∉
      (Kill (fun _ => true) runningInstance startFailedFS).2.2) :=
  Kill_removes_files (fun _ => true) runningInstance startFailedFS
    { Process := some { Pid := 4321 } } rfl (by decide) (by
      intro f hf
      simp [startFailedFS])

/-- C8: after one `Kill` the process handle and the script-file handle are nil,
and a further `Kill`, in whatever state the file system then is, terminates no
process, deletes no file and leaves instance and file system as they are. -/
theorem Kill_idempotent (KillProcess : Process → Bool) (inst : Instance) (fs fs2 : FS) :
    (Kill KillProcess inst fs).1.jsProcCmd = none ∧
    (Kill KillProcess inst fs).1.serverJSFile = none ∧
    Kill KillProcess (Kill KillProcess inst fs).1 fs2
      = ((Kill KillProcess inst fs).1, fs2, []) := by
  refine ⟨rfl, rfl, ?_⟩
  simp [Kill]


/-! ### `RenderPage` -/

lemma runLen_succ_le_iff (s : Nat → Int) (k m : Nat) :
    m + 1 ≤ runLen s (k + 1) ↔ s (k + 1) = s k ∧ m ≤ runLen s k := by
  rw [runLen]
  split_ifs with h
  · simp [h]
  · simp [h]

lemma runLen_le (s : Nat → Int) (k : Nat) : runLen s k ≤ k := by
  induction k with
  | zero => simp [runLen]
  | succ k ih =>
    rw [runLen]
    split_ifs <;> omega

lemma four_le_runLen_iff (s : Nat → Int) (k : Nat) : 4 ≤ runLen s k ↔ stableAt s k := by
  unfold stableAt
  by_cases hk : 4 ≤ k
  · obtain ⟨n, rfl⟩ : ∃ n, k = n + 4 := ⟨k - 4, by omega⟩
    have e1 : n + 4 - 1 = n + 3 := rfl
    have e2 : n + 4 - 2 = n + 2 := rfl
    have e3 : n + 4 - 3 = n + 1 := rfl
    have e4 : n + 4 - 4 = n := by omega
    rw [e1, e2, e3, e4]
    rw [show (4 : Nat) = 3 + 1 from rfl, runLen_succ_le_iff s (n + 3) 3,
      show (3 : Nat) = 2 + 1 from rfl, runLen_succ_le_iff s (n + 2) 2,
      show (2 : Nat) = 1 + 1 from rfl, runLen_succ_le_iff s (n + 1) 1,
      show (1 : Nat) = 0 + 1 from rfl, runLen_succ_le_iff s n 0]
    constructor
    · rintro ⟨h1, h2, h3, h4, -⟩
      refine ⟨by omega, h1, ?_, ?_, ?_⟩
      · rw [h1, h2]
      · rw [h1, h2, h3]
      · rw [h1, h2, h3, h4]
    · rintro ⟨-, h1, h2, h3, h4⟩
      refine ⟨h1, ?_, ?_, ?_, Nat.zero_le _⟩
      · rw [← h1, h2]
      · rw [← h2, h3]
      · rw [← h3, h4]
  · have := runLen_le s k
    constructor
    · intro h
      omega
    · rintro ⟨h, -⟩
      omega

/-- The loop variables with which iteration `i` starts when every earlier poll
found a non-empty file. -/
lemma pollStep_runLen (s : Nat → Int) (hpos : ∀ i, 0 < s i) (i : Nat) (st : PollState)
    (h0 : i = 0 → st = { fileSize := 0, unchanging := 0 })
    (hs : ∀ j, i = j + 1 → st = { fileSize := s j, unchanging := runLen s j }) :
    pollStep st (some (s i)) =
      if 4 ≤ runLen s i then none else some { fileSize := s i, unchanging := runLen s i } := by
  have hp := hpos i
  cases i with
  | zero =>
    rw [h0 rfl]
    have hne : ¬ (0 : Int) = s 0 := by omega
    simp [pollStep, hp, hne, runLen]
  | succ j =>
    rw [hs j rfl]
    by_cases he : s (j + 1) = s j
    · have he2 : s j = s (j + 1) := he.symm
      have hpj := hpos j
      by_cases h4 : 4 ≤ runLen s j + 1
      · simp [pollStep, hpj, he, runLen, h4]
      · simp [pollStep, hpj, he, runLen, h4]
    · have he2 : ¬ s j = s (j + 1) := fun h => he h.symm
      simp [pollStep, hp, he, he2, runLen]

lemma renderLoop_success_iff (s : Nat → Int) (hpos : ∀ i, 0 < s i) (budget : Nat) :
    ∀ (i : Nat) (st : PollState),
      (i = 0 → st = { fileSize := 0, unchanging := 0 }) →
      (∀ j, i = j + 1 → st = { fileSize := s j, unchanging := runLen s j }) →
      ∀ k, renderLoop (fun n => some (s n)) budget i st = { err := none, polls := k + 1 } ↔
        (i ≤ k ∧ k < i + budget ∧ 4 ≤ runLen s k ∧ ∀ j, i ≤ j → j < k → runLen s j < 4) := by
  induction budget with
  | zero =>
    intro i st _ _ k
    simp only [renderLoop]
    constructor
    · intro h
      cases h
    · rintro ⟨h1, h2, -⟩
      omega
  | succ b ih =>
    intro i st h0 hs k
    rw [renderLoop, pollStep_runLen s hpos i st h0 hs]
    by_cases h4 : 4 ≤ runLen s i
    · simp only [h4, if_true]
      constructor
      · intro h
        have hk : k = i := by
          have := congrArg RenderResult.polls h
          simp at this
          omega
        subst hk
        exact ⟨le_refl _, by omega, h4, fun j h1 h2 => by omega⟩
      · rintro ⟨h1, -, -, h3⟩
        have hk : k = i := by
          by_contra hne
          have := h3 i (le_refl _) (by omega)
          omega
        rw [hk]
    · simp only [h4, if_false]
      rw [ih (i + 1) { fileSize := s i, unchanging := runLen s i }
        (fun h => by omega) (fun j hj => by
          have : j = i := by omega
          rw [this])]
      constructor
      · rintro ⟨h1, h2, h3, h5⟩
        refine ⟨by omega, by omega, h3, fun j hj1 hj2 => ?_⟩
        by_cases hji : j = i
        · rw [hji]
          omega
        · exact h5 j (by omega) hj2
      · rintro ⟨h1, h2, h3, h5⟩
        have hki : k ≠ i := by
          intro h
          rw [h] at h3
          exact h4 h3
        exact ⟨by omega, by omega, h3, fun j hj1 hj2 => h5 j (by omega) hj2⟩

lemma RenderPage_eq_renderLoop (doHTTP : Engine) (inst : Instance) (fs : FS)
    (stat : Nat → Option Int) (sent : List Request)
    (hrm : inst.RenderImagePath ∉ fs.locked)
    (hredraw : (@SendRequest Unit doHTTP "redraw" [] none sent).1 = .ok none) :
    (RenderPage doHTTP inst fs stat sent).1
      = renderLoop stat 60 0 { fileSize := 0, unchanging := 0 } := by
  unfold RenderPage
  have hne : (os_Remove fs inst.RenderImagePath).1 ≠ some PathError.denied := by
    unfold os_Remove
    split_ifs <;> simp
  rcases hr : os_Remove fs inst.RenderImagePath with ⟨e, fs1⟩
  rw [hr] at hne
  rcases hq : @SendRequest Unit doHTTP "redraw" [] none sent with ⟨r, sent1⟩
  rw [hq] at hredraw
  simp only at hredraw hne
  subst hredraw
  cases e with
  | none => rfl
  | some pe =>
    cases pe with
    | notExist => rfl
    | denied => exact absurd rfl hne

lemma renderLoop_polls_le (stat : Nat → Option Int) (budget : Nat) :
    ∀ (i : Nat) (st : PollState), (renderLoop stat budget i st).polls ≤ i + budget := by
  induction budget with
  | zero =>
    intro i st
    simp [renderLoop]
  | succ b ih =>
    intro i st
    rw [renderLoop]
    cases pollStep st (stat i) with
    | none => simp
    | some st1 =>
      have := ih (i + 1) st1
      simp only
      omega

lemma renderLoop_growing (s : Nat → Int) (hgrow : ∀ i, s i < s (i + 1)) (budget : Nat) :
    ∀ (i : Nat) (st : PollState), st.fileSize ≤ s i → (0 < s i → st.fileSize < s i) →
      renderLoop (fun n => some (s n)) budget i st
        = { err := some Error.renderNotCompleted, polls := i + budget } := by
  induction budget with
  | zero =>
    intro i st _ _
    simp [renderLoop]
  | succ b ih =>
    intro i st hle hlt
    have hg := hgrow i
    rw [renderLoop]
    by_cases hp : 0 < s i
    · have hne : ¬ st.fileSize = s i := by
        have := hlt hp
        omega
      simp only [pollStep, hp, hne, gt_iff_lt, if_true, if_false]
      rw [ih (i + 1) _ (by simp; omega) (fun _ => by simp; omega)]
      simp
      omega
    · simp only [pollStep, hp, gt_iff_lt, if_false]
      rw [ih (i + 1) st (by omega) (fun _ => by omega)]
      simp
      omega

/-- C9: when every poll finds the screenshot with a non-zero size, `RenderPage`
returns success at poll `k` (having made `k + 1` polls) exactly when `k` is the
first poll whose size is identical to that of the last four checks; and an
iteration that observes a size different from the remembered one resets the
stability counter to zero and remembers the new size. -/
theorem RenderPage_stabilization (doHTTP : Engine) (inst : Instance) (fs : FS)
    (sent : List Request) (s : Nat → Int) (hpos : ∀ i, 0 < s i)
    (hrm : inst.RenderImagePath ∉ fs.locked)
    (hredraw : (@SendRequest Unit doHTTP "redraw" [] none sent).1 = .ok none) :
    (∀ k, k < 60 →
      ((RenderPage doHTTP inst fs (fun i => some (s i)) sent).1 = { err := none, polls := k + 1 }
        ↔ (stableAt s k ∧ ∀ j, j < k → ¬ stableAt s j))) ∧
    (∀ (st : PollState) (size : Int), 0 < size → size ≠ st.fileSize →
      pollStep st (some size) = some { fileSize := size, unchanging := 0 }) := by
  constructor
  · intro k hk
    rw [RenderPage_eq_renderLoop doHTTP inst fs _ sent hrm hredraw,
      renderLoop_success_iff s hpos 60 0 _ (fun _ => rfl) (fun j hj => by omega) k]
    constructor
    · rintro ⟨-, -, h3, h4⟩
      refine ⟨(four_le_runLen_iff s k).1 h3, fun j hj hst => ?_⟩
      have := h4 j (Nat.zero_le _) hj
      have := (four_le_runLen_iff s j).2 hst
      omega
    · rintro ⟨h1, h2⟩
      refine ⟨Nat.zero_le _, by omega, (four_le_runLen_iff s k).2 h1, fun j _ hj => ?_⟩
      by_contra hcon
      exact h2 j hj ((four_le_runLen_iff s j).1 (by omega))
  · intro st size hsz hne
    have hne2 : ¬ st.fileSize = size := fun h => hne h.symm
    simp [pollStep, hsz, hne2]

/-- Witness of C9: a screenshot that settles at 4096 bytes from poll 3 on is
reported complete at poll 7, after 8 polls. -/
theorem RenderPage_stabilization_witness :
    (RenderPage okEngine runningInstance startFailedFS (fun i => some (settlingSize i)) []).1
        = { err := none, polls := 8 } :=
  ((RenderPage_stabilization okEngine runningInstance startFailedFS [] settlingSize
    (by
      intro i
      unfold settlingSize
      split_ifs <;> omega)
    (by decide) rfl).1 7 (by decide)).2 (by decide)

/-- C10: `RenderPage` never makes more than 60 polls, whatever the polls
observe; and when the screenshot never stops growing (each poll observes a
larger size than the poll before) it makes exactly 60 polls and then fails
with the render-not-completed error. -/
theorem RenderPage_bounded (doHTTP : Engine) (inst : Instance) (fs : FS)
    (sent : List Request) :
    (∀ stat : Nat → Option Int, (RenderPage doHTTP inst fs stat sent).1.polls ≤ 60) ∧
    (∀ s : Nat → Int, 0 ≤ s 0 → (∀ i, s i < s (i + 1)) →
      inst.RenderImagePath ∉ fs.locked →
      (@SendRequest Unit doHTTP "redraw" [] none sent).1 = .ok none →
      (RenderPage doHTTP inst fs (fun i => some (s i)) sent).1
        = { err := some Error.renderNotCompleted, polls := 60 }) := by
  constructor
  · intro stat
    unfold RenderPage
    rcases os_Remove fs inst.RenderImagePath with ⟨e, fs1⟩
    rcases @SendRequest Unit doHTTP "redraw" [] none sent with ⟨r, sent1⟩
    have hloop := renderLoop_polls_le stat 60 0 { fileSize := 0, unchanging := 0 }
    cases e with
    | none =>
      cases r with
      | error e => simp
      | ok v => simpa using hloop
    | some pe =>
      cases pe with
      | denied => simp
      | notExist =>
        cases r with
        | error e => simp
        | ok v => simpa using hloop
  · intro s h0 hgrow hrm hredraw
    rw [RenderPage_eq_renderLoop doHTTP inst fs _ sent hrm hredraw,
      renderLoop_growing s hgrow 60 0 _ (by simpa using h0) (fun h => by simpa using h)]

/-- Witness of C10: a screenshot that is 1024 bytes larger at every poll. -/
theorem RenderPage_bounded_witness :
    (RenderPage okEngine runningInstance startFailedFS (fun i => some (growingSize i)) []).1
      = { err := some Error.renderNotCompleted, polls := 60 } :=
  (RenderPage_bounded okEngine runningInstance startFailedFS []).2 growingSize
    (by decide)
    (by
      intro i
      unfold growingSize
      push_cast
      omega)
    (by decide) rfl


/-! ### The walk and the traversal order -/

lemma walkList_append {σ : Type} (f : Node → σ → σ × Bool) (xs ys : List Node) (s : σ) :
    walkList f (xs ++ ys) s =
      match walkList f xs s with
      | (s1, false) => (s1, false)
      | (s1, true) => walkList f ys s1 := by
  induction xs generalizing s with
  | nil => simp [walkList]
  | cons x xs ih =>
    simp only [List.cons_append, walkList]
    rcases hx : f x s with ⟨s1, b⟩
    cases b
    · simp
    · simp [ih]

mutual
theorem laitos_pjs_walk_eq_walkList {σ : Type} (f : Node → σ → σ × Bool) :
    ∀ (elem : Node) (s : σ), laitos_pjs_walk f elem s = walkList f (postorder elem) s
  | .mk props childNodes, s => by
    rw [laitos_pjs_walk, postorder, walkList_append,
      walkChildNodes_eq_walkList f childNodes s]
    rcases walkList f (postorderList childNodes) s with ⟨s1, b⟩
    cases b
    · rfl
    · simp only [walkList]
      rcases f (Node.mk props childNodes) s1 with ⟨s2, b2⟩
      cases b2 <;> rfl
theorem walkChildNodes_eq_walkList {σ : Type} (f : Node → σ → σ × Bool) :
    ∀ (childNodes : List Node) (s : σ),
      walkChildNodes f childNodes s = walkList f (postorderList childNodes) s
  | [], s => by
    rw [walkChildNodes, postorderList]
    rfl
  | child :: rest, s => by
    rw [walkChildNodes, postorderList, walkList_append,
      laitos_pjs_walk_eq_walkList f child s]
    rcases walkList f (postorder child) s with ⟨s1, b⟩
    cases b
    · rfl
    · exact walkChildNodes_eq_walkList f rest s1
end


/-! ### `laitos_pjs_find_before_after` as a split of the eligible elements -/

/-- Once the exact element is found, the walk only looks for the next eligible
element. -/
lemma walkList_find_stop (loc : Locator) (L : List Node) (st : FindState)
    (hs : st.stop_next = true) (ha : st.after = none) :
    (walkList (find_before_after_fun loc) L st).1
      = { st with after := (L.filter (eligible 1000)).head? } := by
  induction L with
  | nil =>
    cases st
    simp only at ha
    simp [walkList, ha]
  | cons x xs ih =>
    by_cases he : eligible 1000 x = true
    · simp [walkList, find_before_after_fun, he, hs]
    · simp only [walkList, find_before_after_fun, he, if_false, Bool.false_eq_true]
      rw [ih]
      simp [he]

lemma walkList_find (loc : Locator) (L : List Node) :
    ∀ (st : FindState), st.stop_next = false → st.exact = none → st.after = none →
      (walkList (find_before_after_fun loc) L st).1.before
          = (locateFrom (isTarget loc) st.before (L.filter (eligible 1000))).1 ∧
      (walkList (find_before_after_fun loc) L st).1.exact
          = (locateFrom (isTarget loc) st.before (L.filter (eligible 1000))).2.1 ∧
      (walkList (find_before_after_fun loc) L st).1.after
          = (locateFrom (isTarget loc) st.before (L.filter (eligible 1000))).2.2 ∧
      (walkList (find_before_after_fun loc) L st).1.laitos_pjs_current_elem
          = match (locateFrom (isTarget loc) st.before (L.filter (eligible 1000))).2.1 with
            | some x => some x
            | none => st.laitos_pjs_current_elem := by
  induction L with
  | nil =>
    intro st _ he ha
    simp [walkList, locateFrom, he, ha]
  | cons x xs ih =>
    intro st hs he ha
    by_cases hel : eligible 1000 x = true
    · by_cases ht : isTarget loc x = true
      · have ht2 : (sameFields loc x || loc.stop_at_first) = true := ht
        simp only [walkList, find_before_after_fun, hel, hs, ht2, if_true, Bool.false_eq_true,
          if_false, List.filter_cons_of_pos, locateFrom, ht]
        rw [walkList_find_stop loc xs
          { before := st.before, exact := some x, after := st.after, stop_next := true,
            laitos_pjs_current_elem := some x } rfl ha]
        simp
      · have ht2 : ¬ (sameFields loc x || loc.stop_at_first) = true := ht
        simp only [walkList, find_before_after_fun, hel, hs, ht2, if_true, Bool.false_eq_true,
          if_false, List.filter_cons_of_pos, locateFrom, ht]
        exact ih ⟨some x, st.exact, st.after, false, st.laitos_pjs_current_elem⟩ rfl he ha
    · simp only [walkList, find_before_after_fun, hel, if_false, Bool.false_eq_true]
      rw [List.filter_cons_of_neg hel]
      exact ih st hs he ha

lemma normalise_slot (elem : Option Node) :
    (if evaluateEntry (elem.map laitos_pjs_elem_to_obj) = Slot.str "" then Slot.null
      else evaluateEntry (elem.map laitos_pjs_elem_to_obj)) = slotOf elem := by
  cases elem <;> simp [evaluateEntry, slotOf]

/-- What `locateAndStore` computes, in terms of the eligible elements of the
document in traversal order. -/
lemma locateAndStore_eq (st : EngineState) (page : Page) (stmt : Locator) :
    locateAndStore st page stmt =
      ({ st with
          browser := some { page with
            laitos_pjs_current_elem :=
              match (locateFrom (isTarget stmt) none (eligibleElems 1000 page.document)).2.1 with
              | some x => some x
              | none => page.laitos_pjs_current_elem },
          before_info :=
            slotOf (locateFrom (isTarget stmt) none (eligibleElems 1000 page.document)).1,
          exact_info :=
            slotOf (locateFrom (isTarget stmt) none (eligibleElems 1000 page.document)).2.1,
          after_info :=
            slotOf (locateFrom (isTarget stmt) none (eligibleElems 1000 page.document)).2.2 },
        some [slotOf (locateFrom (isTarget stmt) none (eligibleElems 1000 page.document)).1,
          slotOf (locateFrom (isTarget stmt) none (eligibleElems 1000 page.document)).2.1,
          slotOf (locateFrom (isTarget stmt) none (eligibleElems 1000 page.document)).2.2]) := by
  obtain ⟨h1, h2, h3, h4⟩ := walkList_find stmt (postorder page.document)
    { before := none, exact := none, after := none, stop_next := false,
      laitos_pjs_current_elem := page.laitos_pjs_current_elem } rfl rfl rfl
  simp only [locateAndStore, laitos_pjs_find_before_after, laitos_pjs_walk_eq_walkList,
    empty_str_to_null, List.map_cons, List.map_nil, normalise_slot, List.getD_cons_zero,
    List.getD_cons_succ, eligibleElems, h1, h2, h3, h4]


/-! ### Facts about the split -/

lemma locateFrom_of_all (m : Node → Bool) (hm : ∀ x, m x = true) (b : Option Node)
    (L : List Node) : locateFrom m b L = (b, L[0]?, L[1]?) := by
  cases L with
  | nil => rfl
  | cons x xs =>
    cases xs with
    | nil => simp [locateFrom, hm]
    | cons y ys => simp [locateFrom, hm]

lemma locateFrom_congr (m1 m2 : Node → Bool) (L : List Node) :
    ∀ (b : Option Node), (∀ z ∈ L, m1 z = m2 z) → locateFrom m1 b L = locateFrom m2 b L := by
  induction L with
  | nil =>
    intro b _
    rfl
  | cons x xs ih =>
    intro b h
    have hx := h x (List.mem_cons_self x xs)
    simp only [locateFrom, hx]
    rw [ih (some x) (fun z hz => h z (List.mem_cons_of_mem x hz))]

lemma locateFrom_exact_mem (m : Node → Bool) (L : List Node) :
    ∀ (b : Option Node) (x : Node), (locateFrom m b L).2.1 = some x → x ∈ L ∧ m x = true := by
  induction L with
  | nil =>
    intro b x h
    simp [locateFrom] at h
  | cons y ys ih =>
    intro b x h
    by_cases hy : m y = true
    · simp only [locateFrom, hy, if_true, Option.some.injEq] at h
      subst h
      exact ⟨List.mem_cons_self _ _, hy⟩
    · simp only [locateFrom, hy, if_false, Bool.false_eq_true] at h
      obtain ⟨h1, h2⟩ := ih (some y) x h
      exact ⟨List.mem_cons_of_mem _ h1, h2⟩

lemma locateFrom_after_mem (m : Node → Bool) (L : List Node) :
    ∀ (b : Option Node) (y : Node), (locateFrom m b L).2.2 = some y →
      y ∈ L ∧ ∃ x, (locateFrom m b L).2.1 = some x := by
  induction L with
  | nil =>
    intro b y h
    simp [locateFrom] at h
  | cons x xs ih =>
    intro b y h
    by_cases hx : m x = true
    · simp only [locateFrom, hx, if_true] at h ⊢
      refine ⟨List.mem_cons_of_mem _ (List.mem_of_mem_head? h), x, rfl⟩
    · simp only [locateFrom, hx, if_false, Bool.false_eq_true] at h ⊢
      obtain ⟨h1, h2⟩ := ih (some x) y h
      exact ⟨List.mem_cons_of_mem _ h1, h2⟩

lemma locateFrom_exact_of_mem (m : Node → Bool) (L : List Node) :
    ∀ (b : Option Node) (y : Node), y ∈ L → m y = true →
      ∃ z, (locateFrom m b L).2.1 = some z := by
  induction L with
  | nil =>
    intro b y h
    simp at h
  | cons x xs ih =>
    intro b y hy hm
    by_cases hx : m x = true
    · exact ⟨x, by simp [locateFrom, hx]⟩
    · simp only [locateFrom, hx, if_false, Bool.false_eq_true]
      rcases List.mem_cons.1 hy with h | h
      · rw [h] at hm
        exact absurd hm hx
      · exact ih (some x) y h hm

/-- When the element found has no eligible successor and the search stopped at
the first element, the document has exactly one eligible element. -/
lemma locateFrom_all_last (m : Node → Bool) (hm : ∀ x, m x = true) (b : Option Node)
    (L : List Node) (x : Node) (he : (locateFrom m b L).2.1 = some x)
    (ha : (locateFrom m b L).2.2 = none) : L = [x] := by
  rw [locateFrom_of_all m hm] at he ha
  cases L with
  | nil => simp at he
  | cons y ys =>
    cases ys with
    | nil =>
      simp at he
      rw [he]
    | cons z zs => simp at ha

/-! ### Facts about the element test -/

lemma isTarget_null (elem : Node) : isTarget (elem_info_to_stmt Slot.null) elem = true := by
  simp [isTarget, elem_info_to_stmt]

lemma isTarget_self (elem : Node) :
    isTarget (elem_info_to_stmt (Slot.info (laitos_pjs_elem_to_obj elem))) elem = true := by
  simp [isTarget, elem_info_to_stmt, sameFields, laitos_pjs_elem_to_obj]

lemma isTarget_info (e : ElementInfo) (elem : Node)
    (h : isTarget (elem_info_to_stmt (Slot.info e)) elem = true) :
    (laitos_pjs_elem_to_obj elem).tag = e.tag ∧ (laitos_pjs_elem_to_obj elem).id = e.id ∧
    (laitos_pjs_elem_to_obj elem).name = e.name ∧
    (laitos_pjs_elem_to_obj elem).inner = e.inner := by
  simpa [isTarget, elem_info_to_stmt, sameFields, laitos_pjs_elem_to_obj, and_assoc] using h

/-- A locator that does not stop at the first element is recovered from the
snapshot of any element it accepts. -/
lemma elem_info_to_stmt_of_target (loc : Locator) (elem : Node)
    (hs : loc.stop_at_first = false) (h : isTarget loc elem = true) :
    elem_info_to_stmt (Slot.info (laitos_pjs_elem_to_obj elem)) = loc := by
  cases loc
  simp only at hs
  subst hs
  simp only [isTarget, sameFields, Bool.or_false, Bool.and_eq_true, decide_eq_true_eq] at h
  obtain ⟨⟨⟨h1, h2⟩, h3⟩, h4⟩ := h
  simp [elem_info_to_stmt, laitos_pjs_elem_to_obj, h1, h2, h3, h4]

lemma slotOf_eq_null (elem : Option Node) : slotOf elem = Slot.null ↔ elem = none := by
  cases elem <;> simp [slotOf]

lemma slotOf_eq_info (elem : Option Node) (e : ElementInfo) :
    slotOf elem = Slot.info e ↔ ∃ x, elem = some x ∧ laitos_pjs_elem_to_obj x = e := by
  cases elem <;> simp [slotOf]

lemma b_lo_next_of_browser (st : EngineState) (page : Page) (hb : st.browser = some page) :
    b_lo_next st = locateAndStore st page (nextLocator st) := by
  unfold b_lo_next nextLocator
  rw [hb]
  split_ifs <;> rfl

lemma b_lo_next_no_browser (st : EngineState) (hb : st.browser = none) :
    b_lo_next st = (st, none) := by
  unfold b_lo_next
  rw [hb]


/-- What one `b_lo_next` does when a page exists. -/
lemma b_lo_next_spec (st : EngineState) (page : Page) (hb : st.browser = some page) :
    (b_lo_next st).2 = some [slotOf (located (nextLocator st) page.document).1,
      slotOf (located (nextLocator st) page.document).2.1,
      slotOf (located (nextLocator st) page.document).2.2] ∧
    (b_lo_next st).1.before_info = slotOf (located (nextLocator st) page.document).1 ∧
    (b_lo_next st).1.exact_info = slotOf (located (nextLocator st) page.document).2.1 ∧
    (b_lo_next st).1.after_info = slotOf (located (nextLocator st) page.document).2.2 ∧
    (b_lo_next st).1.browser = some { page with
      laitos_pjs_current_elem :=
        match (located (nextLocator st) page.document).2.1 with
        | some x => some x
        | none => page.laitos_pjs_current_elem } := by
  rw [b_lo_next_of_browser st page hb, locateAndStore_eq]
  exact ⟨rfl, rfl, rfl, rfl, rfl⟩

/-- A character above U+FFFF counts twice, any other character once. -/
lemma jsLength_examples :
    jsLength (String.mk [Char.ofNat 0x1F600]) = 2 ∧
    jsLength (String.mk [Char.ofNat 0x1F600, Char.ofNat 0xFFFF]) = 3 ∧
    jsLength "x" = 1 ∧ jsLength "" = 0 := by
  decide

lemma eligible_iff (cap : Nat) (elem : Node) :
    eligible cap elem = true ↔
      (∃ h, elem.props.offsetHeight = some h ∧ 3 < h) ∧
      (∃ w, elem.props.offsetWidth = some w ∧ 3 < w) ∧
      (∀ inner, elem.props.innerHTML = some inner → jsLength inner < cap ∨ inner = "") := by
  unfold eligible
  rcases elem with ⟨props, childNodes⟩
  rcases props with ⟨tagName, id, name, value, innerHTML, offsetHeight, offsetWidth, rl, rt⟩
  cases offsetHeight <;> cases offsetWidth <;> cases innerHTML <;>
    simp [Node.props, gt3, truthy]
  rename_i h w inner
  by_cases hi : inner = ""
  · simp [hi, and_assoc]
  · simp [hi, and_assoc]

/-! ### The walker claims -/

/-- C5: with a page loaded and the current slot of the cursor empty, `b_lo_next`
returns three slots: "before" is empty, "current" is the first eligible element
of the document in children-first order and "after" the second one, each empty
when there is no such element; eligible means height and width above 3 and an
inner content that is absent, empty or shorter than 1000 characters, counted
as JavaScript counts them (`jsLength`, UTF-16 code units). -/
theorem b_lo_next_first_call (st : EngineState) (page : Page)
    (hb : st.browser = some page) (hexact : st.exact_info = Slot.null) :
    (b_lo_next st).2 = some [Slot.null,
      slotOf (eligibleElems 1000 page.document)[0]?,
      slotOf (eligibleElems 1000 page.document)[1]?] ∧
    (∀ elem : Node, eligible 1000 elem = true ↔
      (∃ h, elem.props.offsetHeight = some h ∧ 3 < h) ∧
      (∃ w, elem.props.offsetWidth = some w ∧ 3 < w) ∧
      (∀ inner, elem.props.innerHTML = some inner → jsLength inner < 1000 ∨ inner = "")) := by
  refine ⟨?_, eligible_iff 1000⟩
  have hloc : nextLocator st = elem_info_to_stmt Slot.null := by
    simp [nextLocator, hexact]
  rw [(b_lo_next_spec st page hb).1, hloc, located,
    locateFrom_of_all _ isTarget_null]
  rfl


lemma EngineState_ext (a b : EngineState) (h1 : a.browser = b.browser)
    (h2 : a.exact_info = b.exact_info) (h3 : a.before_info = b.before_info)
    (h4 : a.after_info = b.after_info) : a = b := by
  cases a
  cases b
  simp_all

lemma browser_of_result (st st1 : EngineState) (ret : List Slot)
    (h : b_lo_next st = (st1, some ret)) : ∃ page, st.browser = some page := by
  cases hb : st.browser with
  | none =>
    rw [b_lo_next_no_browser st hb] at h
    simp at h
  | some page => exact ⟨page, rfl⟩

lemma nextLocator_of_after (st : EngineState) (x : Node) (a : ElementInfo)
    (he : st.exact_info = slotOf (some x)) (ha : st.after_info = Slot.info a) :
    nextLocator st = elem_info_to_stmt (Slot.info a) := by
  simp [nextLocator, he, ha, slotOf]

lemma nextLocator_of_last (st : EngineState) (x : Node)
    (he : st.exact_info = slotOf (some x)) (ha : st.after_info = Slot.null) :
    nextLocator st = elem_info_to_stmt (Slot.info (laitos_pjs_elem_to_obj x)) := by
  simp [nextLocator, he, ha, slotOf]

/-- A search for the snapshot `a` of an eligible element finds an element that
agrees with `a` on the four compared fields. -/
lemma located_snapshot (document : Node) (y : Node)
    (hy : y ∈ eligibleElems 1000 document) :
    ∃ z, (located (elem_info_to_stmt (Slot.info (laitos_pjs_elem_to_obj y))) document).2.1
        = some z ∧ z ∈ eligibleElems 1000 document ∧ sameLocatorFields z y := by
  obtain ⟨z, hz⟩ := locateFrom_exact_of_mem
    (isTarget (elem_info_to_stmt (Slot.info (laitos_pjs_elem_to_obj y))))
    (eligibleElems 1000 document) none y hy (isTarget_self y)
  obtain ⟨hz1, hz2⟩ := locateFrom_exact_mem _ _ none z hz
  exact ⟨z, hz, hz1, isTarget_info _ z hz2⟩

/-- C2, amended: when `b_lo_next` returns a triple whose "after" slot holds the
element `a1`, the next `b_lo_next` on the same document returns a triple whose
"current" slot holds an element that agrees with `a1` on tag, id, name and
inner; it is `a1` itself, value included, when eligible elements that agree on
these four fields also agree on the value. -/
theorem LONext_continuity (st st1 : EngineState) (page : Page) (b1 c1 : Slot)
    (a1 : ElementInfo) (hb : st.browser = some page)
    (h1 : b_lo_next st = (st1, some [b1, c1, Slot.info a1])) :
    ∃ b2 c2 a2, (b_lo_next st1).2 = some [b2, Slot.info c2, a2] ∧
      c2.tag = a1.tag ∧ c2.id = a1.id ∧ c2.name = a1.name ∧ c2.inner = a1.inner ∧
      ((∀ u ∈ eligibleElems 1000 page.document, ∀ v ∈ eligibleElems 1000 page.document,
          sameLocatorFields u v → u.props.value = v.props.value) → c2 = a1) := by
  obtain ⟨hret, -, hex, haf, hbr⟩ := b_lo_next_spec st page hb
  rw [h1] at hret hex haf hbr
  simp only [Option.some.injEq, List.cons.injEq, and_true] at hret
  obtain ⟨-, -, ha1⟩ := hret
  obtain ⟨y, hy, hya⟩ := (slotOf_eq_info _ a1).1 ha1.symm
  obtain ⟨hymem, x, hx⟩ := locateFrom_after_mem _ _ none y hy
  have hx2 : (located (nextLocator st) page.document).2.1 = some x := hx
  rw [hx2] at hex
  rw [hy] at haf
  have hloc := nextLocator_of_after st1 x a1 hex (by rw [haf, slotOf, hya])
  obtain ⟨hret2, -⟩ := b_lo_next_spec st1 _ hbr
  rw [hloc, ← hya] at hret2
  obtain ⟨z, hz, hzmem, hzf⟩ := located_snapshot page.document y hymem
  simp only at hret2
  refine ⟨slotOf (located (elem_info_to_stmt (Slot.info (laitos_pjs_elem_to_obj y)))
      page.document).1, laitos_pjs_elem_to_obj z,
    slotOf (located (elem_info_to_stmt (Slot.info (laitos_pjs_elem_to_obj y)))
      page.document).2.2, ?_, ?_, ?_, ?_, ?_, ?_⟩
  · rw [hret2, hz]
    rfl
  · rw [← hya]
    exact hzf.1
  · rw [← hya]
    exact hzf.2.1
  · rw [← hya]
    exact hzf.2.2.1
  · rw [← hya]
    exact hzf.2.2.2
  · intro huniq
    have hv := huniq z hzmem y hymem hzf
    rw [← hya]
    obtain ⟨h1, h2, h3, h4⟩ := hzf
    simp [laitos_pjs_elem_to_obj, h1, h2, h3, h4, hv]

/-- C4: once `b_lo_next` has returned an element in "current" with the "after"
slot empty, every further `b_lo_next` on the same document, however many there
are, returns the same triple and leaves the engine state as it is. -/
theorem LONext_saturation (st st1 : EngineState) (b : Slot) (c : ElementInfo)
    (h1 : b_lo_next st = (st1, some [b, Slot.info c, Slot.null])) (n : Nat) :
    b_lo_next ((fun s => (b_lo_next s).1)^[n] st1)
      = (st1, some [b, Slot.info c, Slot.null]) := by
  obtain ⟨page, hb⟩ := browser_of_result st st1 _ h1
  obtain ⟨hret, hbe, hex, haf, hbr⟩ := b_lo_next_spec st page hb
  rw [h1] at hret hbe hex haf hbr
  simp only [Option.some.injEq, List.cons.injEq, and_true] at hret
  obtain ⟨hb1, hc1, ha1⟩ := hret
  obtain ⟨x, hx, hxc⟩ := (slotOf_eq_info _ c).1 hc1.symm
  have hnone := (slotOf_eq_null _).1 ha1.symm
  rw [hx] at hex hbr
  rw [hnone] at haf
  have hloc := nextLocator_of_last st1 x hex haf
  have hsame : located (elem_info_to_stmt (Slot.info (laitos_pjs_elem_to_obj x))) page.document
      = located (nextLocator st) page.document := by
    by_cases hs : (nextLocator st).stop_at_first = true
    · have hall : ∀ e, isTarget (nextLocator st) e = true := by
        intro e
        simp [isTarget, hs]
      have hL := locateFrom_all_last _ hall none _ x hx hnone
      unfold located
      rw [hL]
      simp [locateFrom, hall, isTarget_self]
    · have hs2 : (nextLocator st).stop_at_first = false := by simpa using hs
      obtain ⟨-, ht⟩ := locateFrom_exact_mem _ _ none x hx
      rw [elem_info_to_stmt_of_target _ x hs2 ht]
  have hfix : b_lo_next st1 = (st1, some [b, Slot.info c, Slot.null]) := by
    obtain ⟨hret2, hbe2, hex2, haf2, hbr2⟩ := b_lo_next_spec st1 _ hbr
    rw [hloc] at hret2 hbe2 hex2 haf2 hbr2
    simp only at hret2 hbe2 hex2 haf2 hbr2
    rw [hsame] at hret2 hbe2 hex2 haf2 hbr2
    refine Prod.ext ?_ ?_
    · refine EngineState_ext _ _ ?_ ?_ ?_ ?_
      · simp only
        rw [hbr2, hbr, hx]
      · simp only
        rw [hex2, hex, hx]
      · simp only
        rw [hbe2, hbe]
      · simp only
        rw [haf2, haf, hnone]
    · simp only
      rw [hret2, ← hb1, ← hc1, ← ha1]
  have hiter : (fun s => (b_lo_next s).1)^[n] st1 = st1 :=
    Function.iterate_fixed (by simp [hfix]) n
  rw [hiter]
  exact hfix


/-! ### The document is not touched by the walker -/

lemma locateAndStore_docOf (st : EngineState) (page : Page) (stmt : Locator) :
    docOf (locateAndStore st page stmt).1 = some page.document := rfl

lemma b_lo_next_docOf (st : EngineState) : docOf (b_lo_next st).1 = docOf st := by
  cases hb : st.browser with
  | none => rw [b_lo_next_no_browser st hb]
  | some page =>
    rw [b_lo_next_of_browser st page hb, locateAndStore_docOf, docOf, hb]
    rfl

lemma b_lo_prev_docOf (st : EngineState) : docOf (b_lo_prev st).1 = docOf st := by
  unfold b_lo_prev
  cases hb : st.browser with
  | none => simp [docOf, hb]
  | some page =>
    simp only [locateAndStore_docOf, docOf, hb]
    rfl

lemma empty_str_to_null_info (found : List ElementInfo) :
    empty_str_to_null (found.map Slot.info) = found.map Slot.info := by
  simp [empty_str_to_null]

/-- What `b_lo_next_n` does when a page exists: `st1` is the state after the
optional first `b_lo_next`, `page1` its page. -/
lemma b_lo_next_n_spec (st : EngineState) (page : Page) (hb : st.browser = some page)
    (n : Int) :
    ∃ (st1 : EngineState) (page1 : Page), st1.browser = some page1 ∧
      page1.document = page.document ∧
      b_lo_next_n st n =
        (if (laitos_pjs_find_after page1.document (elem_info_to_stmt st1.exact_info) n
              page1.laitos_pjs_current_elem).1 ≠ [] then
          { st1 with
              browser := some { page1 with laitos_pjs_current_elem :=
                (laitos_pjs_find_after page1.document (elem_info_to_stmt st1.exact_info) n
                  page1.laitos_pjs_current_elem).2 },
              before_info := st1.exact_info,
              exact_info := ((laitos_pjs_find_after page1.document
                (elem_info_to_stmt st1.exact_info) n
                page1.laitos_pjs_current_elem).1.map Slot.info).getLastD Slot.null,
              after_info := ((laitos_pjs_find_after page1.document
                (elem_info_to_stmt st1.exact_info) n
                page1.laitos_pjs_current_elem).1.map Slot.info).getLastD Slot.null }
          else
          { st1 with
              browser := some { page1 with laitos_pjs_current_elem :=
                (laitos_pjs_find_after page1.document (elem_info_to_stmt st1.exact_info) n
                  page1.laitos_pjs_current_elem).2 } },
         some ((laitos_pjs_find_after page1.document (elem_info_to_stmt st1.exact_info) n
              page1.laitos_pjs_current_elem).1.map Slot.info)) := by
  by_cases he : st.exact_info = Slot.null
  · obtain ⟨-, -, -, -, hbr⟩ := b_lo_next_spec st page hb
    refine ⟨(b_lo_next st).1, _, hbr, rfl, ?_⟩
    simp only [b_lo_next_n, hb, he, if_true, hbr, empty_str_to_null_info, List.length_map]
    by_cases hne : (laitos_pjs_find_after page.document
        (elem_info_to_stmt (b_lo_next st).1.exact_info) n
        (match (located (nextLocator st) page.document).2.1 with
          | some x => some x
          | none => page.laitos_pjs_current_elem)).1 = []
    · simp [hne]
    · have hpos := List.length_pos.2 hne
      simp [hne, hpos]
  · refine ⟨st, page, hb, rfl, ?_⟩
    simp only [b_lo_next_n, hb, he, if_false, empty_str_to_null_info, List.length_map]
    by_cases hne : (laitos_pjs_find_after page.document
        (elem_info_to_stmt st.exact_info) n page.laitos_pjs_current_elem).1 = []
    · simp [hne]
    · have hpos := List.length_pos.2 hne
      simp [hne, hpos]

lemma b_lo_next_n_docOf (st : EngineState) (n : Int) :
    docOf (b_lo_next_n st n).1 = docOf st := by
  cases hb : st.browser with
  | none => simp [b_lo_next_n, hb]
  | some page =>
    obtain ⟨st1, page1, hb1, hdoc, heq⟩ := b_lo_next_n_spec st page hb n
    rw [heq]
    split_ifs <;> simp [docOf, hb, hdoc]

lemma handleWalkerCall_docOf (st : EngineState) (call : WalkerCall) :
    docOf (handleWalkerCall st call) = docOf st := by
  cases call with
  | LONext => exact b_lo_next_docOf st
  | LOPrev => exact b_lo_prev_docOf st
  | LONextN n => exact b_lo_next_n_docOf st n

lemma foldl_handleWalkerCall_docOf (calls : List WalkerCall) :
    ∀ st : EngineState, docOf (calls.foldl handleWalkerCall st) = docOf st := by
  induction calls with
  | nil =>
    intro st
    rfl
  | cons call rest ih =>
    intro st
    rw [List.foldl_cons, ih, handleWalkerCall_docOf]

/-- From an empty current slot the result of `b_lo_next` is a function of the
document alone. -/
lemma b_lo_next_of_empty (st : EngineState) (hexact : st.exact_info = Slot.null) :
    (b_lo_next st).2 = (docOf st).map (fun document =>
      [Slot.null, slotOf (eligibleElems 1000 document)[0]?,
        slotOf (eligibleElems 1000 document)[1]?]) := by
  cases hb : st.browser with
  | none =>
    rw [b_lo_next_no_browser st hb, docOf, hb]
    rfl
  | some page =>
    have hloc : nextLocator st = elem_info_to_stmt Slot.null := by
      simp [nextLocator, hexact]
    rw [(b_lo_next_spec st page hb).1, hloc, located, locateFrom_of_all _ isTarget_null,
      docOf, hb]
    rfl

/-- C6: `b_lo_reset` empties the three cursor slots of any state; and on a
document that stays the same, after any sequence of walking requests followed
by a reset, `b_lo_next` returns the triple it returned right after navigation,
when the cursor was empty. -/
theorem LOReset_restarts_walk (st0 : EngineState) (calls : List WalkerCall)
    (hexact : st0.exact_info = Slot.null) :
    (∀ st : EngineState, (b_lo_reset st).before_info = Slot.null ∧
      (b_lo_reset st).exact_info = Slot.null ∧ (b_lo_reset st).after_info = Slot.null) ∧
    (b_lo_next (b_lo_reset (calls.foldl handleWalkerCall st0))).2 = (b_lo_next st0).2 := by
  refine ⟨fun st => ⟨rfl, rfl, rfl⟩, ?_⟩
  rw [b_lo_next_of_empty _ rfl, b_lo_next_of_empty st0 hexact]
  have h : docOf (b_lo_reset (calls.foldl handleWalkerCall st0))
      = docOf (calls.foldl handleWalkerCall st0) := rfl
  rw [h, foldl_handleWalkerCall_docOf]


/-! ### `laitos_pjs_find_after` collects eligible elements of the document -/

lemma walkList_find_after_mem (loc : Locator) (n : Int) (L : List Node) :
    ∀ (st : AfterState) (e : ElementInfo),
      e ∈ (walkList (find_after_fun loc n) L st).1.ret →
      e ∈ st.ret ∨ ∃ y ∈ L, eligible 8192 y = true ∧ laitos_pjs_elem_to_obj y = e := by
  induction L with
  | nil =>
    intro st e h
    exact Or.inl h
  | cons x xs ih =>
    intro st e h
    have lift : ∀ st2 : AfterState, st2.ret = st.ret →
        e ∈ (walkList (find_after_fun loc n) xs st2).1.ret →
        e ∈ st.ret ∨ ∃ y ∈ x :: xs, eligible 8192 y = true ∧ laitos_pjs_elem_to_obj y = e := by
      intro st2 hret h2
      rcases ih st2 e h2 with h3 | ⟨y, hy, hy2⟩
      · exact Or.inl (hret ▸ h3)
      · exact Or.inr ⟨y, List.mem_cons_of_mem _ hy, hy2⟩
    by_cases hel : eligible 8192 x = true
    · by_cases hsame : sameFields loc x = true
      · simp only [walkList, find_after_fun, hel, hsame, if_true] at h
        exact lift { st with matched := true } rfl h
      · by_cases hm : st.matched = true
        · by_cases hlen : (st.ret.length : Int) < n
          · simp only [walkList, find_after_fun, hel, hsame, hm, hlen, if_true, if_false,
              Bool.false_eq_true] at h
            rcases ih _ e h with h3 | ⟨y, hy, hy2⟩
            · simp only [List.mem_append, List.mem_singleton] at h3
              rcases h3 with h4 | h4
              · exact Or.inl h4
              · exact Or.inr ⟨x, List.mem_cons_self _ _, hel, h4.symm⟩
            · exact Or.inr ⟨y, List.mem_cons_of_mem _ hy, hy2⟩
          · simp only [walkList, find_after_fun, hel, hsame, hm, hlen, if_true, if_false,
              Bool.false_eq_true] at h
            exact Or.inl h
        · simp only [walkList, find_after_fun, hel, hsame, hm, if_true, if_false,
            Bool.false_eq_true] at h
          exact lift _ rfl h
    · simp only [walkList, find_after_fun, hel, if_false, Bool.false_eq_true] at h
      exact lift _ rfl h

lemma find_after_mem (document : Node) (loc : Locator) (n : Int) (cur : Option Node)
    (e : ElementInfo) (h : e ∈ (laitos_pjs_find_after document loc n cur).1) :
    ∃ y ∈ postorder document, eligible 8192 y = true ∧ laitos_pjs_elem_to_obj y = e := by
  simp only [laitos_pjs_find_after, laitos_pjs_walk_eq_walkList] at h
  rcases walkList_find_after_mem loc n _ _ e h with h1 | h1
  · simp at h1
  · exact h1

lemma eligible_of_short (y : Node) (h : eligible 8192 y = true)
    (hshort : ∀ inner, y.props.innerHTML = some inner → jsLength inner < 1000) :
    eligible 1000 y = true := by
  rw [eligible_iff] at h ⊢
  exact ⟨h.1, h.2.1, fun inner hi => Or.inl (hshort inner hi)⟩

lemma nextLocator_of_info (st : EngineState) (a : ElementInfo)
    (he : st.exact_info ≠ Slot.null) (ha : st.after_info = Slot.info a) :
    nextLocator st = elem_info_to_stmt (Slot.info a) := by
  simp [nextLocator, he, ha]

/-- C3, amended: when `b_lo_next_n` has collected at least one element and the
last one collected has an inner content shorter than 1000 characters as
JavaScript counts them (`jsLength`, UTF-16 code units), or none, the following
`b_lo_next` returns a triple whose "current" slot holds an
element that agrees with the last collected one on tag, id, name and inner; it
is that element itself, value included, when eligible elements that agree on
these four fields also agree on the value. -/
theorem LONextN_then_LONext (st st1 : EngineState) (page : Page) (n : Int)
    (ret : List Slot) (last : ElementInfo) (hb : st.browser = some page)
    (h : b_lo_next_n st n = (st1, some ret))
    (hlast : ret.getLast? = some (Slot.info last))
    (hshort : ∀ inner, last.inner = some inner → jsLength inner < 1000) :
    ∃ b2 c2 a2, (b_lo_next st1).2 = some [b2, Slot.info c2, a2] ∧
      c2.tag = last.tag ∧ c2.id = last.id ∧ c2.name = last.name ∧ c2.inner = last.inner ∧
      ((∀ u ∈ eligibleElems 1000 page.document, ∀ v ∈ eligibleElems 1000 page.document,
          sameLocatorFields u v → u.props.value = v.props.value) → c2 = last) := by
  obtain ⟨sa, page1, hb1, hdoc, heq⟩ := b_lo_next_n_spec st page hb n
  rw [h] at heq
  simp only [Prod.mk.injEq, Option.some.injEq] at heq
  obtain ⟨hst1, hret⟩ := heq
  rw [hret] at hlast
  have hne : (laitos_pjs_find_after page1.document (elem_info_to_stmt sa.exact_info) n
      page1.laitos_pjs_current_elem).1 ≠ [] := by
    intro h0
    rw [h0] at hlast
    simp at hlast
  have hmem : last ∈ (laitos_pjs_find_after page1.document (elem_info_to_stmt sa.exact_info) n
      page1.laitos_pjs_current_elem).1 := by
    have := List.mem_of_getLast?_eq_some hlast
    simpa using this
  have hD : ((laitos_pjs_find_after page1.document (elem_info_to_stmt sa.exact_info) n
      page1.laitos_pjs_current_elem).1.map Slot.info).getLastD Slot.null = Slot.info last := by
    rw [List.getLastD_eq_getLast?, hlast]
    rfl
  rw [if_pos hne, hD] at hst1
  obtain ⟨y, hypost, hy8, hysnap⟩ := find_after_mem _ _ _ _ _ hmem
  have hy1000 : eligible 1000 y = true := by
    apply eligible_of_short y hy8
    intro inner hi
    apply hshort
    rw [← hysnap]
    exact hi
  have hymem : y ∈ eligibleElems 1000 page.document := by
    rw [← hdoc]
    exact List.mem_filter.2 ⟨hypost, hy1000⟩
  have hbr1 : st1.browser = some { page1 with laitos_pjs_current_elem :=
      (laitos_pjs_find_after page1.document (elem_info_to_stmt sa.exact_info) n
        page1.laitos_pjs_current_elem).2 } := by
    rw [hst1]
  have hloc : nextLocator st1 = elem_info_to_stmt (Slot.info last) := by
    apply nextLocator_of_info
    · rw [hst1]
      simp
    · rw [hst1]
  obtain ⟨hret2, -⟩ := b_lo_next_spec st1 _ hbr1
  rw [hloc, ← hysnap] at hret2
  simp only [hdoc] at hret2
  obtain ⟨z, hz, hzmem, hzf⟩ := located_snapshot page.document y hymem
  refine ⟨slotOf (located (elem_info_to_stmt (Slot.info (laitos_pjs_elem_to_obj y)))
      page.document).1, laitos_pjs_elem_to_obj z,
    slotOf (located (elem_info_to_stmt (Slot.info (laitos_pjs_elem_to_obj y)))
      page.document).2.2, ?_, ?_, ?_, ?_, ?_, ?_⟩
  · rw [hret2, hz]
    rfl
  · rw [← hysnap]
    exact hzf.1
  · rw [← hysnap]
    exact hzf.2.1
  · rw [← hysnap]
    exact hzf.2.2.1
  · rw [← hysnap]
    exact hzf.2.2.2
  · intro huniq
    have hv := huniq z hzmem y hymem hzf
    rw [← hysnap]
    obtain ⟨h1, h2, h3, h4⟩ := hzf
    simp [laitos_pjs_elem_to_obj, h1, h2, h3, h4, hv]


/-! ### Concrete runs -/

/-- C2, counterexample: on `twinPage` a `b_lo_next` returns the second input
(value "B") in its "after" slot, and the `b_lo_next` that follows returns the
first input (value "A") as "current": the search by tag, id, name and inner
stops at the first of the two. -/
theorem LONext_continuity_fails :
    (b_lo_next (b_lo_next twinStart).1).2
      = some [Slot.info linkInfo, Slot.info (inputInfo "A"), Slot.info (inputInfo "B")] ∧
    (b_lo_next (b_lo_next (b_lo_next twinStart).1).1).2
      = some [Slot.info linkInfo, Slot.info (inputInfo "A"), Slot.info (inputInfo "B")] ∧
    Slot.info (inputInfo "A") ≠ Slot.info (inputInfo "B") := by
  decide

/-- Witness of the amended C2 on `twinPage`, at the second `b_lo_next`. -/
theorem LONext_continuity_witness :
    ∃ b2 c2 a2, (b_lo_next (b_lo_next (b_lo_next twinStart).1).1).2
        = some [b2, Slot.info c2, a2] ∧
      c2.tag = (inputInfo "B").tag ∧ c2.id = (inputInfo "B").id ∧
      c2.name = (inputInfo "B").name ∧ c2.inner = (inputInfo "B").inner ∧
      ((∀ u ∈ eligibleElems 1000 twinPage.document, ∀ v ∈ eligibleElems 1000 twinPage.document,
          sameLocatorFields u v → u.props.value = v.props.value) → c2 = inputInfo "B") :=
  LONext_continuity (b_lo_next twinStart).1 (b_lo_next (b_lo_next twinStart).1).1
    { twinPage with laitos_pjs_current_elem := some linkElem }
    (Slot.info linkInfo) (Slot.info (inputInfo "A")) (inputInfo "B") rfl
    (Prod.ext rfl (by decide))

set_option maxRecDepth 100000 in
/-- C3, counterexample: on `longPage`, `b_lo_next_n` with N = 1 collects the
paragraph whose inner content has 1000 characters, and the `b_lo_next` that
follows returns an empty "current" slot; on `twinPage`, `b_lo_next_n` with
N = 2 collects the two inputs, the last one with value "B", and the
`b_lo_next` that follows returns the input with value "A" as "current". -/
theorem LONextN_then_LONext_fails :
    ((b_lo_next_n longStart 1).2 = some [Slot.info longParagraphInfo] ∧
      (b_lo_next (b_lo_next_n longStart 1).1).2
        = some [Slot.info linkInfo, Slot.null, Slot.null]) ∧
    ((b_lo_next_n twinStart 2).2
        = some [Slot.info (inputInfo "A"), Slot.info (inputInfo "B")] ∧
      (b_lo_next (b_lo_next_n twinStart 2).1).2
        = some [Slot.info linkInfo, Slot.info (inputInfo "A"), Slot.info (inputInfo "B")] ∧
      Slot.info (inputInfo "A") ≠ Slot.info (inputInfo "B")) := by
  decide

/-- Witness of the amended C3 on `twinPage` with N = 2. -/
theorem LONextN_then_LONext_witness :
    ∃ b2 c2 a2, (b_lo_next (b_lo_next_n twinStart 2).1).2 = some [b2, Slot.info c2, a2] ∧
      c2.tag = (inputInfo "B").tag ∧ c2.id = (inputInfo "B").id ∧
      c2.name = (inputInfo "B").name ∧ c2.inner = (inputInfo "B").inner ∧
      ((∀ u ∈ eligibleElems 1000 twinPage.document, ∀ v ∈ eligibleElems 1000 twinPage.document,
          sameLocatorFields u v → u.props.value = v.props.value) → c2 = inputInfo "B") :=
  LONextN_then_LONext twinStart (b_lo_next_n twinStart 2).1 twinPage 2
    [Slot.info (inputInfo "A"), Slot.info (inputInfo "B")] (inputInfo "B") rfl
    (Prod.ext rfl (by decide)) rfl
    (by
      intro inner hi
      cases hi
      decide)

/-- Witness of C4 on `linkPage`: the third `b_lo_next` reaches the root, the
last eligible element, and three more calls return the same triple. -/
theorem LONext_saturation_witness :
    b_lo_next ((fun s => (b_lo_next s).1)^[3]
        (b_lo_next (b_lo_next (b_lo_next linkStart).1).1).1)
      = ((b_lo_next (b_lo_next (b_lo_next linkStart).1).1).1,
          some [Slot.info linkBodyInfo, Slot.info linkHtmlInfo, Slot.null]) :=
  LONext_saturation (b_lo_next (b_lo_next linkStart).1).1
    (b_lo_next (b_lo_next (b_lo_next linkStart).1).1).1
    (Slot.info linkBodyInfo) linkHtmlInfo (Prod.ext rfl (by decide)) 3

/-- Witness of C5 on `twinPage` right after navigation. -/
theorem b_lo_next_first_call_witness :
    (b_lo_next twinStart).2 = some [Slot.null,
      slotOf (eligibleElems 1000 twinPage.document)[0]?,
      slotOf (eligibleElems 1000 twinPage.document)[1]?] ∧
    (∀ elem : Node, eligible 1000 elem = true ↔
      (∃ h, elem.props.offsetHeight = some h ∧ 3 < h) ∧
      (∃ w, elem.props.offsetWidth = some w ∧ 3 < w) ∧
      (∀ inner, elem.props.innerHTML = some inner → jsLength inner < 1000 ∨ inner = "")) :=
  b_lo_next_first_call twinStart twinPage rfl rfl

/-- Witness of C6 on `linkPage`: a walk of four requests, then a reset. -/
theorem LOReset_restarts_walk_witness :
    (b_lo_next (b_lo_reset ([WalkerCall.LONext, WalkerCall.LONextN 5, WalkerCall.LOPrev,
        WalkerCall.LONext].foldl handleWalkerCall linkStart))).2 = (b_lo_next linkStart).2 :=
  (LOReset_restarts_walk linkStart
    [WalkerCall.LONext, WalkerCall.LONextN 5, WalkerCall.LOPrev, WalkerCall.LONext] rfl).2


/-! ### The command channel -/

lemma SendRequest_trace {α : Type} (doHTTP : Engine) (actionName : String)
    (params : List (String × String)) (jsonReceiver : Option (String → Except String α))
    (sent : List Request) :
    (SendRequest doHTTP actionName params jsonReceiver sent).2
      = sent ++ [{ actionName := actionName, params := params }] := by
  unfold SendRequest
  simp only
  split <;> try rfl
  split <;> try rfl
  split <;> try rfl
  split <;> rfl

lemma forward_trace (r : Except Error (Option Unit) × List Request) : (forward r).2 = r.2 := by
  rcases r with ⟨e, t⟩
  cases e <;> rfl

/-- C12: `SendRequest` returns nil exactly when the HTTP exchange succeeds, the
status is 2xx and, if a receiver was requested, the body parses into it; a
status outside 2xx gives the non-2xx error with the raw body; a body that does
not parse gives the decode error when a receiver was requested; without a
receiver the body is not parsed and any 2xx response is a success. -/
theorem SendRequest_result {α : Type} (doHTTP : Engine) (actionName : String)
    (params : List (String × String)) (jsonReceiver : Option (String → Except String α))
    (sent : List Request) :
    ((∃ r, (SendRequest doHTTP actionName params jsonReceiver sent).1 = .ok r) ↔
      ∃ resp, doHTTP sent { actionName := actionName, params := params } = .ok resp ∧
        (200 ≤ resp.StatusCode ∧ resp.StatusCode < 300) ∧
        ∀ unmarshal, jsonReceiver = some unmarshal → ∃ v, unmarshal resp.Body = .ok v) ∧
    (∀ resp, doHTTP sent { actionName := actionName, params := params } = .ok resp →
      ¬ (200 ≤ resp.StatusCode ∧ resp.StatusCode < 300) →
      (SendRequest doHTTP actionName params jsonReceiver sent).1
        = .error (Error.non2xx resp.Body)) ∧
    (∀ resp unmarshal m,
      doHTTP sent { actionName := actionName, params := params } = .ok resp →
      (200 ≤ resp.StatusCode ∧ resp.StatusCode < 300) →
      jsonReceiver = some unmarshal → unmarshal resp.Body = .error m →
      (SendRequest doHTTP actionName params jsonReceiver sent).1 = .error (Error.decode m)) ∧
    (∀ resp, doHTTP sent { actionName := actionName, params := params } = .ok resp →
      (200 ≤ resp.StatusCode ∧ resp.StatusCode < 300) → jsonReceiver = none →
      (SendRequest doHTTP actionName params jsonReceiver sent).1 = .ok none) := by
  have h2xx : ∀ resp : HTTPResponse,
      (200 ≤ resp.StatusCode ∧ resp.StatusCode < 300) ↔ resp.StatusCode / 100 = 2 := by
    intro resp
    omega
  unfold SendRequest
  simp only
  cases hd : doHTTP sent { actionName := actionName, params := params } with
  | error e => simp
  | ok resp =>
    by_cases hs : resp.StatusCode / 100 = 2
    · have hr := (h2xx resp).2 hs
      cases jsonReceiver with
      | none => simp [Non2xxToError, hs, hr]
      | some unmarshal =>
        cases hu : unmarshal resp.Body with
        | error m =>
          simp [Non2xxToError, hs, hr, hu]
          intro r u m1 h1 _ _ h2 h3
          subst h1
          subst h2
          rw [hu] at h3
          exact Except.error.inj h3
        | ok v =>
          simp [Non2xxToError, hs, hr, hu]
          intro r u m1 h1 _ _ h2 h3
          subst h1
          subst h2
          rw [hu] at h3
          cases h3
    · have hr : ¬ (200 ≤ resp.StatusCode ∧ resp.StatusCode < 300) :=
        fun h => hs ((h2xx resp).1 h)
      simp [Non2xxToError, hs, hr]
      constructor
      · intro r u m1 h1 h2 h3
        subst h1
        exact absurd ⟨h2, h3⟩ hr
      · intro h2 h3
        exact absurd ⟨h2, h3⟩ hr

/-- C13: for all integers `top`, `left`, `width`, `height`, the request that
`SetRenderArea` issues is `redraw_area` with `top` and `left` replaced by 0
when negative and `width` and `height` replaced by 10 when negative; none of
the four forwarded values is negative, and clamping clamped values changes
nothing. -/
theorem SetRenderArea_clamps (doHTTP : Engine) (top left width height : Int)
    (sent : List Request) :
    (SetRenderArea doHTTP top left width height sent).2 = sent ++
      [{ actionName := "redraw_area",
         params := [("top", toString (max top 0)), ("left", toString (max left 0)),
                    ("width", toString (if width < 0 then 10 else width)),
                    ("height", toString (if height < 0 then 10 else height))] }] ∧
    clampRenderArea top left width height
      = (max top 0, max left 0, (if width < 0 then 10 else width),
          (if height < 0 then 10 else height)) ∧
    (0 ≤ (clampRenderArea top left width height).1 ∧
      0 ≤ (clampRenderArea top left width height).2.1 ∧
      0 ≤ (clampRenderArea top left width height).2.2.1 ∧
      0 ≤ (clampRenderArea top left width height).2.2.2) ∧
    clampRenderArea (clampRenderArea top left width height).1
        (clampRenderArea top left width height).2.1
        (clampRenderArea top left width height).2.2.1
        (clampRenderArea top left width height).2.2.2
      = clampRenderArea top left width height := by
  have ht : (if top < 0 then 0 else top) = max top 0 := by
    split_ifs <;> omega
  have hl : (if left < 0 then 0 else left) = max left 0 := by
    split_ifs <;> omega
  refine ⟨?_, ?_, ?_, ?_⟩
  · simp only [SetRenderArea, clampRenderArea, forward_trace, SendRequest_trace, ht, hl]
  · simp only [clampRenderArea, ht, hl]
  · simp only [clampRenderArea]
    refine ⟨?_, ?_, ?_, ?_⟩ <;> split_ifs <;> omega
  · simp only [clampRenderArea]
    have e1 : ∀ x : Int, (if (if x < 0 then 0 else x) < 0 then 0 else (if x < 0 then 0 else x))
        = (if x < 0 then 0 else x) := by
      intro x
      split_ifs <;> omega
    have e2 : ∀ x : Int, (if (if x < 0 then 10 else x) < 0 then 10
        else (if x < 0 then 10 else x)) = (if x < 0 then 10 else x) := by
      intro x
      split_ifs <;> omega
    rw [e1, e1, e2, e2]

/-- C14: `SendKey` with a non-empty text issues exactly one `type` request
carrying `key_string` (the code is not looked at); with an empty text and a
non-zero code it issues exactly one `type` request carrying the decimal
rendering of the code as `key_code`; with an empty text and code zero it
issues no request and returns nil. -/
theorem SendKey_requests (doHTTP : Engine) (aString : String) (aCode : Int)
    (sent : List Request) :
    (aString ≠ "" → (SendKey doHTTP aString aCode sent).2
      = sent ++ [{ actionName := "type", params := [("key_string", aString)] }]) ∧
    (aString = "" → aCode ≠ 0 → (SendKey doHTTP aString aCode sent).2
      = sent ++ [{ actionName := "type", params := [("key_code", toString aCode)] }]) ∧
    (aString = "" → aCode = 0 → SendKey doHTTP aString aCode sent = (none, sent)) := by
  refine ⟨?_, ?_, ?_⟩
  · intro h
    simp only [SendKey, h, ne_eq, not_false_eq_true, if_true, forward_trace, SendRequest_trace]
  · intro h hc
    simp only [SendKey, h, hc, ne_eq, not_true_eq_false, not_false_eq_true, if_true, if_false,
      forward_trace, SendRequest_trace]
  · intro h hc
    simp [SendKey, h, hc]

/-- C15: for a URL with the prefix "http://" or "https://", `GoTo` returns nil
exactly when the `goto` request succeeds and decodes to `true`; a response
decoded as `false` gives the result-is-false error, and an error of the
request is returned as it is. -/
theorem GoTo_result (doHTTP : Engine) (unmarshalBool : String → Except String Bool)
    (userAgent pageURL : String) (width height : Int) (sent : List Request)
    (hurl : "http://".toList <+: pageURL.toList ∨ "https://".toList <+: pageURL.toList) :
    ((GoTo doHTTP unmarshalBool userAgent pageURL width height sent).1 = none ↔
      (SendRequest doHTTP "goto"
        [("user_agent", userAgent), ("page_url", pageURL),
         ("view_width", toString width), ("view_height", toString height)]
        (some unmarshalBool) sent).1 = .ok (some true)) ∧
    ((SendRequest doHTTP "goto"
        [("user_agent", userAgent), ("page_url", pageURL),
         ("view_width", toString width), ("view_height", toString height)]
        (some unmarshalBool) sent).1 = .ok (some false) →
      (GoTo doHTTP unmarshalBool userAgent pageURL width height sent).1
        = some Error.resultFalse) ∧
    (∀ e, (SendRequest doHTTP "goto"
        [("user_agent", userAgent), ("page_url", pageURL),
         ("view_width", toString width), ("view_height", toString height)]
        (some unmarshalBool) sent).1 = .error e →
      (GoTo doHTTP unmarshalBool userAgent pageURL width height sent).1 = some e) := by
  have hcond : (!HasPrefix pageURL "http://" && !HasPrefix pageURL "https://") = false := by
    rcases hurl with h | h
    · have : HasPrefix pageURL "http://" = true := by
        rw [HasPrefix, List.isPrefixOf_iff_prefix]
        exact h
      simp [this]
    · have : HasPrefix pageURL "https://" = true := by
        rw [HasPrefix, List.isPrefixOf_iff_prefix]
        exact h
      simp [this]
  have hsome : ∀ r, (SendRequest doHTTP "goto"
        [("user_agent", userAgent), ("page_url", pageURL),
         ("view_width", toString width), ("view_height", toString height)]
        (some unmarshalBool) sent).1 = .ok r → ∃ v, r = some v := by
    intro r
    unfold SendRequest
    simp only
    split
    · simp
    · split
      · simp
      · split
        · simp
        · intro h
          simp only [Except.ok.injEq] at h
          exact ⟨_, h.symm⟩
  unfold GoTo
  simp only [hcond, Bool.false_eq_true, if_false]
  rcases hq : SendRequest doHTTP "goto"
        [("user_agent", userAgent), ("page_url", pageURL),
         ("view_width", toString width), ("view_height", toString height)]
        (some unmarshalBool) sent with ⟨r, sent1⟩
  rw [hq] at hsome
  cases r with
  | error e => simp
  | ok v =>
    obtain ⟨b, hb⟩ := hsome v rfl
    subst hb
    cases b <;> simp


/-! ### The request body -/

lemma replacePlus_append (a b : GoString) :
    replacePlus (a ++ b) = replacePlus a ++ replacePlus b := by
  simp [replacePlus, List.flatMap_append]

lemma upperhex_ne (n : Nat) : upperhex n ≠ 43 ∧ upperhex n ≠ 38 ∧ upperhex n ≠ 61 := by
  unfold upperhex
  split_ifs <;> omega

lemma not_shouldEscape (c : Nat) (h : shouldEscape c = false) :
    c ≠ 43 ∧ c ≠ 38 ∧ c ≠ 61 ∧ c ≠ 37 := by
  unfold shouldEscape at h
  split_ifs at h <;> omega

lemma replacePlus_QueryEscape (s : GoString) : replacePlus (QueryEscape s) = percentEncode s := by
  induction s with
  | nil => rfl
  | cons c rest ih =>
    have hcons : QueryEscape (c :: rest)
        = (if shouldEscape c then
            (if c = 32 then [43] else [37, upperhex (c / 16), upperhex (c % 16)])
          else [c]) ++ QueryEscape rest := by
      simp [QueryEscape]
    have hcons2 : percentEncode (c :: rest)
        = (if shouldEscape c then [37, upperhex (c / 16), upperhex (c % 16)] else [c])
          ++ percentEncode rest := by
      simp [percentEncode]
    rw [hcons, hcons2, replacePlus_append, ih]
    congr 1
    by_cases he : shouldEscape c = true
    · by_cases h32 : c = 32
      · subst h32
        decide
      · have h1 := (upperhex_ne (c / 16)).1
        have h2 := (upperhex_ne (c % 16)).1
        simp [he, h32, replacePlus, h1, h2]
    · have he2 : shouldEscape c = false := by simpa using he
      have hc := (not_shouldEscape c he2).1
      simp [he2, replacePlus, hc]

lemma percentEncode_bytes (s : GoString) :
    ∀ x ∈ percentEncode s, x ≠ 43 ∧ x ≠ 38 ∧ x ≠ 61 := by
  intro x hx
  simp only [percentEncode, List.mem_flatMap] at hx
  obtain ⟨c, -, hc⟩ := hx
  by_cases he : shouldEscape c = true
  · simp only [he, if_true, List.mem_cons, List.mem_singleton, List.not_mem_nil,
      or_false] at hc
    rcases hc with h | h | h
    · subst h
      decide
    · subst h
      exact upperhex_ne _
    · subst h
      exact upperhex_ne _
  · have he2 : shouldEscape c = false := by simpa using he
    simp only [he2, Bool.false_eq_true, if_false, List.mem_singleton] at hc
    subst hc
    have := not_shouldEscape x he2
    exact ⟨this.1, this.2.1, this.2.2.1⟩

lemma unhex_upperhex (n : Nat) (h : n < 16) : unhex (upperhex n) = some n := by
  interval_cases n <;> rfl

lemma percentDecode_cons_ne (c : Nat) (rest : GoString) (h : c ≠ 37) :
    percentDecode (c :: rest) = (percentDecode rest).map (fun r => c :: r) := by
  rcases rest with _ | ⟨a, _ | ⟨b, rest2⟩⟩ <;> simp [percentDecode, h]

lemma percentDecode_percentEncode (s : GoString) (hs : ∀ b ∈ s, b < 256) :
    percentDecode (percentEncode s) = some s := by
  induction s with
  | nil => rfl
  | cons c rest ih =>
    have hrest := ih (fun b hb => hs b (List.mem_cons_of_mem _ hb))
    have hc := hs c (List.mem_cons_self _ _)
    have hcons : percentEncode (c :: rest)
        = (if shouldEscape c then [37, upperhex (c / 16), upperhex (c % 16)] else [c])
          ++ percentEncode rest := by
      simp [percentEncode]
    rw [hcons]
    by_cases he : shouldEscape c = true
    · have h1 := unhex_upperhex (c / 16) (by omega)
      have h2 := unhex_upperhex (c % 16) (by omega)
      have h3 : c / 16 * 16 + c % 16 = c := by omega
      simp [he, percentDecode, h1, h2, hrest, h3]
    · have he2 : shouldEscape c = false := by simpa using he
      have h37 := (not_shouldEscape c he2).2.2.2
      simp only [he2, Bool.false_eq_true, if_false, List.singleton_append]
      rw [percentDecode_cons_ne c _ h37, hrest]
      rfl

lemma splitOn_of_not_mem (sep : Nat) (seg : GoString) (h : sep ∉ seg) :
    splitOn sep seg = [seg] := by
  induction seg with
  | nil => rfl
  | cons c rest ih =>
    have hc : c ≠ sep := fun e => h (e ▸ List.mem_cons_self _ _)
    have hr : sep ∉ rest := fun e => h (List.mem_cons_of_mem _ e)
    simp [splitOn, hc, ih hr]

lemma splitOn_append (sep : Nat) (seg more : GoString) (h : sep ∉ seg) :
    splitOn sep (seg ++ sep :: more) = seg :: splitOn sep more := by
  induction seg with
  | nil => simp [splitOn]
  | cons c rest ih =>
    have hc : c ≠ sep := fun e => h (e ▸ List.mem_cons_self _ _)
    have hr : sep ∉ rest := fun e => h (List.mem_cons_of_mem _ e)
    simp [splitOn, hc, ih hr]

lemma splitOn_joinPairs (segs : List GoString) (seg : GoString)
    (h : ∀ x ∈ seg :: segs, 38 ∉ x) :
    splitOn 38 (joinPairs (seg :: segs)) = seg :: segs := by
  induction segs generalizing seg with
  | nil =>
    simpa [joinPairs] using splitOn_of_not_mem 38 seg (h seg (List.mem_cons_self _ _))
  | cons y ys ih =>
    have hy := ih y (fun x hx => h x (List.mem_cons_of_mem _ hx))
    have hseg := h seg (List.mem_cons_self _ _)
    have e : joinPairs (seg :: y :: ys) = seg ++ 38 :: joinPairs (y :: ys) := by
      simp [joinPairs]
    rw [e, splitOn_append 38 seg _ hseg, hy]

lemma encodedPair_no_amp (kv : GoString × GoString) : 38 ∉ encodedPair kv := by
  intro h
  simp only [encodedPair, List.mem_append, List.mem_cons] at h
  rcases h with h | h | h
  · exact (percentEncode_bytes _ _ h).2.1 rfl
  · omega
  · exact (percentEncode_bytes _ _ h).2.1 rfl

lemma encodedPair_no_plus (kv : GoString × GoString) : 43 ∉ encodedPair kv := by
  intro h
  simp only [encodedPair, List.mem_append, List.mem_cons] at h
  rcases h with h | h | h
  · exact (percentEncode_bytes _ _ h).1 rfl
  · omega
  · exact (percentEncode_bytes _ _ h).1 rfl

lemma parsePair_encodedPair (kv : GoString × GoString)
    (hk : ∀ b ∈ kv.1, b < 256) (hv : ∀ b ∈ kv.2, b < 256) :
    parsePair (encodedPair kv) = some kv := by
  have hne : ∀ x ∈ percentEncode kv.1, (fun c : Nat => decide (c ≠ 61)) x = true := by
    intro x hx
    simpa using (percentEncode_bytes _ x hx).2.2
  have ht : (encodedPair kv).takeWhile (fun c => decide (c ≠ 61)) = percentEncode kv.1 := by
    unfold encodedPair
    rw [List.takeWhile_append_of_pos hne]
    simp
  have hd : (encodedPair kv).dropWhile (fun c => decide (c ≠ 61)) = 61 :: percentEncode kv.2 := by
    unfold encodedPair
    rw [List.dropWhile_append_of_pos hne]
    simp
  unfold parsePair
  rw [ht, hd, percentDecode_percentEncode _ hk]
  simp [percentDecode_percentEncode _ hv]

lemma parsePairs_encoded (kvs : List (GoString × GoString))
    (h : ∀ kv ∈ kvs, (∀ b ∈ kv.1, b < 256) ∧ (∀ b ∈ kv.2, b < 256)) :
    parsePairs (kvs.map encodedPair) = some kvs := by
  induction kvs with
  | nil => rfl
  | cons kv rest ih =>
    have h1 := h kv (List.mem_cons_self _ _)
    have h2 := ih (fun x hx => h x (List.mem_cons_of_mem _ hx))
    simp [parsePairs, parsePair_encodedPair kv h1.1 h1.2, h2]

/-- The loop of `Encode` once the buffer is not empty. -/
lemma Encode_foldl (l : List (GoString × GoString)) :
    ∀ buf : GoString, buf ≠ [] →
      replacePlus (l.foldl (fun buf kv =>
        (if buf.length > 0 then buf ++ [38] else buf)
          ++ QueryEscape kv.1 ++ [61] ++ QueryEscape kv.2) buf)
        = replacePlus buf ++ (l.map encodedPair).flatMap (fun x => 38 :: x) := by
  induction l with
  | nil =>
    intro buf _
    simp
  | cons kv rest ih =>
    intro buf hbuf
    have hlen : buf.length > 0 := List.length_pos.2 hbuf
    rw [List.foldl_cons, ih _ (by simp)]
    simp only [hlen, if_true, replacePlus_append, replacePlus_QueryEscape, List.map_cons,
      List.flatMap_cons, encodedPair, List.append_assoc]
    simp [replacePlus]

lemma fixSpaceForBody_eq (params : List (GoString × GoString)) :
    fixSpaceForBody params = joinPairs ((sortKeys params).map encodedPair) := by
  unfold fixSpaceForBody Encode
  cases hs : sortKeys params with
  | nil => rfl
  | cons kv rest =>
    rw [List.foldl_cons, Encode_foldl rest _ (by simp)]
    simp only [List.length_nil, gt_iff_lt, lt_self_iff_false, if_false, List.nil_append,
      replacePlus_append, replacePlus_QueryEscape, List.map_cons, joinPairs, encodedPair,
      List.append_assoc]
    simp [replacePlus]

/-- C11: for every parameter map whose keys and values are byte strings, the
body that `SendRequest` transmits is the form encoding of the parameters, in
key order, in which a space is written `%20` like any other escaped byte; it
contains no `+`; and reading it back piece by piece with percent-decoding
alone gives every key and value as it was. -/
theorem fixSpaceForBody_decodes (params : List (GoString × GoString))
    (hbytes : ∀ kv ∈ params, (∀ b ∈ kv.1, b < 256) ∧ (∀ b ∈ kv.2, b < 256)) :
    fixSpaceForBody params = joinPairs ((sortKeys params).map encodedPair) ∧
    43 ∉ fixSpaceForBody params ∧
    parseBody (fixSpaceForBody params) = some (sortKeys params) ∧
    (sortKeys params).Perm params := by
  have hperm : (sortKeys params).Perm params := List.perm_insertionSort _ _
  have hsorted : ∀ kv ∈ sortKeys params, (∀ b ∈ kv.1, b < 256) ∧ (∀ b ∈ kv.2, b < 256) :=
    fun kv hkv => hbytes kv (hperm.mem_iff.1 hkv)
  refine ⟨fixSpaceForBody_eq params, ?_, ?_, hperm⟩
  · rw [fixSpaceForBody_eq]
    cases sortKeys params with
    | nil => simp [joinPairs]
    | cons kv rest =>
      intro h
      simp only [List.map_cons, joinPairs, List.mem_append, List.mem_flatMap, List.mem_map,
        List.mem_cons] at h
      rcases h with h | ⟨x, ⟨y, -, rfl⟩, h | h⟩
      · exact encodedPair_no_plus kv h
      · omega
      · exact encodedPair_no_plus y h
  · rw [fixSpaceForBody_eq]
    cases hs : sortKeys params with
    | nil => rfl
    | cons kv rest =>
      rw [hs] at hsorted
      have hne : joinPairs ((kv :: rest).map encodedPair) ≠ [] := by
        simp [joinPairs, encodedPair]
      unfold parseBody
      rw [if_neg hne, List.map_cons, splitOn_joinPairs, ← List.map_cons,
        parsePairs_encoded _ hsorted]
      intro x hx
      rw [← List.map_cons, List.mem_map] at hx
      obtain ⟨y, -, rfl⟩ := hx
      exact encodedPair_no_amp y


/-! ### Pointer and value at the cursor -/

lemma b_lo_set_val_docOf (st : EngineState) (value : String) :
    docOf (b_lo_set_val st value).1 = docOf st := by
  unfold b_lo_set_val
  cases hb : st.browser with
  | none => simp [docOf, hb]
  | some page => simp [docOf, hb]

lemma b_lo_set_val_current_elem (st : EngineState) (value : String) :
    (b_lo_set_val st value).1.browser.bind Page.laitos_pjs_current_elem
      = st.browser.bind Page.laitos_pjs_current_elem := by
  unfold b_lo_set_val
  cases hb : st.browser with
  | none => simp [hb]
  | some page => simp [hb]

/-- C16, the code at the failing input: on `twinPage` with the focus on the
input whose value is "A", `b_lo_set_val` with value "B" answers the number 8
(left edge plus horizontal scroll), and afterwards the focused element still
has the value "A" and the document is the one it was. -/
theorem b_lo_set_val_keeps_value :
    (twinOnFirstInput.browser.bind Page.laitos_pjs_current_elem).map
        (fun elem => elem.props.value) = some (some "A") ∧
    (b_lo_set_val twinOnFirstInput "B").2 = JSResult.number 8 ∧
    ((b_lo_set_val twinOnFirstInput "B").1.browser.bind Page.laitos_pjs_current_elem).map
        (fun elem => elem.props.value) = some (some "A") ∧
    docOf (b_lo_set_val twinOnFirstInput "B").1 = docOf twinOnFirstInput :=
  ⟨by decide, by decide, by decide, b_lo_set_val_docOf _ _⟩

/-- C17, counterexample: on `twinPage` right after navigation nothing is
focused, yet `lo_pointer` sends one pointer event and answers `true` and
`lo_set_val` answers `null`; `LOPointer` and `LOSetValue` return nil for these
answers, and they return nil for the answer `false` as well. -/
theorem LOPointer_nil_with_nothing_focused :
    (twinStart.browser.bind Page.laitos_pjs_current_elem).isNone = true ∧
    (b_lo_pointer twinStart "click" "left").1 = JSResult.bool true ∧
    (b_lo_pointer twinStart "click" "left").2.length = 1 ∧
    (LOPointer (answering (b_lo_pointer twinStart "click" "left").1) "click" "left" []).1
      = none ∧
    (b_lo_set_val twinStart "v").2 = JSResult.null ∧
    (LOSetValue (answering (b_lo_set_val twinStart "v").2) "v" []).1 = none ∧
    (LOPointer (answering (JSResult.bool false)) "click" "left" []).1 = none ∧
    (LOSetValue (answering (JSResult.bool false)) "v" []).1 = none := by
  decide

lemma forward_ok (doHTTP : Engine) (actionName : String) (params : List (String × String))
    (sent : List Request) (ret : JSResult)
    (h : doHTTP sent { actionName := actionName, params := params } = .ok (serverResponse ret)) :
    (forward (@SendRequest Unit doHTTP actionName params none sent)).1 = none := by
  unfold SendRequest
  simp only [h]
  rfl

/-- C17, amended: `LOPointer` and `LOSetValue` pass no receiver, so whatever
result the engine writes in its response of status 200 (`false`, `true`, a
number or `null`), both return nil after sending their one request: the
answer of the engine is not surfaced to the caller as an error. -/
theorem LOPointer_LOSetValue_ignore_answer (doHTTP : Engine) (type button value : String)
    (sent : List Request) (ret : JSResult) :
    ((doHTTP sent { actionName := "lo_pointer", params := [("type", type), ("button", button)] }
        = .ok (serverResponse ret) →
      (LOPointer doHTTP type button sent).1 = none) ∧
     (LOPointer doHTTP type button sent).2
        = sent ++ [{ actionName := "lo_pointer",
                     params := [("type", type), ("button", button)] }]) ∧
    ((doHTTP sent { actionName := "lo_set_val", params := [("value", value)] }
        = .ok (serverResponse ret) →
      (LOSetValue doHTTP value sent).1 = none) ∧
     (LOSetValue doHTTP value sent).2
        = sent ++ [{ actionName := "lo_set_val", params := [("value", value)] }]) :=
  ⟨⟨fun h => forward_ok _ _ _ _ _ h, by simp only [LOPointer, forward_trace, SendRequest_trace]⟩,
    ⟨fun h => forward_ok _ _ _ _ _ h,
      by simp only [LOSetValue, forward_trace, SendRequest_trace]⟩⟩

/-- Witness of the amended C17 with an engine that answers `false`. -/
theorem LOPointer_LOSetValue_ignore_answer_witness :
    (LOPointer (answering (JSResult.bool false)) "click" "left" []).1 = none ∧
    (LOSetValue (answering (JSResult.bool false)) "v" []).1 = none :=
  ⟨(LOPointer_LOSetValue_ignore_answer (answering (JSResult.bool false)) "click" "left" "v"
      [] (JSResult.bool false)).1.1 rfl,
    (LOPointer_LOSetValue_ignore_answer (answering (JSResult.bool false)) "click" "left" "v"
      [] (JSResult.bool false)).2.1 rfl⟩


/-! ### What `laitos_pjs_find_after` collects -/

lemma walkList_find_after_matched (loc : Locator) (n : Int) (L : List Node) :
    ∀ st : AfterState, st.matched = true →
      (walkList (find_after_fun loc n) L st).1.ret = st.ret ++
        ((((L.filter (eligible 8192)).filter (fun e => !sameFields loc e)).take
          (n.toNat - st.ret.length)).map laitos_pjs_elem_to_obj) := by
  induction L with
  | nil =>
    intro st _
    simp [walkList]
  | cons x xs ih =>
    intro st hm
    by_cases hel : eligible 8192 x = true
    · by_cases hsame : sameFields loc x = true
      · simp only [walkList, find_after_fun, hel, hsame, if_true]
        rw [ih { st with matched := true } rfl]
        simp [hel, hsame]
      · by_cases hlen : (st.ret.length : Int) < n
        · simp only [walkList, find_after_fun, hel, hsame, hm, hlen, if_true, if_false,
            Bool.false_eq_true]
          rw [ih ⟨st.ret ++ [laitos_pjs_elem_to_obj x], true, some x⟩ rfl]
          have hsame2 : sameFields loc x = false := by simpa using hsame
          have hk : n.toNat - st.ret.length = (n.toNat - (st.ret.length + 1)) + 1 := by
            omega
          simp only [List.length_append, List.length_singleton, List.filter_cons_of_pos hel]
          rw [List.filter_cons_of_pos (by simp [hsame2]), hk, List.take_succ_cons]
          simp
        · simp only [walkList, find_after_fun, hel, hsame, hm, hlen, if_true, if_false,
            Bool.false_eq_true]
          have hk : n.toNat - st.ret.length = 0 := by omega
          simp [hk]
    · simp only [walkList, find_after_fun, hel, if_false, Bool.false_eq_true]
      rw [ih st hm, List.filter_cons_of_neg hel]

lemma walkList_find_after_start (loc : Locator) (n : Int) (L : List Node) :
    ∀ st : AfterState, st.matched = false → st.ret = [] →
      (walkList (find_after_fun loc n) L st).1.ret
        = (collectedAfter loc n L).map laitos_pjs_elem_to_obj := by
  induction L with
  | nil =>
    intro st _ hr
    simp [walkList, collectedAfter, hr]
  | cons x xs ih =>
    intro st hm hr
    by_cases hel : eligible 8192 x = true
    · by_cases hsame : sameFields loc x = true
      · simp only [walkList, find_after_fun, hel, hsame, if_true]
        rw [walkList_find_after_matched loc n xs { st with matched := true } rfl]
        simp [collectedAfter, hel, hsame, hr]
      · have hsame2 : sameFields loc x = false := by simpa using hsame
        simp only [walkList, find_after_fun, hel, hsame, hm, if_true, if_false,
          Bool.false_eq_true]
        rw [ih st hm hr]
        simp [collectedAfter, hel, hsame2]
    · simp only [walkList, find_after_fun, hel, if_false, Bool.false_eq_true]
      rw [ih st hm hr]
      simp [collectedAfter, hel]

lemma laitos_pjs_find_after_eq (document : Node) (loc : Locator) (n : Int)
    (cur : Option Node) :
    (laitos_pjs_find_after document loc n cur).1
      = (collectedAfter loc n (postorder document)).map laitos_pjs_elem_to_obj := by
  simp only [laitos_pjs_find_after, laitos_pjs_walk_eq_walkList]
  exact walkList_find_after_start loc n _ _ rfl rfl

lemma b_lo_next_n_result (st : EngineState) (page : Page) (hb : st.browser = some page)
    (hne : st.exact_info ≠ Slot.null) (n : Int) :
    (b_lo_next_n st n).2 = some (((collectedAfter (elem_info_to_stmt st.exact_info) n
      (postorder page.document)).map laitos_pjs_elem_to_obj).map Slot.info) := by
  simp only [b_lo_next_n, hb, hne, if_false, empty_str_to_null_info,
    laitos_pjs_find_after_eq]
  split_ifs <;> rfl

lemma sameFields_snapshot (x z : Node) :
    sameFields (elem_info_to_stmt (Slot.info (laitos_pjs_elem_to_obj x))) z = true
      ↔ sameLocatorFields z x := by
  simp [sameFields, elem_info_to_stmt, laitos_pjs_elem_to_obj, sameLocatorFields, and_assoc]

lemma dropWhile_append_of_all {α : Type} (p : α → Bool) (pre rest : List α)
    (h : ∀ z ∈ pre, p z = true) : (pre ++ rest).dropWhile p = rest.dropWhile p := by
  induction pre with
  | nil => rfl
  | cons a as ih =>
    have ha := h a (List.mem_cons_self _ _)
    simp [List.dropWhile, ha, ih (fun z hz => h z (List.mem_cons_of_mem _ hz))]

/-- C18, amended: for every document, every cursor whose current slot holds the
snapshot of an element `x` of the document that is eligible under the 8192 cap
and shares tag, id, name and inner with no other such element, and every
N >= 0, `b_lo_next_n` returns in traversal order the first min(N, m) of the m
elements after `x` that are eligible under the 8192 cap. -/
theorem lo_next_n_collects (st : EngineState) (page : Page) (n : Int) (x : Node)
    (pre post : List Node) (hb : st.browser = some page)
    (hcur : st.exact_info = Slot.info (laitos_pjs_elem_to_obj x))
    (hdoc : eligibleElems 8192 page.document = pre ++ x :: post)
    (huniq : ∀ z ∈ pre ++ post, ¬ sameLocatorFields z x) (hn : 0 ≤ n) :
    (b_lo_next_n st n).2
      = some ((post.take n.toNat).map (fun e => Slot.info (laitos_pjs_elem_to_obj e))) ∧
    (post.take n.toNat).length = min n.toNat post.length ∧ ((n.toNat : Int) = n) := by
  refine ⟨?_, List.length_take _ _, Int.toNat_of_nonneg hn⟩
  rw [b_lo_next_n_result st page hb (by simp [hcur]), hcur]
  have hfilter : (postorder page.document).filter (eligible 8192) = pre ++ x :: post := hdoc
  have hpre : ∀ z ∈ pre, (fun e => !sameFields
      (elem_info_to_stmt (Slot.info (laitos_pjs_elem_to_obj x))) e) z = true := by
    intro z hz
    have := huniq z (List.mem_append_left _ hz)
    rw [← sameFields_snapshot] at this
    simpa using this
  have hpost : ∀ z ∈ post, (fun e => !sameFields
      (elem_info_to_stmt (Slot.info (laitos_pjs_elem_to_obj x))) e) z = true := by
    intro z hz
    have := huniq z (List.mem_append_right _ hz)
    rw [← sameFields_snapshot] at this
    simpa using this
  have hx : sameFields (elem_info_to_stmt (Slot.info (laitos_pjs_elem_to_obj x))) x = true :=
    (sameFields_snapshot x x).2 ⟨rfl, rfl, rfl, rfl⟩
  unfold collectedAfter
  rw [hfilter, dropWhile_append_of_all _ pre _ hpre]
  simp only [List.dropWhile, hx, Bool.not_true]
  rw [List.filter_cons_of_neg (by simp [hx]), List.filter_eq_self.2 hpost]
  simp only [List.map_take, List.map_map]
  rfl


/-- C18, counterexample: on `twinPage` with the cursor on the input whose value
is "A", the eligible elements after it are the other input, the body and the
root, yet `b_lo_next_n` with N = 5 returns the body and the root only: the
other input agrees with the cursor on tag, id, name and inner and is passed
over. -/
theorem lo_next_n_skips_twin :
    twinOnFirstInput.exact_info = Slot.info (inputInfo "A") ∧
    (eligibleElems 8192 twinPage.document).map laitos_pjs_elem_to_obj
      = [linkInfo, inputInfo "A", inputInfo "B", twinBodyInfo, twinHtmlInfo] ∧
    (b_lo_next_n twinOnFirstInput 5).2
      = some [Slot.info twinBodyInfo, Slot.info twinHtmlInfo] := by
  decide

/-- Witness of the amended C18 on `linkPage` with the cursor on the link and
N = 1. -/
theorem lo_next_n_collects_witness :
    (b_lo_next_n (b_lo_next linkStart).1 1).2
      = some (([bodyElem "<a>hi</a>" [linkElem], htmlElem "<a>hi</a>" [linkElem]].take
          (1 : Int).toNat).map (fun e => Slot.info (laitos_pjs_elem_to_obj e))) ∧
    ([bodyElem "<a>hi</a>" [linkElem], htmlElem "<a>hi</a>" [linkElem]].take
        (1 : Int).toNat).length
      = min (1 : Int).toNat [bodyElem "<a>hi</a>" [linkElem],
          htmlElem "<a>hi</a>" [linkElem]].length ∧
    (((1 : Int).toNat : Int) = 1) :=
  lo_next_n_collects (b_lo_next linkStart).1
    { linkPage with laitos_pjs_current_elem := some linkElem } 1 linkElem []
    [bodyElem "<a>hi</a>" [linkElem], htmlElem "<a>hi</a>" [linkElem]] rfl rfl rfl
    (by
      intro z hz h
      have ht := h.1
      simp only [List.nil_append, List.mem_cons, List.mem_singleton, List.not_mem_nil,
        or_false] at hz
      rcases hz with rfl | rfl
      · exact absurd ht (by decide)
      · exact absurd ht (by decide))
    (by decide)

/-! ### Retreat at the start -/

lemma b_lo_prev_of_empty (st : EngineState) (hbefore : st.before_info = Slot.null) :
    (b_lo_prev st).2 = (docOf st).map (fun document =>
      [Slot.null, slotOf (eligibleElems 1000 document)[0]?,
        slotOf (eligibleElems 1000 document)[1]?]) ∧
    (b_lo_prev st).1.before_info = Slot.null := by
  unfold b_lo_prev
  cases hb : st.browser with
  | none =>
    simp only [docOf, hb, Option.map_none']
    exact ⟨trivial, hbefore⟩
  | some page =>
    simp only [hbefore, locateAndStore_eq, locateFrom_of_all _ isTarget_null, docOf, hb,
      Option.map_some']
    exact ⟨rfl, rfl⟩

/-- C19: with the stored "before" slot empty, `b_lo_prev` returns the triple
that `b_lo_next` returns from an empty cursor, whatever the other two slots
hold; and it leaves the "before" slot empty, so any number of further
`b_lo_prev` return that same triple. -/
theorem LOPrev_at_start (st : EngineState) (hbefore : st.before_info = Slot.null) (n : Nat) :
    (b_lo_prev st).2 = (b_lo_next (b_lo_reset st)).2 ∧
    (b_lo_prev st).1.before_info = Slot.null ∧
    (b_lo_prev ((fun s => (b_lo_prev s).1)^[n] st)).2 = (b_lo_prev st).2 := by
  refine ⟨?_, (b_lo_prev_of_empty st hbefore).2, ?_⟩
  · rw [(b_lo_prev_of_empty st hbefore).1, b_lo_next_of_empty _ rfl]
    rfl
  · have hinv : ((fun s => (b_lo_prev s).1)^[n] st).before_info = Slot.null ∧
        docOf ((fun s => (b_lo_prev s).1)^[n] st) = docOf st := by
      induction n with
      | zero => exact ⟨hbefore, rfl⟩
      | succ k ih =>
        rw [Function.iterate_succ_apply']
        exact ⟨(b_lo_prev_of_empty _ ih.1).2, by rw [b_lo_prev_docOf, ih.2]⟩
    rw [(b_lo_prev_of_empty _ hinv.1).1, (b_lo_prev_of_empty st hbefore).1, hinv.2]

/-- Witness of C19 on `twinPage`: after one `b_lo_next` the "before" slot is
empty while the other two are not. -/
theorem LOPrev_at_start_witness :
    (b_lo_prev (b_lo_next twinStart).1).2 = (b_lo_next (b_lo_reset (b_lo_next twinStart).1)).2 ∧
    (b_lo_prev (b_lo_next twinStart).1).1.before_info = Slot.null ∧
    (b_lo_prev ((fun s => (b_lo_prev s).1)^[3] (b_lo_next twinStart).1)).2
      = (b_lo_prev (b_lo_next twinStart).1).2 :=
  LOPrev_at_start (b_lo_next twinStart).1 (by decide) 3

/-! ### The cursor after a navigation -/

lemma docOf_eq_none (st : EngineState) : docOf st = none ↔ st.browser = none := by
  unfold docOf
  cases st.browser <;> simp

lemma b_lo_prev_no_browser (st : EngineState) (hb : st.browser = none) :
    b_lo_prev st = (st, none) := by
  unfold b_lo_prev
  rw [hb]

lemma b_lo_next_n_no_browser (st : EngineState) (n : Int) (hb : st.browser = none) :
    b_lo_next_n st n = (st, none) := by
  unfold b_lo_next_n
  rw [hb]

/-- While no page exists the cursor is as it was at start-up. -/
lemma handle_keeps_empty (st : EngineState) (a : Action)
    (h : st.browser = none → cursorEmpty st) :
    (handle st a).browser = none → cursorEmpty (handle st a) := by
  have walker : ∀ st2 : EngineState, docOf st2 = docOf st →
      (st.browser = none → st2 = st) → st2.browser = none → cursorEmpty st2 := by
    intro st2 hdoc hsame hnone
    have hb : st.browser = none := by
      rw [← docOf_eq_none, ← hdoc, docOf_eq_none]
      exact hnone
    rw [hsame hb]
    exact h hb
  cases a with
  | redraw => exact h
  | redraw_area _ _ _ _ => exact h
  | info => exact h
  | pointer _ _ _ _ => exact h
  | key _ _ => exact h
  | lo_pointer _ _ => exact h
  | lo_reset =>
    intro _
    exact ⟨rfl, rfl, rfl⟩
  | goto _ _ _ _ loaded =>
    intro hb
    simp [handle, b_goto] at hb
  | back loaded =>
    intro hb
    cases hs : st.browser with
    | none =>
      simp only [handle, b_back, navigate, hs]
      exact h hs
    | some page => simp [handle, b_back, navigate, hs] at hb
  | forward loaded =>
    intro hb
    cases hs : st.browser with
    | none =>
      simp only [handle, b_forward, navigate, hs]
      exact h hs
    | some page => simp [handle, b_forward, navigate, hs] at hb
  | reload loaded =>
    intro hb
    cases hs : st.browser with
    | none =>
      simp only [handle, b_reload, navigate, hs]
      exact h hs
    | some page => simp [handle, b_reload, navigate, hs] at hb
  | lo_next =>
    exact walker _ (b_lo_next_docOf st)
      (fun hb => by simp only [handle, b_lo_next_no_browser st hb])
  | lo_prev =>
    exact walker _ (b_lo_prev_docOf st)
      (fun hb => by simp only [handle, b_lo_prev_no_browser st hb])
  | lo_next_n n =>
    exact walker _ (b_lo_next_n_docOf st n)
      (fun hb => by simp only [handle, b_lo_next_n_no_browser st n hb])
  | lo_set_val value =>
    exact walker _ (b_lo_set_val_docOf st value)
      (fun hb => by simp only [handle, b_lo_set_val, hb])

lemma reachable_keeps_empty (actions : List Action) :
    ∀ st : EngineState, (st.browser = none → cursorEmpty st) →
      (actions.foldl handle st).browser = none → cursorEmpty (actions.foldl handle st) := by
  induction actions with
  | nil =>
    intro st h
    exact h
  | cons a rest ih =>
    intro st h
    rw [List.foldl_cons]
    exact ih _ (handle_keeps_empty st a h)

lemma navigate_cursorEmpty (st : EngineState) (loaded : Node)
    (h : st.browser = none → cursorEmpty st) : cursorEmpty (navigate st loaded).1 := by
  unfold navigate
  cases hs : st.browser with
  | none => exact h hs
  | some page => exact ⟨rfl, rfl, rfl⟩

/-- C20: in every state that a sequence of requests leads to from start-up,
once the server has handled `/goto`, `/back`, `/forward` or `/reload` the
cursor triple is (empty, empty, empty), also when the request is refused
because no page exists. -/
theorem cursor_empty_after_navigation (actions : List Action) :
    (∀ user_agent page_url view_width view_height loaded,
      cursorEmpty (handle (actions.foldl handle startUp)
        (Action.goto user_agent page_url view_width view_height loaded))) ∧
    (∀ loaded, cursorEmpty (handle (actions.foldl handle startUp) (Action.back loaded))) ∧
    (∀ loaded, cursorEmpty (handle (actions.foldl handle startUp) (Action.forward loaded))) ∧
    (∀ loaded, cursorEmpty (handle (actions.foldl handle startUp) (Action.reload loaded))) ∧
    (∀ loaded, (actions.foldl handle startUp).browser = none →
      (b_back (actions.foldl handle startUp) loaded).2 = JSResult.bool false ∧
      cursorEmpty (b_back (actions.foldl handle startUp) loaded).1) := by
  have hinv := reachable_keeps_empty actions startUp (fun _ => ⟨rfl, rfl, rfl⟩)
  refine ⟨?_, ?_, ?_, ?_, ?_⟩
  · intro _ _ _ _ loaded
    exact ⟨rfl, rfl, rfl⟩
  · intro loaded
    exact navigate_cursorEmpty _ loaded hinv
  · intro loaded
    exact navigate_cursorEmpty _ loaded hinv
  · intro loaded
    exact navigate_cursorEmpty _ loaded hinv
  · intro loaded hb
    refine ⟨?_, navigate_cursorEmpty _ loaded hinv⟩
    simp [b_back, navigate, hb]


/-! ### Concrete requests -/

/-- Witness of C11 at the parameter `value` = "a b+c", whose body is
"value=a%20b%2Bc". -/
theorem fixSpaceForBody_decodes_witness :
    fixSpaceForBody spacedParams = joinPairs ((sortKeys spacedParams).map encodedPair) ∧
    43 ∉ fixSpaceForBody spacedParams ∧
    parseBody (fixSpaceForBody spacedParams) = some (sortKeys spacedParams) ∧
    (sortKeys spacedParams).Perm spacedParams :=
  fixSpaceForBody_decodes spacedParams (by decide)

/-- Witness of C14 at the three calls `SendKey("test string", 0)`,
`SendKey("", 1234)` and `SendKey("", 0)`. -/
theorem SendKey_requests_witness :
    (SendKey okEngine "test string" 0 []).2
      = [{ actionName := "type", params := [("key_string", "test string")] }] ∧
    (SendKey okEngine "" 1234 []).2
      = [{ actionName := "type", params := [("key_code", "1234")] }] ∧
    SendKey okEngine "" 0 [] = (none, []) :=
  ⟨(SendKey_requests okEngine "test string" 0 []).1 (by decide),
    (SendKey_requests okEngine "" 1234 []).2.1 rfl (by decide),
    (SendKey_requests okEngine "" 0 []).2.2 rfl rfl⟩

/-- Witness of C15 at "https://example.com/" with an engine that answers
`true`. -/
theorem GoTo_result_witness :
    (GoTo okEngine (fun _ => .ok true) "agent" "https://example.com/" 800 600 []).1 = none :=
  (GoTo_result okEngine (fun _ => .ok true) "agent" "https://example.com/" 800 600 []
    (Or.inr (by decide))).1.2 rfl


/-! ### The pre-maintenance script -/

/-- C24, the code at the failing input: on a Unix-like host and on a Windows
host alike, the timeout that `RunPreMaintenanceScript` passes to
`misc.InvokeShell` is `10*600` = 6000 seconds, not 600. -/
theorem RunPreMaintenanceScript_timeout :
    (∀ (HostIsWindows : Bool) (interpreter : String) (daemon : Daemon),
      ∀ call ∈ RunPreMaintenanceScript HostIsWindows interpreter daemon,
        call.timeoutSec = 6000) ∧
    RunPreMaintenanceScript false "/bin/bash" unixDaemon
      = [{ timeoutSec := 6000, interpreter := "/bin/bash", content := "apt-get update" }] ∧
    RunPreMaintenanceScript true "powershell.exe" windowsDaemon
      = [{ timeoutSec := 6000, interpreter := "powershell.exe",
           content := "wuauclt /detectnow" }] := by
  refine ⟨?_, by decide, by decide⟩
  intro w interpreter daemon call hcall
  unfold RunPreMaintenanceScript at hcall
  rw [List.mem_append] at hcall
  rcases hcall with h | h
  · split_ifs at h
    · rw [List.mem_singleton] at h
      rw [h]
      rfl
    · simp at h
  · split_ifs at h
    · rw [List.mem_singleton] at h
      rw [h]
      rfl
    · simp at h

/-! ### Polls that find no file -/

lemma renderLoop_absent (stat : Nat → Option Int) (budget : Nat) :
    ∀ (i : Nat) (st : PollState),
      (∀ j, stat j = none ∨ ∃ size, stat j = some size ∧ size ≤ 0) →
      renderLoop stat budget i st
        = { err := some Error.renderNotCompleted, polls := i + budget } := by
  induction budget with
  | zero =>
    intro i st _
    simp [renderLoop]
  | succ b ih =>
    intro i st h
    have hstep : pollStep st (stat i) = some st := by
      rcases h i with h0 | ⟨size, h1, h2⟩
      · rw [h0]
        rfl
      · rw [h1]
        have : ¬ size > 0 := by omega
        simp [pollStep, this]
    rw [renderLoop, hstep]
    simp only
    rw [ih (i + 1) st h]
    simp
    omega

/-- C28: a poll of `RenderPage` that finds the screenshot missing or of size
zero leaves the remembered size and the stability counter as they are; the
observations s, missing, s, s, s, s with s non-zero end in success at the
sixth poll; and when every poll finds the file missing or empty, all 60 polls
are made and the render-not-completed error is returned. -/
theorem RenderPage_skips_absent (doHTTP : Engine) (inst : Instance) (fs : FS)
    (sent : List Request) (hrm : inst.RenderImagePath ∉ fs.locked)
    (hredraw : (@SendRequest Unit doHTTP "redraw" [] none sent).1 = .ok none) :
    (∀ st : PollState, pollStep st none = some st ∧ pollStep st (some 0) = some st) ∧
    (∀ s : Int, 0 < s →
      (RenderPage doHTTP inst fs
        (fun i => if i = 1 then none else some s) sent).1 = { err := none, polls := 6 }) ∧
    (∀ stat : Nat → Option Int, (∀ i, stat i = none ∨ stat i = some 0) →
      (RenderPage doHTTP inst fs stat sent).1
        = { err := some Error.renderNotCompleted, polls := 60 }) := by
  refine ⟨fun st => ⟨rfl, ?_⟩, ?_, ?_⟩
  · simp [pollStep]
  · intro s hs
    have hne : ¬ (0 : Int) = s := by omega
    rw [RenderPage_eq_renderLoop doHTTP inst fs _ sent hrm hredraw]
    simp [renderLoop, pollStep, hs, hne]
  · intro stat h
    rw [RenderPage_eq_renderLoop doHTTP inst fs _ sent hrm hredraw,
      renderLoop_absent stat 60 0 _ (fun j => by
        rcases h j with h0 | h0
        · exact Or.inl h0
        · exact Or.inr ⟨0, h0, le_refl _⟩)]

/-- Witness of C28: the observations 4096, missing, 4096, 4096, 4096, 4096
end in success at the sixth poll. -/
theorem RenderPage_skips_absent_witness :
    (RenderPage okEngine runningInstance startFailedFS
      (fun i => if i = 1 then none else some 4096) []).1 = { err := none, polls := 6 } ∧
    (RenderPage okEngine runningInstance startFailedFS (fun _ => none) []).1
      = { err := some Error.renderNotCompleted, polls := 60 } :=
  ⟨(RenderPage_skips_absent okEngine runningInstance startFailedFS [] (by decide) rfl).2.1
      4096 (by decide),
    (RenderPage_skips_absent okEngine runningInstance startFailedFS [] (by decide) rfl).2.2
      (fun _ => none) (fun _ => Or.inl rfl)⟩


/-! ### The cursor is framed by the actions at the focus -/

lemma b_lo_next_result_congr (st st2 : EngineState) (hdoc : docOf st = docOf st2)
    (he : st.exact_info = st2.exact_info) (ha : st.after_info = st2.after_info) :
    (b_lo_next st).2 = (b_lo_next st2).2 := by
  have hloc : nextLocator st = nextLocator st2 := by
    simp [nextLocator, he, ha]
  cases hb : st.browser with
  | none =>
    have hb2 : st2.browser = none := by
      rw [← docOf_eq_none, ← hdoc, docOf_eq_none]
      exact hb
    rw [b_lo_next_no_browser st hb, b_lo_next_no_browser st2 hb2]
  | some page =>
    cases hb2 : st2.browser with
    | none =>
      rw [docOf, docOf, hb, hb2] at hdoc
      simp at hdoc
    | some page2 =>
      rw [docOf, docOf, hb, hb2] at hdoc
      simp only [Option.map_some', Option.some.injEq] at hdoc
      rw [(b_lo_next_spec st page hb).1, (b_lo_next_spec st2 page2 hb2).1, hloc, hdoc]

lemma handleFocusCall_frame (react : PointerEvent → Page → Page) (st : EngineState)
    (call : FocusCall) :
    (handleFocusCall react st call).before_info = st.before_info ∧
    (handleFocusCall react st call).exact_info = st.exact_info ∧
    (handleFocusCall react st call).after_info = st.after_info := by
  cases call with
  | LOPointer type button =>
    simp only [handleFocusCall]
    cases st.browser <;> exact ⟨rfl, rfl, rfl⟩
  | LOSetValue value =>
    simp only [handleFocusCall, b_lo_set_val]
    cases st.browser <;> exact ⟨rfl, rfl, rfl⟩

lemma foldl_handleFocusCall_frame (react : PointerEvent → Page → Page)
    (calls : List FocusCall) :
    ∀ st : EngineState,
      (calls.foldl (handleFocusCall react) st).before_info = st.before_info ∧
      (calls.foldl (handleFocusCall react) st).exact_info = st.exact_info ∧
      (calls.foldl (handleFocusCall react) st).after_info = st.after_info := by
  induction calls with
  | nil =>
    intro st
    exact ⟨rfl, rfl, rfl⟩
  | cons call rest ih =>
    intro st
    obtain ⟨h2, h3, h4⟩ := ih (handleFocusCall react st call)
    obtain ⟨g2, g3, g4⟩ := handleFocusCall_frame react st call
    rw [List.foldl_cons]
    exact ⟨h2.trans g2, h3.trans g3, h4.trans g4⟩

/-- C23, counterexample: on `linkPage` with the cursor on the link, whose click
opens `nextPage`, `lo_pointer` with type "click" sends the click to the link;
the `b_lo_next` issued after it does not find the stored "after" element and
returns the root of `nextPage` with two empty slots, which is not the triple
it returns without that request. -/
theorem LONext_after_click_differs :
    (b_lo_pointer linkOnLink "click" "left")
      = (JSResult.bool true, [{ type := "click", x := 1, y := 1, button := "left" }]) ∧
    (b_lo_next linkOnLink).2
      = some [Slot.info linkInfo, Slot.info linkBodyInfo, Slot.info linkHtmlInfo] ∧
    (b_lo_next ([FocusCall.LOPointer "click" "left"].foldl
        (handleFocusCall clickOpensNextPage) linkOnLink)).2
      = some [Slot.info nextHtmlInfo, Slot.null, Slot.null] ∧
    (b_lo_next ([FocusCall.LOPointer "click" "left"].foldl
        (handleFocusCall clickOpensNextPage) linkOnLink)).2 ≠ (b_lo_next linkOnLink).2 := by
  decide

/-- C23, amended: any sequence of `lo_pointer` and `lo_set_val` requests leaves
the three cursor slots as they are, whatever the page does with the events;
when the page shows afterwards the document it showed before, the `b_lo_next`
issued after the sequence returns the triple it would have returned without
these requests, and so does a `b_lo_next` issued after a reset. -/
theorem focus_calls_keep_cursor (react : PointerEvent → Page → Page) (st : EngineState)
    (calls : List FocusCall) :
    (calls.foldl (handleFocusCall react) st).before_info = st.before_info ∧
    (calls.foldl (handleFocusCall react) st).exact_info = st.exact_info ∧
    (calls.foldl (handleFocusCall react) st).after_info = st.after_info ∧
    (docOf (calls.foldl (handleFocusCall react) st) = docOf st →
      (b_lo_next (calls.foldl (handleFocusCall react) st)).2 = (b_lo_next st).2 ∧
      (b_lo_next (b_lo_reset (calls.foldl (handleFocusCall react) st))).2
        = (b_lo_next (b_lo_reset st)).2) := by
  obtain ⟨h2, h3, h4⟩ := foldl_handleFocusCall_frame react calls st
  refine ⟨h2, h3, h4, fun h1 => ⟨b_lo_next_result_congr _ _ h1 h3 h4, ?_⟩⟩
  exact b_lo_next_result_congr _ _ h1 rfl rfl

/-- Witness of the amended C23 on `linkPage` with the cursor on the link: two
pointer moves, on a page that reacts to clicks only. -/
theorem focus_calls_keep_cursor_witness :
    (b_lo_next ([FocusCall.LOPointer "mousemove" "left",
        FocusCall.LOPointer "mousemove" "left"].foldl
        (handleFocusCall clickOpensNextPage) linkOnLink)).2
      = some [Slot.info linkInfo, Slot.info linkBodyInfo, Slot.info linkHtmlInfo] :=
  ((focus_calls_keep_cursor clickOpensNextPage linkOnLink
    [FocusCall.LOPointer "mousemove" "left", FocusCall.LOPointer "mousemove" "left"]).2.2.2
      rfl).1.trans (by decide)

/-! ### The cursor after a jump -/

lemma beforeScan_browser (st : EngineState) (page : Page) (hb : st.browser = some page) :
    ∃ page1, (beforeScan st).browser = some page1 ∧ page1.document = page.document := by
  unfold beforeScan
  split_ifs
  · exact ⟨_, (b_lo_next_spec st page hb).2.2.2.2, rfl⟩
  · exact ⟨page, hb, rfl⟩

/-- C25: `b_lo_next_n` runs its scan in the state `beforeScan st`, which is
`st` itself unless the current slot is empty.  If the scan collects at least one
element, afterwards "before" is the current slot of that state and "current"
and "after" are both the last collected element; if it collects none, the
three slots are those of that state. -/
theorem lo_next_n_cursor (st : EngineState) (page : Page) (hb : st.browser = some page)
    (n : Int) :
    (st.exact_info ≠ Slot.null → beforeScan st = st) ∧
    ∃ ret, (b_lo_next_n st n).2 = some ret ∧
      (∀ last, ret.getLast? = some last →
        (b_lo_next_n st n).1.before_info = (beforeScan st).exact_info ∧
        (b_lo_next_n st n).1.exact_info = last ∧
        (b_lo_next_n st n).1.after_info = last) ∧
      (ret = [] →
        (b_lo_next_n st n).1.before_info = (beforeScan st).before_info ∧
        (b_lo_next_n st n).1.exact_info = (beforeScan st).exact_info ∧
        (b_lo_next_n st n).1.after_info = (beforeScan st).after_info) := by
  refine ⟨fun h => by simp [beforeScan, h], ?_⟩
  obtain ⟨page1, hb1, -⟩ := beforeScan_browser st page hb
  have hfold : (if st.exact_info = Slot.null then (b_lo_next st).1 else st) = beforeScan st :=
    rfl
  simp only [b_lo_next_n, hb, hfold, hb1]
  by_cases hlen : (empty_str_to_null ((laitos_pjs_find_after page1.document
      (elem_info_to_stmt (beforeScan st).exact_info) n
      page1.laitos_pjs_current_elem).1.map Slot.info)).length > 0
  · refine ⟨_, by rw [if_pos hlen], ?_, ?_⟩
    · intro last hlast
      rw [if_pos hlen]
      simp only [List.getLastD_eq_getLast?, hlast]
      exact ⟨trivial, rfl, rfl⟩
    · intro hnil
      rw [hnil] at hlen
      simp at hlen
  · refine ⟨_, by rw [if_neg hlen], ?_, ?_⟩
    · intro last hlast
      have : (empty_str_to_null ((laitos_pjs_find_after page1.document
          (elem_info_to_stmt (beforeScan st).exact_info) n
          page1.laitos_pjs_current_elem).1.map Slot.info)) ≠ [] := by
        intro h0
        rw [h0] at hlast
        simp at hlast
      exact absurd (List.length_pos.2 this) hlen
    · intro _
      rw [if_neg hlen]
      exact ⟨rfl, rfl, rfl⟩

/-- Witness of C25 on `twinPage` from an empty cursor with N = 2: the scan
starts at the link and ends on the input with value "B". -/
theorem lo_next_n_cursor_witness :
    (b_lo_next_n twinStart 2).2
      = some [Slot.info (inputInfo "A"), Slot.info (inputInfo "B")] ∧
    (b_lo_next_n twinStart 2).1.before_info = Slot.info linkInfo ∧
    (b_lo_next_n twinStart 2).1.exact_info = Slot.info (inputInfo "B") ∧
    (b_lo_next_n twinStart 2).1.after_info = Slot.info (inputInfo "B") :=
  (lo_next_n_cursor twinStart twinPage rfl 2).2.elim (fun ret h =>
    have hret : ret = [Slot.info (inputInfo "A"), Slot.info (inputInfo "B")] := by
      have h1 := h.1
      have h2 : (b_lo_next_n twinStart 2).2
          = some [Slot.info (inputInfo "A"), Slot.info (inputInfo "B")] := by decide
      rw [h2] at h1
      exact (Option.some.inj h1).symm
    have hcur := h.2.1 (Slot.info (inputInfo "B")) (by rw [hret]; rfl)
    ⟨by decide, by rw [hcur.1]; decide, hcur.2.1, hcur.2.2⟩)


/-! ### `Start` -/

/-- C21, the code at the failing inputs: when the launch of the process fails,
`Start` returns its error with both handles set and the script on disk; when
writing the script fails, it returns with the script handle set and the script
on disk; only when the port never answers does it call `Kill`, after which
both handles are nil and the script is gone. -/
theorem Start_failure_cleanup :
    ((Start (fun _ => true) launchFailsEnv freshInstance { files := [] }).1
        = some StartError.processFailed ∧
      (Start (fun _ => true) launchFailsEnv freshInstance { files := [] }).2.1.jsProcCmd
        = some { Process := none } ∧
      (Start (fun _ => true) launchFailsEnv freshInstance { files := [] }).2.1.serverJSFile
        = some { Name := "/tmp/laitos-phantomjs-1.js" } ∧
      "/tmp/laitos-phantomjs-1.js" ∈
        (Start (fun _ => true) launchFailsEnv freshInstance { files := [] }).2.2.1.files) ∧
    ((Start (fun _ => true) writeFailsEnv freshInstance { files := [] }).1
        = some StartError.writeCode ∧
      (Start (fun _ => true) writeFailsEnv freshInstance { files := [] }).2.1.serverJSFile
        = some { Name := "/tmp/laitos-phantomjs-1.js" } ∧
      "/tmp/laitos-phantomjs-1.js" ∈
        (Start (fun _ => true) writeFailsEnv freshInstance { files := [] }).2.2.1.files) ∧
    ((Start (fun _ => true) portClosedEnv freshInstance { files := [] }).1
        = some StartError.serverNotReady ∧
      (Start (fun _ => true) portClosedEnv freshInstance { files := [] }).2.1.jsProcCmd = none ∧
      (Start (fun _ => true) portClosedEnv freshInstance { files := [] }).2.1.serverJSFile
        = none ∧
      "/tmp/laitos-phantomjs-1.js" ∉
        (Start (fun _ => true) portClosedEnv freshInstance { files := [] }).2.2.1.files) := by
  decide

/-! ### `GetPageInfo` -/

/-- C22, counterexample: right after start-up, when no page exists, the engine
answers `/info` with the empty string, and `GetPageInfo` returns the decode
error together with an empty title and URL. -/
theorem GetPageInfo_error_without_page :
    b_info startUp = InfoAnswer.emptyString ∧
    (GetPageInfo (fun _ _ => .ok (infoResponse plainStringify (b_info startUp)))
        exampleUnmarshal []).1
      = ({ Title := "", URL := "" }, some (Error.decode
          "json: cannot unmarshal string into Go value of type phantomjs.RemotePageInfo")) := by
  decide

/-- C22, amended: when the engine answers `/info` and `json.Unmarshal` refuses
a JSON string for the record and reads back the object that `JSON.stringify`
wrote, then with no page `GetPageInfo` returns a record whose title and URL are
both empty, and with a page it returns, without error, the title and URL of
the page. -/
theorem GetPageInfo_result (stringify : String → String → String)
    (unmarshal : String → Except String RemotePageInfo) (st : EngineState)
    (doHTTP : Engine) (sent : List Request)
    (hresp : doHTTP sent { actionName := "info", params := [] }
      = .ok (infoResponse stringify (b_info st)))
    (hstr : ∀ info, unmarshal "\"\"" ≠ .ok info)
    (hobj : ∀ page, st.browser = some page →
      unmarshal (stringify page.title page.url) = .ok { Title := page.title, URL := page.url }) :
    (st.browser = none →
      (GetPageInfo doHTTP unmarshal sent).1.1 = { Title := "", URL := "" }) ∧
    (∀ page, st.browser = some page →
      (GetPageInfo doHTTP unmarshal sent).1 = ({ Title := page.title, URL := page.url }, none)) := by
  constructor
  · intro hb
    unfold GetPageInfo SendRequest
    simp only [hresp, b_info, hb, infoResponse, Non2xxToError]
    cases hu : unmarshal "\"\"" with
    | error m => simp
    | ok info => exact absurd hu (hstr info)
  · intro page hb
    unfold GetPageInfo SendRequest
    simp [hresp, b_info, hb, infoResponse, Non2xxToError, hobj page hb]

/-- Witness of the amended C22 on the example page. -/
theorem GetPageInfo_result_witness :
    (GetPageInfo (fun _ _ => .ok (infoResponse plainStringify
        (b_info { browser := some examplePage }))) exampleUnmarshal []).1
      = ({ Title := "Example Domain", URL := "https://example.com/" }, none) :=
  (GetPageInfo_result plainStringify exampleUnmarshal { browser := some examplePage }
    (fun _ _ => .ok (infoResponse plainStringify (b_info { browser := some examplePage }))) []
    rfl
    (by
      intro info h
      simp [exampleUnmarshal] at h)
    (by
      intro page hb
      cases hb
      rfl)).2 examplePage rfl


/-! ### The split by position -/

lemma locateFrom_no_target (m : Node → Bool) (L : List Node) :
    ∀ b : Option Node, (∀ z ∈ L, m z = false) →
      locateFrom m b L = (if L.isEmpty then b else L.getLast?, none, none) := by
  induction L with
  | nil =>
    intro b _
    rfl
  | cons x xs ih =>
    intro b h
    have hx := h x (List.mem_cons_self _ _)
    simp only [locateFrom, hx, Bool.false_eq_true, if_false]
    rw [ih (some x) (fun z hz => h z (List.mem_cons_of_mem _ hz))]
    cases xs with
    | nil => rfl
    | cons y ys => simp

lemma locateFrom_index (m : Node → Bool) (L : List Node) :
    ∀ (b : Option Node) (i : Nat) (x : Node), L[i]? = some x → m x = true →
      (∀ j z, j < i → L[j]? = some z → m z = false) →
      locateFrom m b L = (if i = 0 then b else L[i - 1]?, some x, L[i + 1]?) := by
  induction L with
  | nil =>
    intro b i x h
    simp at h
  | cons y ys ih =>
    intro b i x hx hm hbefore
    cases i with
    | zero =>
      simp only [List.getElem?_cons_zero, Option.some.injEq] at hx
      subst hx
      simp [locateFrom, hm, List.head?_eq_getElem?]
    | succ i2 =>
      have hy : m y = false := hbefore 0 y (Nat.succ_pos _) List.getElem?_cons_zero
      simp only [List.getElem?_cons_succ] at hx
      simp only [locateFrom, hy, Bool.false_eq_true, if_false]
      rw [ih (some y) i2 x hx hm (fun j z hj hz =>
        hbefore (j + 1) z (by omega) (by simpa using hz))]
      cases i2 with
      | zero => simp
      | succ i3 => simp

lemma locateFrom_exact_index (m : Node → Bool) (L : List Node) :
    ∀ (b : Option Node) (x : Node), (locateFrom m b L).2.1 = some x →
      ∃ i, L[i]? = some x ∧
        locateFrom m b L = (if i = 0 then b else L[i - 1]?, some x, L[i + 1]?) := by
  induction L with
  | nil =>
    intro b x h
    simp [locateFrom] at h
  | cons y ys ih =>
    intro b x h
    by_cases hy : m y = true
    · simp only [locateFrom, hy, if_true, Option.some.injEq] at h
      subst h
      exact ⟨0, List.getElem?_cons_zero, by simp [locateFrom, hy, List.head?_eq_getElem?]⟩
    · simp only [locateFrom, hy, if_false, Bool.false_eq_true] at h ⊢
      obtain ⟨i, hi, heq⟩ := ih (some y) x h
      refine ⟨i + 1, by simpa using hi, ?_⟩
      rw [heq]
      cases i with
      | zero => simp
      | succ i2 => simp

lemma stop_at_first_of_ne_null (slot : Slot) (h : slot ≠ Slot.null) :
    (elem_info_to_stmt slot).stop_at_first = false := by
  cases slot with
  | null => exact absurd rfl h
  | str _ => rfl
  | info _ => rfl

lemma nextLocator_stop_at_first (st : EngineState) (h : st.exact_info ≠ Slot.null) :
    (nextLocator st).stop_at_first = false := by
  unfold nextLocator
  rw [if_neg h]
  split_ifs with ha
  · exact stop_at_first_of_ne_null _ h
  · exact stop_at_first_of_ne_null _ ha

/-- A search that stops at no element: "before" is the last eligible element
of the document, the other two slots are empty. -/
lemma located_lost (loc : Locator) (document : Node) (hs : loc.stop_at_first = false)
    (h : ∀ z ∈ eligibleElems 1000 document, sameFields loc z = false) :
    located loc document = ((eligibleElems 1000 document).getLast?, none, none) := by
  unfold located
  rw [locateFrom_no_target _ _ none (fun z hz => by simp [isTarget, hs, h z hz])]
  cases eligibleElems 1000 document <;> simp

/-- C29: when a page exists and the snapshot that `b_lo_next` (with a non-empty
current slot) or `b_lo_prev` (with a non-empty before slot) is to locate
matches no element eligible under the 1000-character cap, the returned triple
has "before" the last eligible element of the document and "current" and
"after" empty; the stored current slot is empty afterwards, and the next
`b_lo_next` returns the first eligible element as "current". -/
theorem lost_location (st : EngineState) (page : Page) (hb : st.browser = some page) :
    (st.exact_info ≠ Slot.null →
      (∀ z ∈ eligibleElems 1000 page.document, sameFields (nextLocator st) z = false) →
      (b_lo_next st).2
        = some [slotOf (eligibleElems 1000 page.document).getLast?, Slot.null, Slot.null] ∧
      (b_lo_next st).1.exact_info = Slot.null ∧
      (b_lo_next (b_lo_next st).1).2 = some [Slot.null,
        slotOf (eligibleElems 1000 page.document)[0]?,
        slotOf (eligibleElems 1000 page.document)[1]?]) ∧
    (st.before_info ≠ Slot.null →
      (∀ z ∈ eligibleElems 1000 page.document,
        sameFields (elem_info_to_stmt st.before_info) z = false) →
      (b_lo_prev st).2
        = some [slotOf (eligibleElems 1000 page.document).getLast?, Slot.null, Slot.null] ∧
      (b_lo_prev st).1.exact_info = Slot.null ∧
      (b_lo_next (b_lo_prev st).1).2 = some [Slot.null,
        slotOf (eligibleElems 1000 page.document)[0]?,
        slotOf (eligibleElems 1000 page.document)[1]?]) := by
  constructor
  · intro hne hlost
    obtain ⟨hret, -, hex, -, hbr⟩ := b_lo_next_spec st page hb
    rw [located_lost _ _ (nextLocator_stop_at_first st hne) hlost] at hret hex hbr
    refine ⟨hret, hex, ?_⟩
    rw [b_lo_next_of_empty _ hex, docOf, hbr]
    rfl
  · intro hne hlost
    have hl := located_lost _ page.document (stop_at_first_of_ne_null _ hne) hlost
    have hprev : b_lo_prev st = locateAndStore st page (elem_info_to_stmt st.before_info) := by
      unfold b_lo_prev
      rw [hb]
    rw [hprev, locateAndStore_eq]
    have hl2 : locateFrom (isTarget (elem_info_to_stmt st.before_info)) none
        (eligibleElems 1000 page.document)
        = ((eligibleElems 1000 page.document).getLast?, none, none) := hl
    rw [hl2]
    refine ⟨rfl, rfl, ?_⟩
    rw [b_lo_next_of_empty _ rfl]
    rfl

set_option maxRecDepth 100000 in
/-- Witness of C29 on `longPage` after a jump onto the paragraph of 1000
characters, which the search of `b_lo_next` does not accept. -/
theorem lost_location_witness :
    (b_lo_next (b_lo_next_n longStart 1).1).2
      = some [slotOf (eligibleElems 1000 longPage.document).getLast?, Slot.null, Slot.null] ∧
    (b_lo_next (b_lo_next_n longStart 1).1).1.exact_info = Slot.null ∧
    (b_lo_next (b_lo_next (b_lo_next_n longStart 1).1).1).2 = some [Slot.null,
      slotOf (eligibleElems 1000 longPage.document)[0]?,
      slotOf (eligibleElems 1000 longPage.document)[1]?] :=
  (lost_location (b_lo_next_n longStart 1).1
    { longPage with laitos_pjs_current_elem := some longParagraph } rfl).1
    (by decide) (by decide)


/-! ### Walks over distinct elements -/

/-- Among pairwise distinct elements a search for the snapshot of the element
at position `j` stops at that position. -/
lemma located_index (document : Node) (hd : distinctFields (eligibleElems 1000 document))
    (j : Nat) (x : Node) (hx : (eligibleElems 1000 document)[j]? = some x) :
    located (elem_info_to_stmt (Slot.info (laitos_pjs_elem_to_obj x))) document
      = (if j = 0 then none else (eligibleElems 1000 document)[j - 1]?, some x,
          (eligibleElems 1000 document)[j + 1]?) := by
  unfold located
  apply locateFrom_index _ _ none j x hx (isTarget_self x)
  intro i z hij hz
  obtain ⟨hj, hxj⟩ := List.getElem?_eq_some.1 hx
  obtain ⟨hi, hzi⟩ := List.getElem?_eq_some.1 hz
  have hne := (List.pairwise_iff_getElem.1 hd) i j hi hj hij
  rw [hzi, hxj] at hne
  have hsf : sameFields (elem_info_to_stmt (Slot.info (laitos_pjs_elem_to_obj x))) z = false := by
    rw [← Bool.not_eq_true, sameFields_snapshot]
    exact hne
  rw [isTarget, hsf]
  rfl

/-- One `b_lo_next` whose locator is the snapshot of the element at position
`j` of the pairwise distinct eligible elements. -/
lemma b_lo_next_at_index (st : EngineState) (page : Page) (hb : st.browser = some page)
    (hd : distinctFields (eligibleElems 1000 page.document)) (j : Nat) (x : Node)
    (hx : (eligibleElems 1000 page.document)[j]? = some x)
    (hloc : nextLocator st = elem_info_to_stmt (Slot.info (laitos_pjs_elem_to_obj x))) :
    (b_lo_next st).2 = some (tripleAt (eligibleElems 1000 page.document) j) ∧
    (b_lo_next st).1.before_info
      = slotOf (if j = 0 then none else (eligibleElems 1000 page.document)[j - 1]?) ∧
    (b_lo_next st).1.exact_info = slotOf (eligibleElems 1000 page.document)[j]? ∧
    (b_lo_next st).1.after_info = slotOf (eligibleElems 1000 page.document)[j + 1]? ∧
    ∃ page1, (b_lo_next st).1.browser = some page1 ∧ page1.document = page.document := by
  obtain ⟨hret, hbe, hex, haf, hbr⟩ := b_lo_next_spec st page hb
  rw [hloc, located_index page.document hd j x hx] at hret hbe hex haf
  refine ⟨?_, hbe, ?_, haf, _, hbr, rfl⟩
  · rw [hret, tripleAt, hx]
  · rw [hex, hx]

lemma b_lo_prev_spec (st : EngineState) (page : Page) (hb : st.browser = some page) :
    (b_lo_prev st).2 = some
      [slotOf (located (elem_info_to_stmt st.before_info) page.document).1,
       slotOf (located (elem_info_to_stmt st.before_info) page.document).2.1,
       slotOf (located (elem_info_to_stmt st.before_info) page.document).2.2] := by
  unfold b_lo_prev
  rw [hb]
  simp only [locateAndStore_eq]
  rfl

/-- C26: on a document whose elements eligible under the 1000-character cap are
pairwise distinct in (tag, id, name, inner) and number m >= 1, starting from an
empty cursor the (k+1)-th consecutive `b_lo_next` returns as "current" the
element at position min(k+1, m) of the eligible elements in children-first
order, with its predecessor as "before" and its successor as "after", each
empty when there is none. -/
theorem complete_walk (st : EngineState) (page : Page) (hb : st.browser = some page)
    (hempty : st.exact_info = Slot.null)
    (hd : distinctFields (eligibleElems 1000 page.document))
    (hm : 1 ≤ (eligibleElems 1000 page.document).length) (k : Nat) :
    (b_lo_next (afterNexts k st)).2
      = some (tripleAt (eligibleElems 1000 page.document)
          (min (k + 1) (eligibleElems 1000 page.document).length - 1)) := by
  have key : ∀ k : Nat,
      (b_lo_next (afterNexts k st)).2
        = some (tripleAt (eligibleElems 1000 page.document)
            (min (k + 1) (eligibleElems 1000 page.document).length - 1)) ∧
      (b_lo_next (afterNexts k st)).1.exact_info
        = slotOf (eligibleElems 1000 page.document)[
            min (k + 1) (eligibleElems 1000 page.document).length - 1]? ∧
      (b_lo_next (afterNexts k st)).1.after_info
        = slotOf (eligibleElems 1000 page.document)[
            min (k + 1) (eligibleElems 1000 page.document).length - 1 + 1]? ∧
      ∃ page1, (b_lo_next (afterNexts k st)).1.browser = some page1 ∧
        page1.document = page.document := by
    intro k
    induction k with
    | zero =>
      have hi : min (0 + 1) (eligibleElems 1000 page.document).length - 1 = 0 := by omega
      have hloc : nextLocator st = elem_info_to_stmt Slot.null := by
        simp [nextLocator, hempty]
      obtain ⟨hret, -, hex, haf, hbr⟩ := b_lo_next_spec st page hb
      rw [hloc, located, locateFrom_of_all _ isTarget_null] at hret hex haf
      rw [hi]
      exact ⟨hret, hex, haf, _, hbr, rfl⟩
    | succ k ih =>
      obtain ⟨-, hex, haf, page1, hb1, hdoc⟩ := ih
      have hs : afterNexts (k + 1) st = (b_lo_next (afterNexts k st)).1 := by
        unfold afterNexts
        rw [Function.iterate_succ_apply']
      rw [hs]
      have hd1 : distinctFields (eligibleElems 1000 page1.document) := by
        rw [hdoc]
        exact hd
      have hlt : min (k + 1) (eligibleElems 1000 page.document).length - 1
          < (eligibleElems 1000 page.document).length := by omega
      rw [List.getElem?_eq_getElem hlt] at hex
      by_cases hnext : min (k + 1) (eligibleElems 1000 page.document).length - 1 + 1
          < (eligibleElems 1000 page.document).length
      · rw [List.getElem?_eq_getElem hnext] at haf
        have hi : min (k + 1 + 1) (eligibleElems 1000 page.document).length - 1
            = min (k + 1) (eligibleElems 1000 page.document).length - 1 + 1 := by omega
        have hloc := nextLocator_of_info _ _ (by rw [hex]; simp [slotOf]) haf
        have hx : (eligibleElems 1000 page1.document)[
            min (k + 1) (eligibleElems 1000 page.document).length - 1 + 1]?
            = some (eligibleElems 1000 page.document)[
              min (k + 1) (eligibleElems 1000 page.document).length - 1 + 1] := by
          rw [hdoc, List.getElem?_eq_getElem hnext]
        obtain ⟨r1, -, r3, r4, page2, hb2, hdoc2⟩ :=
          b_lo_next_at_index _ page1 hb1 hd1 _ _ hx hloc
        rw [hdoc] at r1 r3 r4
        rw [hi]
        exact ⟨r1, r3, r4, page2, hb2, hdoc2.trans hdoc⟩
      · have hnone : (eligibleElems 1000 page.document)[
            min (k + 1) (eligibleElems 1000 page.document).length - 1 + 1]? = none :=
          List.getElem?_eq_none (by omega)
        rw [hnone] at haf
        have hi : min (k + 1 + 1) (eligibleElems 1000 page.document).length - 1
            = min (k + 1) (eligibleElems 1000 page.document).length - 1 := by omega
        have hloc := nextLocator_of_last _ _ hex haf
        have hx : (eligibleElems 1000 page1.document)[
            min (k + 1) (eligibleElems 1000 page.document).length - 1]?
            = some (eligibleElems 1000 page.document)[
              min (k + 1) (eligibleElems 1000 page.document).length - 1] := by
          rw [hdoc, List.getElem?_eq_getElem hlt]
        obtain ⟨r1, -, r3, r4, page2, hb2, hdoc2⟩ :=
          b_lo_next_at_index _ page1 hb1 hd1 _ _ hx hloc
        rw [hdoc] at r1 r3 r4
        rw [hi]
        exact ⟨r1, r3, r4, page2, hb2, hdoc2.trans hdoc⟩
  exact (key k).1


/-- Witness of C26 on `linkPage`, whose eligible elements are the link, the
body and the root: the fifth `b_lo_next` stays on the third element. -/
theorem complete_walk_witness :
    (b_lo_next (afterNexts 4 linkStart)).2
      = some (tripleAt (eligibleElems 1000 linkPage.document)
          (min (4 + 1) (eligibleElems 1000 linkPage.document).length - 1)) :=
  complete_walk linkStart linkPage rfl rfl (by decide) (by decide) 4

/-- C27, counterexample: on `linkPage`, whose eligible elements are pairwise
distinct, a jump with N = 2 leaves the cursor (link, root, root); `b_lo_next`
moves to the triple whose "current" is the root, and the `b_lo_prev` that
follows returns (link, body, root), not the triple the cursor held. -/
theorem next_prev_after_jump :
    distinctFields (eligibleElems 1000 linkPage.document) ∧
    (b_lo_next_n linkStart 2).1.before_info = Slot.info linkInfo ∧
    (b_lo_next_n linkStart 2).1.exact_info = Slot.info linkHtmlInfo ∧
    (b_lo_next_n linkStart 2).1.after_info = Slot.info linkHtmlInfo ∧
    (b_lo_next (b_lo_next_n linkStart 2).1).2
      = some [Slot.info linkBodyInfo, Slot.info linkHtmlInfo, Slot.null] ∧
    (b_lo_prev (b_lo_next (b_lo_next_n linkStart 2).1).1).2
      = some [Slot.info linkInfo, Slot.info linkBodyInfo, Slot.info linkHtmlInfo] ∧
    ([Slot.info linkInfo, Slot.info linkBodyInfo, Slot.info linkHtmlInfo] : List Slot)
      ≠ [Slot.info linkInfo, Slot.info linkHtmlInfo, Slot.info linkHtmlInfo] := by
  decide

/-- C27, amended: on a document whose eligible elements are pairwise distinct
in (tag, id, name, inner), if the cursor holds the triple (b, c, a) that a
`b_lo_next` or `b_lo_prev` has just returned, with "after" non-empty, then
`b_lo_next` moves to the triple whose "before" is c and whose "current" is a,
and the `b_lo_prev` that follows returns (b, c, a) again. -/
theorem next_prev_round_trip (st0 st : EngineState) (page : Page) (b c : Slot)
    (a : ElementInfo) (hb : st0.browser = some page)
    (hd : distinctFields (eligibleElems 1000 page.document))
    (hprev : b_lo_next st0 = (st, some [b, c, Slot.info a]) ∨
      b_lo_prev st0 = (st, some [b, c, Slot.info a])) :
    (∃ a2, (b_lo_next st).2 = some [c, Slot.info a, a2]) ∧
    (b_lo_prev (b_lo_next st).1).2 = some [b, c, Slot.info a] := by
  have hstore : ∃ loc0, locateAndStore st0 page loc0 = (st, some [b, c, Slot.info a]) := by
    rcases hprev with h | h
    · exact ⟨_, by rw [← b_lo_next_of_browser st0 page hb, h]⟩
    · refine ⟨elem_info_to_stmt st0.before_info, ?_⟩
      rw [← h]
      unfold b_lo_prev
      rw [hb]
  obtain ⟨loc0, hstore⟩ := hstore
  rw [locateAndStore_eq] at hstore
  simp only [Prod.mk.injEq, Option.some.injEq, List.cons.injEq, and_true] at hstore
  obtain ⟨hst, hbq, hcq, haq⟩ := hstore
  obtain ⟨y, hy, hya⟩ := (slotOf_eq_info _ a).1 haq
  obtain ⟨-, x, hx⟩ := locateFrom_after_mem _ _ none y hy
  obtain ⟨i, hxi, hT⟩ := locateFrom_exact_index _ _ none x hx
  rw [hT] at hbq hcq hy
  simp only at hbq hcq hy
  have hbrowser : st.browser = some { page with
      laitos_pjs_current_elem :=
        match (locateFrom (isTarget loc0) none (eligibleElems 1000 page.document)).2.1 with
        | some x => some x
        | none => page.laitos_pjs_current_elem } := by
    rw [← hst]
  have hex : st.exact_info = slotOf (some x) := by
    rw [← hst]
    simp only
    rw [hx]
  have haf : st.after_info = Slot.info a := by
    rw [← hst]
    simp only
    rw [hT, hy, slotOf, hya]
  have hloc : nextLocator st = elem_info_to_stmt (Slot.info (laitos_pjs_elem_to_obj y)) := by
    rw [nextLocator_of_after st x a hex haf, hya]
  obtain ⟨r1, r2, -, -, page2, hb2, hdoc2⟩ :=
    b_lo_next_at_index st _ hbrowser hd (i + 1) y hy hloc
  simp only [Nat.add_one_ne_zero, if_false, Nat.add_sub_cancel] at r2
  simp only at r1 r2 hdoc2
  constructor
  · refine ⟨slotOf (eligibleElems 1000 page.document)[i + 1 + 1]?, ?_⟩
    rw [r1, tripleAt]
    simp only [Nat.add_one_ne_zero, if_false, Nat.add_sub_cancel, hxi, hy]
    rw [← hcq, slotOf, slotOf, hya]
  · rw [b_lo_prev_spec _ page2 hb2, r2, hxi, slotOf, hdoc2,
      located_index page.document hd i x hxi]
    simp only
    rw [hbq, hy, ← hcq]
    simp only [slotOf, hya]

/-- Witness of the amended C27 on `linkPage` after the first `b_lo_next`. -/
theorem next_prev_round_trip_witness :
    (∃ a2, (b_lo_next (b_lo_next linkStart).1).2
      = some [Slot.info linkInfo, Slot.info linkBodyInfo, a2]) ∧
    (b_lo_prev (b_lo_next (b_lo_next linkStart).1).1).2
      = some [Slot.null, Slot.info linkInfo, Slot.info linkBodyInfo] :=
  next_prev_round_trip linkStart (b_lo_next linkStart).1 linkPage Slot.null
    (Slot.info linkInfo) linkBodyInfo rfl (by decide)
    (Or.inl (Prod.ext rfl (by decide)))


end Laitos
